import Mathlib

/-!
# gin_auth_service: token lifecycle, revocation list and role gates

A shallow embedding of the Go sources

* `internal/domain/entities/role.go`
* `internal/api/middleware/middleware.go`, `internal/api/middleware/token_blacklist.go`
* `internal/domain/services/auth_service.go`, `internal/domain/services/token_service.go`
* `internal/pkg/jwt/token.go`
* `internal/infrastructure/cache/redis.go`

Conventions.

* `time.Time` is an integer number of nanoseconds since the Unix epoch and
  `time.Duration` an integer number of nanoseconds; `Time.Sub` saturates at the
  bounds of an `int64` the way the Go standard library does.
* Every call of `time.Now()` in the source is an explicit argument of the
  embedded function, in source order.
* Values produced by `uuid.New()` are explicit arguments.
* Go errors are values of `Error`; a function returning `(T, error)` returns
  `Except Error T`, a function returning only `error` returns `Option Error`.
* The functions of `github.com/golang-jwt/jwt/v4` and `github.com/google/uuid`
  that depend on base64, JSON, HMAC or hexadecimal text are fields of
  `JWTLib` and `UUIDLib`; the control flow of `jwt.Parse` around them
  (method lookup, key function, signature check, `exp`/`iat`/`nbf` validation)
  is embedded as `jwtParse`.
* For the round trip of `CreateToken` and `ParseToken` the text of a token is
  taken apart one level further: `JWTCodec` holds base64url, JSON and HMAC, and
  `JWTCodec.toLib` is the jwt package over them.
-/

namespace GinAuth

/-! ## Time -/

/-- An instant: nanoseconds since the Unix epoch. -/
abbrev Time := Int

/-- A `time.Duration`: nanoseconds. -/
abbrev Duration := Int

def Second : Duration := 1000000000

def Minute : Duration := 60 * Second

def Hour : Duration := 60 * Minute

/-- Largest `time.Duration` (`1<<63 - 1`). -/
def maxDuration : Duration := 9223372036854775807

/-- Smallest `time.Duration` (`-1 << 63`). -/
def minDuration : Duration := -9223372036854775808

/-- Go `t.Sub(u)`: the difference, saturated to the range of `Duration`. -/
def Time.Sub (t u : Time) : Duration :=
  if maxDuration < t - u then maxDuration
  else if t - u < minDuration then minDuration
  else t - u

/-- Go `time.Until(t)` is `t.Sub(time.Now())`; `now` is that reading of the clock. -/
def timeUntil (now t : Time) : Duration := Time.Sub t now

/-- Go `t.Add(d)`. -/
def Time.Add (t : Time) (d : Duration) : Time := t + d

/-- Go `t.After(u)`. -/
def Time.After (t u : Time) : Bool := decide (u < t)

/-- Go `t.Before(u)`. -/
def Time.Before (t u : Time) : Bool := decide (t < u)

/-- Go `t.Unix()`: whole seconds since the epoch (rounded down). -/
def Time.Unix (t : Time) : Int := t / Second

/-- Go `time.Unix(sec, 0)`. -/
def unixTime (sec : Int) : Time := sec * Second

/-! ## Errors (`internal/errors/errors.go`) -/

/-- Failure classes of `jwt.Parse` (the `ValidationError` flags). -/
inductive JWTErrorKind
  | malformed
  | unverifiable
  | signatureInvalid
  | claimsInvalid
  deriving DecidableEq, Repr

inductive Error
  | ErrInvalidUserRole
  | ErrUserNotFound
  | ErrUnauthorized
  | ErrUserExists
  | ErrUserPhoneExists
  | ErrInvalidUUID
  | ErrUpdateConflict
  | ErrInvalidUserID
  | ErrAccountBlocked
  | ErrInvalidCredentials
  | ErrInvalidToken
  | ErrEXP
  | ErrJTI
  | ErrTokenConfig
  /-- An error of the jwt package. -/
  | jwt (kind : JWTErrorKind)
  /-- Go `fmt.Errorf(msg)` and errors of other packages. -/
  | other (msg : String)
  /-- Go `fmt.Errorf(msg + ": %w", inner)`. -/
  | wrap (msg : String) (inner : Error)
  deriving DecidableEq, Repr

deriving instance DecidableEq for Except

/-! ## Claims -/

/-- The dynamic values a `jwt.MapClaims` entry holds in this program.
`int` is a Go integer as `generateJWTToken` stores it before signing; `num` is
a `float64` holding the integral value `x`, which is what decoding a JSON
integer literal into `interface{}` yields.  Numbers with a fractional part and
nested arrays or objects are not part of the model. -/
inductive Value
  | str (s : String)
  | int (n : Int)
  | num (x : Int)
  | bool (b : Bool)
  | null
  deriving DecidableEq, Repr

/-- A `jwt.MapClaims`: `map[string]interface{}` as an association list. -/
abbrev Claims := List (String × Value)

/-- The `float64` nearest to the integer `n` (ties to even), for `n` in the
range of an `int64`: the value `strconv.ParseFloat` gives the decimal text of
`n`. Integers of magnitude up to `2^53` are exact. -/
def roundToFloat64 (n : Int) : Int :=
  let a := n.natAbs
  match (List.range 12).find? (fun sh => decide (a < 2 ^ (53 + sh))) with
  | none => n
  | some sh =>
    let q := a / 2 ^ sh
    let r := a % 2 ^ sh
    let up := decide (2 ^ sh < 2 * r) || (decide (2 * r = 2 ^ sh) && decide (q % 2 = 1))
    n.sign * (((if up then q + 1 else q) * 2 ^ sh : Nat) : Int)

/-- What a claim value becomes after `json.Marshal` followed by decoding into
`interface{}`: every number is a `float64`. -/
def Value.decoded : Value → Value
  | .int n => .num (roundToFloat64 n)
  | v => v

/-- The claims map after a JSON round trip. -/
def Claims.decoded (c : Claims) : Claims := c.map (fun kv => (kv.1, kv.2.decoded))

/-! ## The jwt package (`github.com/golang-jwt/jwt/v4`) -/

inductive Hash
  | SHA256
  | SHA384
  | SHA512
  deriving DecidableEq, Repr

/-- The registered signing methods: the three `*SigningMethodHMAC` values and
the rest (RSA, RSA-PSS, ECDSA, EdDSA, none), which are of other Go types. -/
inductive SigningMethod
  | HMAC (h : Hash)
  | nonHMAC (alg : String)
  deriving DecidableEq, Repr

/-- Go `jwt.GetSigningMethod`. -/
def GetSigningMethod (alg : String) : Option SigningMethod :=
  if alg = "HS256" then some (.HMAC .SHA256)
  else if alg = "HS384" then some (.HMAC .SHA384)
  else if alg = "HS512" then some (.HMAC .SHA512)
  else if alg ∈ ["RS256", "RS384", "RS512", "PS256", "PS384", "PS512",
                 "ES256", "ES384", "ES512", "EdDSA", "none"] then some (.nonHMAC alg)
  else none

/-- Go `SigningMethod.Alg()`. -/
def SigningMethod.Alg : SigningMethod → String
  | .HMAC .SHA256 => "HS256"
  | .HMAC .SHA384 => "HS384"
  | .HMAC .SHA512 => "HS512"
  | .nonHMAC alg => alg

/-- Go `jwt.SigningMethodHS256`. -/
def SigningMethodHS256 : SigningMethod := .HMAC .SHA256

/-- A `*jwt.Token`. -/
structure Token where
  Raw : String
  Method : SigningMethod
  /-- Go `Header["alg"]`. -/
  alg : String
  Claims : Claims
  Signature : String
  Valid : Bool
  deriving DecidableEq, Repr

/-- The three segments of a compact token after splitting at the dots and
base64url/JSON decoding of the first two. -/
structure Segments where
  /-- Go `Header["alg"]` when it is present and a string. -/
  alg : Option String
  claims : Claims
  /-- Go `parts[0] + "." + parts[1]`. -/
  signingInput : String
  /-- Go `parts[2]`. -/
  signature : String
  deriving DecidableEq, Repr

/-- The text-level primitives of the jwt package. -/
structure JWTLib where
  /-- Go `Token.SigningString()` of a token with header `alg`, `typ: JWT` and the
  given claims. -/
  signingString : String → Claims → String
  /-- Go `SigningMethodHMAC.Sign(signingString, key)` with a `[]byte` key. -/
  sign : Hash → String → String → String
  /-- Go `SigningMethodHMAC.Verify(signingString, signature, key) == nil`,
  arguments in the order hash, key, signing string, signature. -/
  verify : Hash → String → String → String → Bool
  /-- The decoding half of `Parser.ParseUnverified`; `none` when the string is
  not three dot-separated segments or a segment fails to decode. -/
  segments : String → Option Segments

/-- Go `jwt.NewWithClaims(method, claims)`. -/
def NewWithClaims (method : SigningMethod) (claims : Claims) : Token :=
  { Raw := "", Method := method, alg := method.Alg, Claims := claims,
    Signature := "", Valid := false }

/-- Go `Token.SignedString(key)` with a `[]byte` key. A method that is not HMAC
rejects a `[]byte` key. -/
def Token.SignedString (L : JWTLib) (t : Token) (key : String) : Except Error String :=
  match t.Method with
  | .HMAC h =>
    let sstr := L.signingString t.alg t.Claims
    .ok (sstr ++ "." ++ L.sign h key sstr)
  | .nonHMAC _ => .error (.other "key is of invalid type")

/-- The instant the jwt package reads from a numeric time claim holding the
integral value `x`, given by its Unix second: Go
`time.Unix(int64(x), 0)`.  A `time.Time` counts the seconds from the year 1,
which lies 62135596800 s before the epoch, in an `int64`.  For `x` from
`-2^63` up to `2^63 - 62135596800` the conversion and that count are exact and
the instant is the second `x`.  For every other `x` one of them overflows, and
the instant the package compares lies some 292 billion years in the past,
before every reading of the clock: `none`. -/
def numericDate (x : Int) : Option Int :=
  if -9223372036854775808 ≤ x ∧ x < 9223372036854775808 - 62135596800 then some x else none

/-- One time claim of `MapClaims.Valid` with `required = false`: an absent
claim and a zero `float64` pass, the instant of any other `float64` is
compared with `cmp`, every other dynamic type fails. -/
def verifyTimeClaim (c : Claims) (name : String) (cmp : Option Int → Bool) : Bool :=
  match c.lookup name with
  | none => true
  | some (.num x) => if x = 0 then true else cmp (numericDate x)
  | some _ => false

/-- Go `MapClaims.VerifyExpiresAt(now, false)`: `now` is before `exp`. -/
def VerifyExpiresAt (c : Claims) (nowUnix : Int) : Bool :=
  verifyTimeClaim c "exp" (fun exp =>
    match exp with
    | some sec => decide (nowUnix < sec)
    | none => false)

/-- Go `MapClaims.VerifyIssuedAt(now, false)`: `now` is at or after `iat`. -/
def VerifyIssuedAt (c : Claims) (nowUnix : Int) : Bool :=
  verifyTimeClaim c "iat" (fun iat =>
    match iat with
    | some sec => decide (sec ≤ nowUnix)
    | none => true)

/-- Go `MapClaims.VerifyNotBefore(now, false)`: `now` is at or after `nbf`. -/
def VerifyNotBefore (c : Claims) (nowUnix : Int) : Bool :=
  verifyTimeClaim c "nbf" (fun nbf =>
    match nbf with
    | some sec => decide (sec ≤ nowUnix)
    | none => true)

/-- Go `MapClaims.Valid() == nil` at the clock reading `now`. -/
def MapClaims.Valid (c : Claims) (now : Time) : Bool :=
  VerifyExpiresAt c now.Unix && VerifyIssuedAt c now.Unix && VerifyNotBefore c now.Unix

/-- Go `Method.Verify(signingString, signature, key) == nil` for a `[]byte` key. -/
def SigningMethod.Verify (L : JWTLib) (m : SigningMethod) (signingInput signature key : String) :
    Bool :=
  match m with
  | .HMAC h => L.verify h key signingInput signature
  | .nonHMAC _ => false

/-- Go `jwt.Parse(tokenString, keyFunc)`; `now` is the reading of `jwt.TimeFunc`. -/
def jwtParse (L : JWTLib) (now : Time) (tokenString : String)
    (keyFunc : Token → Except Error String) : Except Error Token :=
  match L.segments tokenString with
  | none => .error (.jwt .malformed)
  | some seg =>
    match seg.alg with
    | none => .error (.jwt .unverifiable)
    | some alg =>
      match GetSigningMethod alg with
      | none => .error (.jwt .unverifiable)
      | some method =>
        let token : Token :=
          { Raw := tokenString, Method := method, alg := alg, Claims := seg.claims,
            Signature := "", Valid := false }
        match keyFunc token with
        | .error _ => .error (.jwt .unverifiable)
        | .ok key =>
          if method.Verify L seg.signingInput seg.signature key = false then
            .error (.jwt .signatureInvalid)
          else if MapClaims.Valid seg.claims now = false then
            .error (.jwt .claimsInvalid)
          else
            .ok { token with Signature := seg.signature, Valid := true }

/-! ## The uuid package (`github.com/google/uuid`) -/

/-- A `uuid.UUID`: 128 bits. -/
structure UUID where
  bits : Nat
  deriving DecidableEq, Repr

/-- The text-level functions of the uuid package. -/
structure UUIDLib where
  /-- Go `UUID.String()`. -/
  Str : UUID → String
  /-- Go `uuid.Parse(s)`; `none` when it returns an error. -/
  Parse : String → Option UUID

/-! ## Configuration (`config/config.go`) -/

structure JWTConfig where
  Secret : String
  Expiry : Duration
  RefreshExpiry : Duration
  deriving DecidableEq, Repr

/-! ## Roles (`internal/domain/entities/role.go`) -/

/-- Go `type Role string`. -/
abbrev Role := String

def RoleSuperUser : Role := "superuser"

def RoleAdmin : Role := "admin"

def RoleManager : Role := "manager"

def RoleUser : Role := "user"

def Role.IsValid (r : Role) : Bool :=
  if r = RoleSuperUser ∨ r = RoleAdmin ∨ r = RoleUser ∨ r = RoleManager then true else false

def Role.Level (r : Role) : Int :=
  if r = RoleSuperUser then 4
  else if r = RoleAdmin then 3
  else if r = RoleManager then 2
  else if r = RoleUser then 1
  else 0

def Role.HasLevel (r : Role) (minLevel : Int) : Bool :=
  decide (r.Level ≥ minLevel)

/-! ## Users (`internal/domain/entities/user.go`, `internal/domain/dto/user.go`) -/

/-- An `entities.User` without its timestamps. -/
structure User where
  ID : UUID
  FirstName : String
  LastName : String
  MiddleName : String
  Phone : String
  Password : String
  Role : Role
  Photo : String
  IsActive : Bool
  deriving DecidableEq, Repr

/-- A `dto.UserResponseDTO` without its timestamps. -/
structure UserResponseDTO where
  ID : UUID
  FirstName : String
  LastName : String
  MiddleName : String
  Phone : String
  Role : Role
  Photo : String
  IsActive : Bool
  deriving DecidableEq, Repr

/-- Go `UserResponseDTO.FromModel`. -/
def UserResponseDTO.FromModel (user : User) : UserResponseDTO :=
  { ID := user.ID, FirstName := user.FirstName, LastName := user.LastName,
    MiddleName := user.MiddleName, Phone := user.Phone, Role := user.Role,
    Photo := user.Photo, IsActive := user.IsActive }

structure LoginResponseDTO where
  AccessToken : String
  RefreshToken : String
  Message : String
  deriving DecidableEq, Repr

structure TokenResponseDTO where
  AccessToken : String
  User : UserResponseDTO
  ExpiresAt : Time
  Message : String
  deriving DecidableEq, Repr

/-- The `repositories.UserRepository` interface, for the two queries the
authentication service makes. -/
structure UserRepository where
  GetID : UUID → Except Error User
  FindByPhone : String → Except Error User

/-! ## The in-memory cache (`internal/infrastructure/cache/redis.go`) -/

structure cacheItem where
  value : String
  expiration : Time
  deriving DecidableEq, Repr

/-- The `store` map of a `redisCache`, as an association list with one entry
per key. -/
abbrev Store := List (String × cacheItem)

/-- Go `delete(r.store, key)`. -/
def Store.delete (s : Store) (key : String) : Store :=
  s.filter (fun kv => decide (kv.1 ≠ key))

/-- Go `r.store[key] = item`. -/
def Store.put (s : Store) (key : String) (item : cacheItem) : Store :=
  (key, item) :: Store.delete s key

/-- Go `item, exists := r.store[key]`. -/
def Store.find (s : Store) (key : String) : Option cacheItem :=
  s.lookup key

/-- The `Cache` interface of `token_service.go` over a cache whose state has
type `σ`.  Each operation receives the state and the instant of the call and
returns the new state with the Go result. -/
structure Cache (σ : Type) where
  Set : σ → Time → String → String → Duration → σ × Option Error
  Get : σ → Time → String → σ × Except Error String
  Delete : σ → Time → String → σ × Option Error
  Exists : σ → Time → String → σ × Except Error Bool

namespace redisCache

def Set (s : Store) (now : Time) (key value : String) (expiration : Duration) :
    Store × Option Error :=
  let expTime := Time.Add now expiration
  (Store.put s key { value := value, expiration := expTime }, none)

def Get (s : Store) (now : Time) (key : String) : Store × Except Error String :=
  match Store.find s key with
  | none => (s, .error (.other "key not found"))
  | some item =>
    if Time.After now item.expiration then
      (Store.delete s key, .error (.other "key expired"))
    else
      (s, .ok item.value)

def Delete (s : Store) (_now : Time) (key : String) : Store × Option Error :=
  (Store.delete s key, none)

def Exists (s : Store) (now : Time) (key : String) : Store × Except Error Bool :=
  match Store.find s key with
  | none => (s, .ok false)
  | some item =>
    if Time.After now item.expiration then
      (Store.delete s key, .ok false)
    else
      (s, .ok true)

def SetNX (s : Store) (now : Time) (key value : String) (expiration : Duration) :
    Store × Except Error Bool :=
  match Store.find s key with
  | some _ => (s, .ok false)
  | none =>
    let expTime := Time.Add now expiration
    (Store.put s key { value := value, expiration := expTime }, .ok true)

end redisCache

/-- The `redisCache` as the `Cache` the token service is built with
(`routes.go`). -/
def redisCacheImpl : Cache Store :=
  { Set := redisCache.Set, Get := redisCache.Get, Delete := redisCache.Delete,
    Exists := redisCache.Exists }

/-! ## The JWT service (`internal/pkg/jwt/token.go`) -/

/-- The key function every `jwt.Parse` call of this repository passes: it
accepts a token whose method is a `*jwt.SigningMethodHMAC` and returns the
secret. -/
def keyFunc (secret : String) (token : Token) : Except Error String :=
  match token.Method with
  | .HMAC _ => .ok secret
  | .nonHMAC _ => .error (.other "unexpected signing method")

namespace jwtService

def CreateToken (L : JWTLib) (secretKey : String) (claims : Claims) : Except Error String :=
  let token := NewWithClaims SigningMethodHS256 claims
  match token.SignedString L secretKey with
  | .error err => .error (.wrap "failed to sign token" err)
  | .ok tokenString => .ok tokenString

def ParseToken (L : JWTLib) (secretKey : String) (now : Time) (tokenString : String) :
    Except Error Token :=
  match jwtParse L now tokenString (keyFunc secretKey) with
  | .error err => .error (.wrap "failed to parse token" err)
  | .ok token => .ok token

/-- Go `ValidateToken`; the conversion `int64(exp)` is taken as exact, as it
is for every `exp` in the range of an `int64`. -/
def ValidateToken (now : Time) (token : Token) : Option Error :=
  if token.Valid = false then some (.other "invalid token")
  else
    match token.Claims.lookup "exp" with
    | some (.num exp) =>
      if now.Unix > exp then some (.other "token expired") else none
    | _ => none

end jwtService

/-! ## The token service (`internal/domain/services/token_service.go`) -/

namespace tokenService

variable {σ : Type}

/-- Go `fmt.Sprintf("blacklist:%s", tokenString)`. -/
def tokenKey (tokenString : String) : String := "blacklist:" ++ tokenString

/-- Go `BlacklistToken`; `nowUntil` is the clock reading of `time.Until`,
`nowSet` the instant of the cache call. -/
def BlacklistToken (C : Cache σ) (st : σ) (nowUntil nowSet : Time) (tokenString : String)
    (expiry : Time) : σ × Option Error :=
  if tokenString = "" then (st, some (.other "token string is required"))
  else
    let blacklistExpiry := timeUntil nowUntil expiry
    let blacklistExpiry := if blacklistExpiry ≤ 0 then Hour else blacklistExpiry
    match C.Set st nowSet (tokenKey tokenString) "blacklisted" blacklistExpiry with
    | (st', some err) => (st', some (.wrap "failed to add token to blacklist" err))
    | (st', none) => (st', none)

def IsTokenBlacklisted (C : Cache σ) (st : σ) (now : Time) (tokenString : String) :
    σ × Except Error Bool :=
  if tokenString = "" then (st, .error (.other "token string is required"))
  else
    match C.Exists st now (tokenKey tokenString) with
    | (st', .error err) => (st', .error (.wrap "failed to check token blacklist status" err))
    | (st', .ok found) => (st', .ok found)

def RemoveFromBlacklist (C : Cache σ) (st : σ) (now : Time) (tokenString : String) :
    σ × Option Error :=
  if tokenString = "" then (st, some (.other "token string is required"))
  else
    match C.Delete st now (tokenKey tokenString) with
    | (st', some err) => (st', some (.wrap "failed to remove token from blacklist" err))
    | (st', none) => (st', none)

end tokenService

/-! ## The authentication service (`internal/domain/services/auth_service.go`) -/

/-- The `authService` struct: its repository, the cache behind its token
service and the JWT section of its configuration, together with the two
imported packages its methods call. -/
structure authService (σ : Type) where
  userRepository : UserRepository
  cache : Cache σ
  config : JWTConfig
  jwt : JWTLib
  uuid : UUIDLib

namespace authService

variable {σ : Type}

/-- The access claims `generateJWTToken` builds. -/
def accessClaims (s : authService σ) (user : User) (accessExpiry iatNow : Time) (jti : UUID) :
    Claims :=
  [("user_id", .str (s.uuid.Str user.ID)),
   ("role", .str user.Role),
   ("exp", .int accessExpiry.Unix),
   ("type", .str "access"),
   ("jti", .str (s.uuid.Str jti)),
   ("iat", .int iatNow.Unix)]

/-- The refresh claims `generateJWTToken` builds. -/
def refreshClaims (s : authService σ) (user : User) (refreshExpiry iatNow : Time) (jti : UUID) :
    Claims :=
  [("user_id", .str (s.uuid.Str user.ID)),
   ("role", .str user.Role),
   ("exp", .int refreshExpiry.Unix),
   ("type", .str "refresh"),
   ("jti", .str (s.uuid.Str jti)),
   ("iat", .int iatNow.Unix)]

/-- Go `generateJWTToken`; `now1 .. now4` are its four readings of the clock
(lines 58, 59, 67 and 76) and `jti1`, `jti2` the two fresh UUIDs. -/
def generateJWTToken (s : authService σ) (user : User) (now1 now2 now3 now4 : Time)
    (jti1 jti2 : UUID) : Except Error (String × String × Time) :=
  let accessExpiry := Time.Add now1 s.config.Expiry
  let refreshExpiry := Time.Add now2 s.config.RefreshExpiry
  let atoken := NewWithClaims SigningMethodHS256 (accessClaims s user accessExpiry now3 jti1)
  let rtoken := NewWithClaims SigningMethodHS256 (refreshClaims s user refreshExpiry now4 jti2)
  match atoken.SignedString s.jwt s.config.Secret with
  | .error err => .error (.wrap "ошибка подписи access токена" err)
  | .ok accessToken =>
    match rtoken.SignedString s.jwt s.config.Secret with
    | .error err => .error (.wrap "ошибка подписи refresh токена" err)
    | .ok refreshToken => .ok (accessToken, refreshToken, accessExpiry)

def VerifyToken (s : authService σ) (now : Time) (tokenString : String) : Except Error Token :=
  if tokenString = "" then .error .ErrInvalidToken
  else
    match jwtParse s.jwt now tokenString (keyFunc s.config.Secret) with
    | .error err => .error (.wrap "invalid token" err)
    | .ok token =>
      if token.Valid = false then .error .ErrInvalidToken
      else if token.Claims.lookup "type" ≠ some (.str "access") then .error .ErrInvalidToken
      else .ok token

/-- Go `GetUserFromToken`; the token argument is a pointer, `none` is `nil`. -/
def GetUserFromToken (s : authService σ) (token : Option Token) :
    Except Error UserResponseDTO :=
  match token with
  | none => .error .ErrInvalidToken
  | some token =>
    if token.Valid = false then .error .ErrInvalidToken
    else
      match token.Claims.lookup "user_id" with
      | some (.str userID) =>
        match s.uuid.Parse userID with
        | none => .error (.wrap "ошибка при парсинге ID пользователя" (.other "invalid UUID"))
        | some id =>
          match s.userRepository.GetID id with
          | .error err => .error (.wrap "failed to find user" err)
          | .ok user => .ok (UserResponseDTO.FromModel user)
      | _ => .error .ErrJTI

/-- Go `Logout`; `nowParse` is the clock reading of `jwt.Parse`, `nowUntil` and
`nowSet` those of `BlacklistToken`.  The conversion `int64(exp)` is exact on
every `exp` that has passed `jwt.Parse`. -/
def Logout (s : authService σ) (st : σ) (nowParse nowUntil nowSet : Time)
    (tokenString : String) : σ × Option Error :=
  if tokenString = "" then (st, some .ErrInvalidToken)
  else
    match jwtParse s.jwt nowParse tokenString (keyFunc s.config.Secret) with
    | .error err => (st, some (.wrap "invalid token" err))
    | .ok token =>
      if token.Valid = false then (st, some .ErrInvalidToken)
      else
        match token.Claims.lookup "exp" with
        | some (.num exp) =>
          let expiryTime := unixTime exp
          match tokenService.BlacklistToken s.cache st nowUntil nowSet tokenString expiryTime with
          | (st', some err) => (st', some (.wrap "failed to blacklist token" err))
          | (st', none) => (st', none)
        | _ => (st, some .ErrInvalidToken)

/-- Go `RefreshToken`; `nowParse` is the clock reading of `jwt.Parse`, the
other readings and the UUIDs are those of `generateJWTToken`.  The second
component lists the ids looked up in the user repository, in order. -/
def RefreshToken (s : authService σ) (nowParse now1 now2 now3 now4 : Time) (jti1 jti2 : UUID)
    (refreshToken : String) : Except Error TokenResponseDTO × List UUID :=
  if refreshToken = "" then (.error .ErrInvalidToken, [])
  else
    match jwtParse s.jwt nowParse refreshToken (keyFunc s.config.Secret) with
    | .error _ => (.error .ErrInvalidToken, [])
    | .ok token =>
      if token.Valid = false then (.error .ErrInvalidToken, [])
      else if token.Claims.lookup "type" ≠ some (.str "refresh") then
        (.error .ErrInvalidToken, [])
      else
        match token.Claims.lookup "user_id" with
        | some (.str userIDStr) =>
          match s.uuid.Parse userIDStr with
          | none =>
            (.error (.wrap "ошибка при парсинге ID пользователя" (.other "invalid UUID")), [])
          | some userID =>
            match s.userRepository.GetID userID with
            | .error err => (.error (.wrap "failed to find user" err), [userID])
            | .ok user =>
              match generateJWTToken s user now1 now2 now3 now4 jti1 jti2 with
              | .error err => (.error (.wrap "token generation error" err), [userID])
              | .ok (accessToken, _newRefreshToken, expiresAt) =>
                (.ok { AccessToken := accessToken, User := UserResponseDTO.FromModel user,
                       ExpiresAt := expiresAt, Message := "Token refreshed successfully" },
                 [userID])
        | _ => (.error .ErrInvalidToken, [])

end authService

/-! ## Middleware (`internal/api/middleware`) -/

/-- Go `strings.HasPrefix(s, p)`. -/
def stringsHasPrefix (s p : String) : Bool := p.data.isPrefixOf s.data

/-- Go `strings.TrimPrefix(s, p)`. -/
def stringsTrimPrefix (s p : String) : String :=
  if stringsHasPrefix s p then String.mk (s.data.drop p.data.length) else s

/-- The pieces of a character list between its spaces. -/
def splitAtSpaces : List Char → List (List Char)
  | [] => [[]]
  | c :: cs =>
    if c = ' ' then [] :: splitAtSpaces cs
    else
      match splitAtSpaces cs with
      | [] => [[c]]
      | w :: ws => (c :: w) :: ws

/-- Go `strings.Split(s, " ")`. -/
def stringsSplitSpace (s : String) : List String := (splitAtSpaces s.data).map String.mk

def AuthorizationHeaderKey : String := "Authorization"

def BearerSchema : String := "Bearer "

def AccessTokenCookieName : String := "access_token"

/-- The parts of the request the middleware reads. -/
structure Request where
  /-- The value `c.Cookie("access_token")` returns; `none` when it returns an
  error (no such cookie). -/
  accessTokenCookie : Option String
  /-- Go `c.GetHeader("Authorization")`, empty when the header is absent. -/
  authorization : String
  deriving DecidableEq, Repr

/-- The request together with the context keys `id`, `user` and `role`. -/
structure Context where
  request : Request
  id : Option UUID
  user : Option UserResponseDTO
  role : Option String
  deriving DecidableEq, Repr

/-- The status and the `error` and `code` fields of the JSON body an aborting
middleware writes (`code` is empty when the body has none). -/
structure Response where
  status : Nat
  error : String
  code : String
  deriving DecidableEq, Repr

/-- What a middleware does with a request: it calls `c.Next()` with the
context it has built, or it writes a response and calls `c.Abort()`. -/
inductive Outcome
  | next (c : Context)
  | abort (r : Response)
  deriving DecidableEq, Repr

def StatusUnauthorized : Nat := 401

def StatusForbidden : Nat := 403

def StatusInternalServerError : Nat := 500

/-- The token string `AuthMiddleware` extracts: the cookie when present and
non-empty, else what follows `Bearer ` in the Authorization header. -/
def authTokenString (r : Request) : String :=
  let fromHeader :=
    if stringsHasPrefix r.authorization BearerSchema then
      stringsTrimPrefix r.authorization BearerSchema
    else ""
  match r.accessTokenCookie with
  | some cookieToken => if cookieToken ≠ "" then cookieToken else fromHeader
  | none => fromHeader

/-- Go `AuthMiddleware(authService)`; `now` is the clock reading of
`VerifyToken`. -/
def AuthMiddleware {σ : Type} (s : authService σ) (now : Time) (c : Context) : Outcome :=
  let tokenString := authTokenString c.request
  if tokenString = "" then
    .abort { status := StatusUnauthorized, error := "Отсутствует токен авторизации",
             code := "AUTH_TOKEN_MISSING" }
  else
    match s.VerifyToken now tokenString with
    | .error _ =>
      .abort { status := StatusUnauthorized, error := "Недействительный токен",
               code := "AUTH_TOKEN_INVALID" }
    | .ok token =>
      match s.GetUserFromToken (some token) with
      | .error _ =>
        .abort { status := StatusUnauthorized,
                 error := "Ошибка получения пользователя из токена",
                 code := "AUTH_USER_NOT_FOUND" }
      | .ok userDTO =>
        .next { c with id := some userDTO.ID, user := some userDTO, role := some userDTO.Role }

/-- Go `TokenBlacklistMiddleware(tokenService)`; `now` is the instant of the
cache lookup. -/
def TokenBlacklistMiddleware {σ : Type} (C : Cache σ) (st : σ) (now : Time) (c : Context) :
    σ × Outcome :=
  let authHeader := c.request.authorization
  if authHeader = "" then (st, .next c)
  else
    match stringsSplitSpace authHeader with
    | [bearer, tokenString] =>
      if bearer ≠ "Bearer" then (st, .next c)
      else
        match tokenService.IsTokenBlacklisted C st now tokenString with
        | (st', .error _) =>
          (st', .abort { status := StatusInternalServerError,
                         error := "Failed to check token status", code := "" })
        | (st', .ok isBlacklisted) =>
          if isBlacklisted then
            (st', .abort { status := StatusUnauthorized, error := "Token is blacklisted",
                           code := "" })
          else (st', .next c)
    | _ => (st, .next c)

def roleMissing : Response :=
  { status := StatusUnauthorized, error := "Роль пользователя не определена",
    code := "AUTH_ROLE_MISSING" }

def insufficientPrivileges : Response :=
  { status := StatusForbidden, error := "Недостаточно прав для выполнения операции",
    code := "AUTH_INSUFFICIENT_PRIVILEGES" }

def AdminRoleMiddleware (c : Context) : Outcome :=
  match c.role with
  | none => .abort roleMissing
  | some roleStr =>
    if roleStr ≠ "admin" then .abort insufficientPrivileges
    else .next c

def SuperUserRoleMiddleware (c : Context) : Outcome :=
  match c.role with
  | none => .abort roleMissing
  | some roleStr =>
    if roleStr ≠ "superuser" then .abort insufficientPrivileges
    else .next c

def ManagerRoleMiddleware (c : Context) : Outcome :=
  match c.role with
  | none => .abort roleMissing
  | some roleStr =>
    if roleStr ≠ "manager" ∧ roleStr ≠ "admin" ∧ roleStr ≠ "superuser" then
      .abort insufficientPrivileges
    else .next c

def RequireRoleMiddleware (roles : List String) (c : Context) : Outcome :=
  match c.role with
  | none => .abort roleMissing
  | some userRole =>
    if roles.any (fun requiredRole => decide (userRole = requiredRole)) then .next c
    else .abort insufficientPrivileges

/-- The level table written out in `RequireRoleLevelMiddleware`. -/
def userLevel (roleStr : String) : Int :=
  if roleStr = "superuser" then 4
  else if roleStr = "admin" then 3
  else if roleStr = "manager" then 2
  else if roleStr = "user" then 1
  else 0

def RequireRoleLevelMiddleware (minLevel : Int) (c : Context) : Outcome :=
  match c.role with
  | none => .abort roleMissing
  | some roleStr =>
    if userLevel roleStr < minLevel then .abort insufficientPrivileges
    else .next c

/-- The chain `protected.Use(authMiddleware, tokenBlacklistMiddleware)` of
`routes.go`: the second middleware runs when the first calls `c.Next()`. -/
def protectedChain {σ : Type} (s : authService σ) (st : σ) (nowAuth nowBlacklist : Time)
    (c : Context) : σ × Outcome :=
  match AuthMiddleware s nowAuth c with
  | .abort r => (st, .abort r)
  | .next c' => TokenBlacklistMiddleware s.cache st nowBlacklist c'

/-! ## What the theorems ask of the imported packages -/

/-- The jwt package decodes the token it produced for `claims` under the
header algorithm `alg`, and accepts the signature it made with `key`: the
decoded claims are the JSON round trip of the encoded ones. -/
def JWTLib.RoundTrips (L : JWTLib) (h : Hash) (alg key : String) (claims : Claims) : Prop :=
  L.segments (L.signingString alg claims ++ "." ++ L.sign h key (L.signingString alg claims))
      = some { alg := some alg, claims := claims.decoded,
               signingInput := L.signingString alg claims,
               signature := L.sign h key (L.signingString alg claims) }
    ∧ L.verify h key (L.signingString alg claims)
        (L.sign h key (L.signingString alg claims)) = true

instance (L : JWTLib) (h : Hash) (alg key : String) (claims : Claims) :
    Decidable (L.RoundTrips h alg key claims) := by
  unfold JWTLib.RoundTrips
  infer_instance

/-! ## A small instance of the imported packages, for evaluation -/

namespace demo

def renderValue : Value → String
  | .str s => "\"" ++ s ++ "\""
  | .int n => toString n
  | .num x => toString x
  | .bool b => if b then "true" else "false"
  | .null => "null"

def renderClaims (c : Claims) : String :=
  String.join (c.map (fun kv => kv.1 ++ "=" ++ renderValue kv.2 ++ ";"))

def hashName : Hash → String
  | .SHA256 => "256"
  | .SHA384 => "384"
  | .SHA512 => "512"

def signingString (alg : String) (c : Claims) : String := alg ++ "." ++ renderClaims c

def sign (h : Hash) (key signingInput : String) : String :=
  "mac" ++ hashName h ++ "(" ++ key ++ "," ++ toString signingInput.length ++ ")"

/-- A stand-in for the jwt package whose decoder knows the listed tokens, each
given by its header algorithm, its claims as encoded and its signature
segment. -/
def jwtLib (known : List (String × Claims × String)) : JWTLib :=
  { signingString := signingString
    sign := sign
    verify := fun h key signingInput signature => decide (signature = sign h key signingInput)
    segments := fun tokenString =>
      known.findSome? (fun e =>
        if tokenString = signingString e.1 e.2.1 ++ "." ++ e.2.2 then
          some { alg := some e.1, claims := Claims.decoded e.2.1,
                 signingInput := signingString e.1 e.2.1, signature := e.2.2 }
        else none) }

/-- A stand-in for the uuid package whose parser knows the listed values. -/
def uuidLib (known : List UUID) : UUIDLib :=
  { Str := fun u => "uuid-" ++ toString u.bits
    Parse := fun s => known.find? (fun u => decide ("uuid-" ++ toString u.bits = s)) }

def alice : User :=
  { ID := { bits := 7 }, FirstName := "Alice", LastName := "A", MiddleName := "",
    Phone := "+996500500500", Password := "hash", Role := "superuser", Photo := "",
    IsActive := true }

def repo : UserRepository :=
  { GetID := fun id => if id = alice.ID then .ok alice else .error .ErrUserNotFound
    FindByPhone := fun phone =>
      if phone = alice.Phone then .ok alice else .error .ErrUserNotFound }

def config : JWTConfig := { Secret := "k", Expiry := 24 * Hour, RefreshExpiry := 168 * Hour }

def uuids : UUIDLib := uuidLib [alice.ID]

/-- The instant at which the tokens of `alice` are issued: 100 s. -/
def issuedAt : Time := 100 * Second

/-- The clock reading of the requests that follow: 105 s. -/
def later : Time := 105 * Second

/-- The claims of the access token issued to `alice` at `issuedAt`. -/
def aliceAccess : Claims :=
  [("user_id", .str "uuid-7"), ("role", .str "superuser"), ("exp", .int 86500),
   ("type", .str "access"), ("jti", .str "uuid-1"), ("iat", .int 100)]

/-- The claims of the refresh token issued to `alice` at `issuedAt`. -/
def aliceRefresh : Claims :=
  [("user_id", .str "uuid-7"), ("role", .str "superuser"), ("exp", .int 604900),
   ("type", .str "refresh"), ("jti", .str "uuid-2"), ("iat", .int 100)]

/-- The access token of `alice`, signed with the secret of `config`. -/
def accessToken : String :=
  signingString "HS256" aliceAccess ++ "." ++ sign .SHA256 "k" (signingString "HS256" aliceAccess)

/-- The refresh token of `alice`, signed with the secret of `config`. -/
def refreshToken : String :=
  signingString "HS256" aliceRefresh ++ "." ++
    sign .SHA256 "k" (signingString "HS256" aliceRefresh)

def service : authService Store :=
  { userRepository := repo
    cache := redisCacheImpl
    config := config
    jwt := jwtLib [("HS256", aliceAccess, sign .SHA256 "k" (signingString "HS256" aliceAccess)),
                   ("HS256", aliceRefresh, sign .SHA256 "k" (signingString "HS256" aliceRefresh))]
    uuid := uuids }

/-- A request carrying the access token of `alice` in the `access_token`
cookie, as the browser sends it after `Login`, with no Authorization header. -/
def cookieRequest : Context :=
  { request := { accessTokenCookie := some accessToken, authorization := "" },
    id := none, user := none, role := none }

/-- A request carrying the access token of `alice` in the Authorization header. -/
def bearerRequest : Context :=
  { request := { accessTokenCookie := none, authorization := "Bearer " ++ accessToken },
    id := none, user := none, role := none }

/-- The store after `alice` has logged out at `later`: one revocation entry
for her access token, expiring with the token. -/
def revoked : Store :=
  [("blacklist:" ++ accessToken, { value := "blacklisted", expiration := unixTime 86500 })]

/-- Claims whose `exp` is the first second after the epoch. -/
def expiredClaims : Claims := [("sub", .str "alice"), ("exp", .num 1)]

/-- Claims holding a Go integer, as `generateJWTToken` builds them. -/
def intClaims : Claims := [("sub", .str "alice"), ("exp", .int 86500)]

/-- Claims holding only strings and `float64` numbers. -/
def plainClaims : Claims := [("sub", .str "alice"), ("exp", .num 86500)]

/-- The jwt stand-in that knows the tokens of the three claims sets above,
signed with the key "k". -/
def codec : JWTLib :=
  jwtLib [("HS256", expiredClaims, sign .SHA256 "k" (signingString "HS256" expiredClaims)),
          ("HS256", intClaims, sign .SHA256 "k" (signingString "HS256" intClaims)),
          ("HS256", plainClaims, sign .SHA256 "k" (signingString "HS256" plainClaims))]

end demo

/-- A cache double that records the key, value and TTL of every `Set` call
and holds nothing. -/
def recordingCache : Cache (List (String × String × Duration)) :=
  { Set := fun st _ key value expiration => (st ++ [(key, value, expiration)], none)
    Get := fun st _ _ => (st, .error (.other "key not found"))
    Delete := fun st _ _ => (st, none)
    Exists := fun st _ _ => (st, .ok false) }

/-! ## Password check and login (`internal/pkg/crypto`, `auth_service.go`) -/

/-- The function of `golang.org/x/crypto/bcrypt` the password check calls. -/
structure BcryptLib where
  /-- Go `bcrypt.CompareHashAndPassword(hashedPassword, password)`; `none` is
  the `nil` error of a match. -/
  CompareHashAndPassword : String → String → Option Error

/-- Go `crypto.CheckPassword(hashedPassword, password)`. -/
def crypto.CheckPassword (B : BcryptLib) (hashedPassword password : String) : Option Error :=
  B.CompareHashAndPassword hashedPassword password

/-- Go `User.CheckPassword(password)`. -/
def User.CheckPassword (B : BcryptLib) (u : User) (password : String) : Option Error :=
  crypto.CheckPassword B u.Password password

structure LoginRequestDTO where
  Phone : String
  Password : String
  deriving DecidableEq, Repr

namespace authService

variable {σ : Type}

/-- Go `GenerateRefreshToken`; `now` is its reading of the clock and `jti` the
fresh UUID. -/
def GenerateRefreshToken (s : authService σ) (user : User) (now : Time) (jti : UUID) :
    Except Error (String × Time) :=
  if s.config.Secret = "" then .error .ErrTokenConfig
  else
    let expiresAt := Time.Add now s.config.RefreshExpiry
    let claims : Claims :=
      [("user_id", .str (s.uuid.Str user.ID)),
       ("exp", .int expiresAt.Unix),
       ("type", .str "refresh"),
       ("jti", .str (s.uuid.Str jti))]
    let token := NewWithClaims SigningMethodHS256 claims
    match token.SignedString s.jwt s.config.Secret with
    | .error err => .error err
    | .ok tokenString => .ok (tokenString, expiresAt)

/-- Go `Login`; the clock readings and UUIDs are those of `generateJWTToken`. -/
def Login (s : authService σ) (B : BcryptLib) (request : LoginRequestDTO)
    (now1 now2 now3 now4 : Time) (jti1 jti2 : UUID) : Except Error LoginResponseDTO :=
  match s.userRepository.FindByPhone request.Phone with
  | .error _ => .error .ErrInvalidCredentials
  | .ok user =>
    if user.IsActive = false then .error .ErrAccountBlocked
    else
      match user.CheckPassword B request.Password with
      | some _ => .error .ErrInvalidCredentials
      | none =>
        match generateJWTToken s user now1 now2 now3 now4 jti1 jti2 with
        | .error err => .error (.wrap "token generation error" err)
        | .ok (accessToken, refreshToken, _) =>
          .ok { AccessToken := accessToken, RefreshToken := refreshToken,
                Message := "Success authorization" }

end authService

/-! ## Sequences of cache calls (`redis.go`) -/

namespace redisCache

/-- One pass of the loop body of `cleanupExpired` at the clock reading `now`:
every entry with `now.After(item.expiration)` is deleted. -/
def cleanupExpiredPass (s : Store) (now : Time) : Store :=
  s.filter (fun kv => !Time.After now kv.2.expiration)

/-- A call on the cache, or one pass of the background sweep. -/
inductive Call
  | Set (key value : String) (expiration : Duration)
  | Get (key : String)
  | Exists (key : String)
  | Delete (key : String)
  | Sweep
  deriving DecidableEq, Repr

/-- The store after one call made at the instant `now`. -/
def step (s : Store) (now : Time) : Call → Store
  | .Set key value expiration => (redisCache.Set s now key value expiration).1
  | .Get key => (redisCache.Get s now key).1
  | .Exists key => (redisCache.Exists s now key).1
  | .Delete key => (redisCache.Delete s now key).1
  | .Sweep => cleanupExpiredPass s now

/-- The store after a sequence of calls, each with the instant it is made at. -/
def run (s : Store) : List (Time × Call) → Store
  | [] => s
  | (now, call) :: rest => run (step s now call) rest

/-- What one call writes when nothing is ever purged: `Set` records the entry,
`Delete` removes it, the other calls write nothing. -/
def written1 (g : String → Option cacheItem) (now : Time) : Call → String → Option cacheItem
  | .Set key value expiration =>
    Function.update g key (some { value := value, expiration := Time.Add now expiration })
  | .Delete key => Function.update g key none
  | _ => g

/-- The entries a sequence of calls has written, expired or not. -/
def written (g : String → Option cacheItem) : List (Time × Call) → String → Option cacheItem
  | [] => g
  | (now, call) :: rest => written (written1 g now call) rest

/-- The store agrees with what has been written, up to entries that had
expired by the clock reading `clock` and have been purged; its keys are
distinct. -/
def agrees (s : Store) (g : String → Option cacheItem) (clock : Time) : Prop :=
  (s.map Prod.fst).Nodup ∧
  ∀ key, Store.find s key = g key ∨
    (Store.find s key = none ∧ ∃ item, g key = some item ∧ item.expiration < clock)

/-- No call in the sequence is a `Set` of the key. -/
def noSet (calls : List (Time × Call)) (key : String) : Prop :=
  ∀ now value expiration, (now, Call.Set key value expiration) ∉ calls

/-- Some call in the sequence is a `Delete` of the key. -/
def someDelete (calls : List (Time × Call)) (key : String) : Prop :=
  ∃ now, (now, Call.Delete key) ∈ calls

/-- The clock readings of the calls, followed by `now`, never decrease. -/
def clockOrdered (calls : List (Time × Call)) (now : Time) : Prop :=
  List.Pairwise (fun a b => a ≤ b) (calls.map Prod.fst ++ [now])

end redisCache

/-! ## Loading the configuration (`config/config.go`) -/

structure DatabaseConfig where
  Host : String
  User : String
  Password : String
  Name : String
  deriving DecidableEq, Repr

structure MinioConfig where
  MinioAccessKey : String
  MinioSecretKey : String
  deriving DecidableEq, Repr

/-- The sections of `Config` that `validate` and the token code read. -/
structure Config where
  Database : DatabaseConfig
  JWT : JWTConfig
  Minio : MinioConfig
  deriving DecidableEq, Repr

/-- Go `Config.validate`. -/
def Config.validate (c : Config) : Option Error :=
  if c.Database.Host = "" then some (.other "DB_HOST is required")
  else if c.Database.User = "" then some (.other "DB_USER is required")
  else if c.Database.Password = "" then some (.other "DB_PASSWORD is required")
  else if c.Database.Name = "" then some (.other "DB_NAME is required")
  else if c.JWT.Secret = "" then some (.other "SECRET_KEY is required")
  else if c.Minio.MinioAccessKey = "" then some (.other "MINIO_ACCESS_KEY is required")
  else if c.Minio.MinioSecretKey = "" then some (.other "MINIO_SECRET_KEY is required")
  else none

/-- Go `getEnv`; `env` is `os.LookupEnv`. -/
def getEnv (env : String → Option String) (key fallback : String) : String :=
  match env key with
  | some value => value
  | none => fallback

/-- Go `getEnvAsInt`; `atoi` is `strconv.Atoi`, `none` when it returns an error. -/
def getEnvAsInt (env : String → Option String) (atoi : String → Option Int) (key : String)
    (fallback : Int) : Int :=
  match env key with
  | some value =>
    match atoi value with
    | some intVal => intVal
    | none => fallback
  | none => fallback

/-- The value of an integer expression in an `int64`: reduced modulo `2^64`
into the range from `-2^63` to `2^63 - 1`. -/
def wrapInt64 (x : Int) : Int :=
  (x + 9223372036854775808) % 18446744073709551616 - 9223372036854775808

/-- Go `LoadConfig`, for the sections above. -/
def LoadConfig (env : String → Option String) (atoi : String → Option Int) :
    Except Error Config :=
  let config : Config :=
    { Database :=
        { Host := getEnv env "DB_HOST" "", User := getEnv env "DB_USER" "",
          Password := getEnv env "DB_PASSWORD" "", Name := getEnv env "DB_NAME" "" }
      JWT :=
        { Secret := getEnv env "SECRET_KEY" ""
          Expiry := wrapInt64 (Hour * wrapInt64 (getEnvAsInt env atoi "JWT_EXPIRY_HOURS" 24))
          RefreshExpiry :=
            wrapInt64 (Hour * wrapInt64 (getEnvAsInt env atoi "JWT_REFRESH_EXPIRY_HOURS" 168)) }
      Minio :=
        { MinioAccessKey := getEnv env "MINIO_ACCESS_KEY" "",
          MinioSecretKey := getEnv env "MINIO_SECRET_KEY" "" } }
  match config.validate with
  | some err => .error err
  | none => .ok config

/-! ## Further instances for evaluation -/

namespace demo

/-- Access claims whose `exp` is the `float64` zero. -/
def zeroExpAccess : Claims :=
  [("user_id", .str "uuid-7"), ("role", .str "superuser"), ("exp", .num 0),
   ("type", .str "access")]

/-- Access claims that expired at 50 s. -/
def staleAccess : Claims :=
  [("user_id", .str "uuid-7"), ("role", .str "superuser"), ("exp", .num 50),
   ("type", .str "access")]

def zeroExpToken : String :=
  signingString "HS256" zeroExpAccess ++ "." ++
    sign .SHA256 "k" (signingString "HS256" zeroExpAccess)

def staleToken : String :=
  signingString "HS256" staleAccess ++ "." ++ sign .SHA256 "k" (signingString "HS256" staleAccess)

/-- The access claims of `alice` under the header algorithm HS384, with an
HMAC-SHA384 signature under the configured secret. -/
def accessToken384 : String :=
  signingString "HS384" aliceAccess ++ "." ++ sign .SHA384 "k" (signingString "HS384" aliceAccess)

/-- The refresh claims of `alice` under the header algorithm HS384, with an
HMAC-SHA384 signature under the configured secret. -/
def refreshToken384 : String :=
  signingString "HS384" aliceRefresh ++ "." ++
    sign .SHA384 "k" (signingString "HS384" aliceRefresh)

/-- The access claims of `alice` under the header algorithm none, with an
empty signature segment. -/
def unsignedToken : String := signingString "none" aliceAccess ++ "." ++ ""

/-- The service of `alice` with a jwt stand-in that knows the five tokens above. -/
def service2 : authService Store :=
  { service with
    jwt := jwtLib
      [("HS256", zeroExpAccess, sign .SHA256 "k" (signingString "HS256" zeroExpAccess)),
       ("HS256", staleAccess, sign .SHA256 "k" (signingString "HS256" staleAccess)),
       ("HS384", aliceAccess, sign .SHA384 "k" (signingString "HS384" aliceAccess)),
       ("HS384", aliceRefresh, sign .SHA384 "k" (signingString "HS384" aliceRefresh)),
       ("none", aliceAccess, "")] }

/-- The token object `jwt.Parse` leaves for `staleToken` once it has expired:
`Valid` is not set. -/
def staleParsed : Token :=
  { Raw := staleToken, Method := .HMAC .SHA256, alg := "HS256",
    Claims := Claims.decoded staleAccess, Signature := "", Valid := false }

/-- The token object of `staleToken` as parsed before it expired and held
since: `Valid` is set. -/
def staleHeld : Token := { staleParsed with Valid := true }

/-- A stand-in for bcrypt that knows the listed pairs of hash and password. -/
def bcryptLib (known : List (String × String)) : BcryptLib :=
  { CompareHashAndPassword := fun hashedPassword password =>
      if (hashedPassword, password) ∈ known then none
      else some (.other "crypto/bcrypt: hashedPassword is not the hash of the given password") }

/-- The stored hash of `alice` is the hash of "Password123", that of `bob` the
hash of "Secret4567". -/
def bcrypt : BcryptLib := bcryptLib [("hash", "Password123"), ("hash-bob", "Secret4567")]

/-- A blocked account. -/
def bob : User :=
  { ID := { bits := 8 }, FirstName := "Bob", LastName := "B", MiddleName := "",
    Phone := "+996700700700", Password := "hash-bob", Role := "user", Photo := "",
    IsActive := false }

/-- The repository holding `alice` and `bob`. -/
def repoWithBob : UserRepository :=
  { GetID := fun id =>
      if id = alice.ID then .ok alice
      else if id = bob.ID then .ok bob
      else .error .ErrUserNotFound
    FindByPhone := fun phone =>
      if phone = alice.Phone then .ok alice
      else if phone = bob.Phone then .ok bob
      else .error .ErrUserNotFound }

def serviceWithBob : authService Store := { service with userRepository := repoWithBob }

/-- A repository whose database cannot be reached: every query returns the
error of the driver. -/
def repoDown : UserRepository :=
  { GetID := fun _ => .error (.other "dial tcp 127.0.0.1:5432: connect: connection refused")
    FindByPhone := fun _ =>
      .error (.other "dial tcp 127.0.0.1:5432: connect: connection refused") }

def serviceDown : authService Store := { service with userRepository := repoDown }

/-- The service of `alice` configured with the empty secret. -/
def serviceNoSecret : authService Store :=
  { service with config := { Secret := "", Expiry := 24 * Hour, RefreshExpiry := 168 * Hour } }

/-- An environment with every required variable and `JWT_EXPIRY_HOURS=0`. -/
def env (key : String) : Option String :=
  List.lookup key
    [("DB_HOST", "db"), ("DB_USER", "portal"), ("DB_PASSWORD", "pw"), ("DB_NAME", "portal"),
     ("SECRET_KEY", "k"), ("MINIO_ACCESS_KEY", "minio"), ("MINIO_SECRET_KEY", "minio123"),
     ("JWT_EXPIRY_HOURS", "0")]

/-- The values of `strconv.Atoi` on the texts used here. -/
def atoi (text : String) : Option Int :=
  List.lookup text [("0", 0), ("24", 24), ("168", 168)]

/-- The configuration `LoadConfig` returns for `env`. -/
def loaded : Config :=
  { Database := { Host := "db", User := "portal", Password := "pw", Name := "portal" }
    JWT := { Secret := "k", Expiry := 0, RefreshExpiry := 168 * Hour }
    Minio := { MinioAccessKey := "minio", MinioSecretKey := "minio123" } }

/-- The service of `alice` under the loaded configuration. -/
def serviceLoaded : authService Store := { service with config := loaded.JWT }

/-- The claims of the access token issued to `alice` at `issuedAt` under the
loaded configuration, whose access lifetime is zero: `exp` equals `iat`. -/
def aliceAccessLoaded : Claims :=
  [("user_id", .str "uuid-7"), ("role", .str "superuser"), ("exp", .int 100),
   ("type", .str "access"), ("jti", .str "uuid-1"), ("iat", .int 100)]

/-- The service of `alice` under the loaded configuration, with a jwt stand-in
that knows the access token this service issues at `issuedAt`. -/
def serviceLoadedIssuing : authService Store :=
  { serviceLoaded with
    jwt := jwtLib [("HS256", aliceAccessLoaded,
                    sign .SHA256 "k" (signingString "HS256" aliceAccessLoaded))] }

/-- A short history of the cache: a `Set` at 0 with a TTL of 10, an `Exists`
at 5, a sweep at 20. -/
def history : List (Time × redisCache.Call) :=
  [(0, .Set "k" "v" 10), (5, .Exists "k"), (20, .Sweep)]

end demo

/-! ## The sweep interval, and instances for the last claims -/

/-- The period of the ticker that drives `cleanupExpired`:
`time.NewTicker(time.Minute)`. -/
def redisCache.cleanupInterval : Duration := Minute

/-- A gate admits a role when, with that role in the context, it calls the
next handler. -/
def admits (gate : Context → Outcome) (c : Context) (role : String) : Prop :=
  gate { c with role := some role } = .next { c with role := some role }

instance (gate : Context → Outcome) (c : Context) (role : String) :
    Decidable (admits gate c role) := by
  unfold admits
  infer_instance

namespace demo

/-- A cache whose every operation fails, as when the cache server cannot be
reached. -/
def failingCache : Cache Unit :=
  { Set := fun st _ _ _ _ => (st, some (.other "redis: connection refused"))
    Get := fun st _ _ => (st, .error (.other "redis: connection refused"))
    Delete := fun st _ _ => (st, some (.other "redis: connection refused"))
    Exists := fun st _ _ => (st, .error (.other "redis: connection refused")) }

/-- A request with a Bearer token and no cookie. -/
def tokRequest : Context :=
  { request := { accessTokenCookie := none, authorization := "Bearer tok" },
    id := none, user := none, role := none }

/-- A request without a role in its context. -/
def plainRequest : Context :=
  { request := { accessTokenCookie := none, authorization := "" },
    id := none, user := none, role := none }

/-- A store holding one entry that expired at the instant 10. -/
def staleStore : Store := [("k", { value := "old", expiration := 10 })]

/-- The claims of the access token issued to `bob` at `issuedAt`, before his
account was blocked. -/
def bobAccess : Claims :=
  [("user_id", .str "uuid-8"), ("role", .str "user"), ("exp", .int 86500),
   ("type", .str "access"), ("jti", .str "uuid-5"), ("iat", .int 100)]

/-- The claims of the refresh token issued to `bob` at `issuedAt`. -/
def bobRefresh : Claims :=
  [("user_id", .str "uuid-8"), ("role", .str "user"), ("exp", .int 604900),
   ("type", .str "refresh"), ("jti", .str "uuid-6"), ("iat", .int 100)]

def bobAccessToken : String :=
  signingString "HS256" bobAccess ++ "." ++ sign .SHA256 "k" (signingString "HS256" bobAccess)

def bobRefreshToken : String :=
  signingString "HS256" bobRefresh ++ "." ++ sign .SHA256 "k" (signingString "HS256" bobRefresh)

/-- The service whose repository holds `alice` and the blocked `bob`, with
stand-ins that know the tokens and the id of `bob`. -/
def serviceBlocked : authService Store :=
  { userRepository := repoWithBob
    cache := redisCacheImpl
    config := config
    jwt := jwtLib [("HS256", bobAccess, sign .SHA256 "k" (signingString "HS256" bobAccess)),
                   ("HS256", bobRefresh, sign .SHA256 "k" (signingString "HS256" bobRefresh)),
                   ("HS256", aliceRefresh, sign .SHA256 "k" (signingString "HS256" aliceRefresh))]
    uuid := uuidLib [alice.ID, bob.ID] }

/-- The decoded segments of the refresh token of `alice`. -/
def aliceRefreshSegments : Segments :=
  { alg := some "HS256", claims := Claims.decoded aliceRefresh,
    signingInput := signingString "HS256" aliceRefresh,
    signature := sign .SHA256 "k" (signingString "HS256" aliceRefresh) }

/-- The decoded segments of the access token of `bob`. -/
def bobAccessSegments : Segments :=
  { alg := some "HS256", claims := Claims.decoded bobAccess,
    signingInput := signingString "HS256" bobAccess,
    signature := sign .SHA256 "k" (signingString "HS256" bobAccess) }

/-- The decoded segments of the refresh token of `bob`. -/
def bobRefreshSegments : Segments :=
  { alg := some "HS256", claims := Claims.decoded bobRefresh,
    signingInput := signingString "HS256" bobRefresh,
    signature := sign .SHA256 "k" (signingString "HS256" bobRefresh) }

/-- The last nanosecond of the second before the access token of `alice`
expires. -/
def lastInstant : Time := unixTime 86500 - 1

end demo

/-! ## The compact serialisation of a token

`jwtService.CreateToken` and `jwtService.ParseToken` meet in the text of the
token.  The jwt package builds it from base64url without padding, from
`encoding/json` and from HMAC, and takes it apart by splitting at the dots. -/

/-- The pieces of a character list between its dots. -/
def splitAtDots : List Char → List (List Char)
  | [] => [[]]
  | c :: cs =>
    if c = '.' then [] :: splitAtDots cs
    else
      match splitAtDots cs with
      | [] => [[c]]
      | w :: ws => (c :: w) :: ws

/-- Go `strings.Split(s, ".")`. -/
def stringsSplitDot (s : String) : List String := (splitAtDots s.data).map String.mk

/-- The primitives under the jwt package. -/
structure JWTCodec where
  /-- Go `jwt.EncodeSegment`: base64url without padding. -/
  EncodeSegment : String → String
  /-- Go `jwt.DecodeSegment`; `none` is an error. -/
  DecodeSegment : String → Option String
  /-- Go `json.Marshal` of the header of a new token: `alg` and `typ: JWT`. -/
  marshalHeader : String → String
  /-- Go `json.Unmarshal` into the header map, read at `alg`: `none` is a JSON
  error, `some none` a header whose `alg` is absent or not a string. -/
  unmarshalHeader : String → Option (Option String)
  /-- Go `json.Marshal` of a `MapClaims`. -/
  marshalClaims : Claims → String
  /-- Go `json.NewDecoder(..).Decode` into a `MapClaims`; `none` is an error. -/
  unmarshalClaims : String → Option Claims
  /-- Go `SigningMethodHMAC.Sign(signingString, key)`: the MAC as a segment. -/
  sign : Hash → String → String → String
  /-- Go `SigningMethodHMAC.Verify(signingString, signature, key) == nil`,
  arguments in the order hash, key, signing string, signature. -/
  verify : Hash → String → String → String → Bool

/-- The jwt package over its primitives: `Token.SigningString` joins the
encoded header and the encoded claims with a dot, and
`Parser.ParseUnverified` splits the token string at the dots, wants three
parts, and decodes the first two. -/
def JWTCodec.toLib (K : JWTCodec) : JWTLib :=
  { signingString := fun alg claims =>
      K.EncodeSegment (K.marshalHeader alg) ++ "." ++ K.EncodeSegment (K.marshalClaims claims)
    sign := K.sign
    verify := K.verify
    segments := fun tokenString =>
      match stringsSplitDot tokenString with
      | [p0, p1, p2] =>
        match K.DecodeSegment p0 with
        | none => none
        | some headerBytes =>
          match K.unmarshalHeader headerBytes with
          | none => none
          | some alg =>
            match K.DecodeSegment p1 with
            | none => none
            | some claimBytes =>
              match K.unmarshalClaims claimBytes with
              | none => none
              | some claims =>
                some { alg := alg, claims := claims, signingInput := p0 ++ "." ++ p1,
                       signature := p2 }
      | _ => none }

/-- What the round trip of one token asks of the primitives: base64url
decoding inverts the encoding of the header text and of the claims text, and
so does JSON decoding, which gives every number back as a `float64`; the two
encoded segments and the signature segment hold no dot; the MAC made with
`key` verifies under `key`. -/
def JWTCodec.Inverts (K : JWTCodec) (h : Hash) (alg key : String) (claims : Claims) : Prop :=
  K.DecodeSegment (K.EncodeSegment (K.marshalHeader alg)) = some (K.marshalHeader alg) ∧
  K.unmarshalHeader (K.marshalHeader alg) = some (some alg) ∧
  K.DecodeSegment (K.EncodeSegment (K.marshalClaims claims)) = some (K.marshalClaims claims) ∧
  K.unmarshalClaims (K.marshalClaims claims) = some claims.decoded ∧
  '.' ∉ (K.EncodeSegment (K.marshalHeader alg)).data ∧
  '.' ∉ (K.EncodeSegment (K.marshalClaims claims)).data ∧
  '.' ∉ (K.sign h key (K.EncodeSegment (K.marshalHeader alg) ++ "." ++
            K.EncodeSegment (K.marshalClaims claims))).data ∧
  K.verify h key
    (K.EncodeSegment (K.marshalHeader alg) ++ "." ++ K.EncodeSegment (K.marshalClaims claims))
    (K.sign h key (K.EncodeSegment (K.marshalHeader alg) ++ "." ++
      K.EncodeSegment (K.marshalClaims claims))) = true

instance (K : JWTCodec) (h : Hash) (alg key : String) (claims : Claims) :
    Decidable (K.Inverts h alg key claims) := by
  unfold JWTCodec.Inverts
  infer_instance

namespace demo

/-- The header text of the stand-in. -/
def renderHeader (alg : String) : String := "alg=" ++ alg ++ ";typ=JWT;"

/-- A stand-in for the primitives: a segment is its text between angle
brackets, the JSON decoders know the four header algorithms used here and the
listed claims sets, and the MAC is that of `sign`. -/
def jsonCodec (known : List Claims) : JWTCodec :=
  { EncodeSegment := fun text => "<" ++ text ++ ">"
    DecodeSegment := fun segment =>
      if segment.data.head? = some '<' ∧ segment.data.getLast? = some '>' then
        some (String.mk (segment.data.drop 1).dropLast)
      else none
    marshalHeader := renderHeader
    unmarshalHeader := fun text =>
      (["HS256", "HS384", "HS512", "none"].find? (fun alg => decide (renderHeader alg = text))).map
        some
    marshalClaims := renderClaims
    unmarshalClaims := fun text =>
      (known.find? (fun c => decide (renderClaims c = text))).map Claims.decoded
    sign := sign
    verify := fun h key signingInput signature => decide (signature = sign h key signingInput) }

/-- Claims whose `exp` is the `float64` `1e19`, some 300 billion years ahead. -/
def farClaims : Claims := [("sub", .str "alice"), ("exp", .num 10000000000000000000)]

/-- Claims whose `iat` is the `float64` `1e19`. -/
def farIssuedClaims : Claims :=
  [("sub", .str "alice"), ("exp", .num 86500), ("iat", .num 10000000000000000000)]

/-- The stand-in that knows the claims sets of the examples. -/
def textCodec : JWTCodec :=
  jsonCodec [expiredClaims, intClaims, plainClaims, farClaims, farIssuedClaims]

end demo

end GinAuth

namespace GinAuth

set_option maxRecDepth 100000

/-! ## Auxiliary facts -/

theorem roundToFloat64_exact (n : Int) (h : n.natAbs < 2 ^ 53) : roundToFloat64 n = n := by
  have hr : List.range 12 = [0, 1, 2, 3, 4, 5, 6, 7, 8, 9, 10, 11] := by decide
  unfold roundToFloat64
  simp only [hr, List.find?_cons, Nat.add_zero, h, decide_True]
  simp [Nat.mod_one, Int.sign_mul_abs]

/-- A second of magnitude below `2^53` is read by the jwt package as it is. -/
theorem numericDate_exact (x : Int) (h : x.natAbs < 2 ^ 53) : numericDate x = some x := by
  unfold numericDate
  rw [if_pos]
  omega

/-- The instant the jwt package reads from a time claim is the second the
claim holds, when it is an instant at all. -/
theorem numericDate_eq_some (x sec : Int) (h : numericDate x = some sec) : sec = x := by
  unfold numericDate at h
  split_ifs at h
  cases h
  rfl

/-- A numeric, non-zero `exp` that is not after the second `nowUnix` fails
`VerifyExpiresAt`. -/
theorem VerifyExpiresAt_false (c : Claims) (nowUnix : Int) (exp : Int)
    (hexp : c.lookup "exp" = some (.num exp)) (hnz : exp ≠ 0) (hpast : exp ≤ nowUnix) :
    VerifyExpiresAt c nowUnix = false := by
  unfold VerifyExpiresAt verifyTimeClaim
  rw [hexp]
  simp only [hnz, if_false]
  cases hd : numericDate exp with
  | none => rfl
  | some sec =>
    have := numericDate_eq_some exp sec hd
    subst this
    simp only [decide_eq_false_iff_not, not_lt]
    exact hpast

theorem append_dot_ne_empty (a b : String) : a ++ "." ++ b ≠ "" := by
  intro h
  have := congrArg String.length h
  simp only [String.length_append] at this
  have h1 : ".".length = 1 := by decide
  have h0 : "".length = 0 := by decide
  omega

theorem Time.Unix_mono {a b : Time} (h : a ≤ b) : Time.Unix a ≤ Time.Unix b := by
  unfold Time.Unix Second
  exact Int.ediv_le_ediv (by decide) h

/-- A token whose segments decode, whose header names an HMAC method, whose
signature verifies under the secret and whose time claims are valid is what
`jwt.Parse` returns with `Valid` set. -/
theorem jwtParse_ok (L : JWTLib) (now : Time) (tokenString secret : String) (seg : Segments)
    (alg : String) (h : Hash)
    (hseg : L.segments tokenString = some seg) (halg : seg.alg = some alg)
    (hmethod : GetSigningMethod alg = some (.HMAC h))
    (hsig : L.verify h secret seg.signingInput seg.signature = true)
    (hvalid : MapClaims.Valid seg.claims now = true) :
    jwtParse L now tokenString (keyFunc secret)
      = .ok { Raw := tokenString, Method := .HMAC h, alg := alg, Claims := seg.claims,
              Signature := seg.signature, Valid := true } := by
  unfold jwtParse
  simp [hseg, halg, hmethod, keyFunc, SigningMethod.Verify, hsig, hvalid]

/-- Whatever `jwt.Parse` returns without an error has `Valid` set and carries
the decoded claims of the token string. -/
theorem jwtParse_ok_inv (L : JWTLib) (now : Time) (tokenString secret : String) (token : Token)
    (hp : jwtParse L now tokenString (keyFunc secret) = .ok token) :
    ∃ seg alg h, L.segments tokenString = some seg ∧ seg.alg = some alg ∧
      GetSigningMethod alg = some (.HMAC h) ∧
      L.verify h secret seg.signingInput seg.signature = true ∧
      MapClaims.Valid seg.claims now = true ∧
      token = { Raw := tokenString, Method := .HMAC h, alg := alg, Claims := seg.claims,
                Signature := seg.signature, Valid := true } := by
  unfold jwtParse at hp
  cases hseg : L.segments tokenString with
  | none => simp [hseg] at hp
  | some seg =>
    cases halg : seg.alg with
    | none => simp [hseg, halg] at hp
    | some alg =>
      cases hm : GetSigningMethod alg with
      | none => simp [hseg, halg, hm] at hp
      | some method =>
        cases method with
        | nonHMAC a => simp [hseg, halg, hm, keyFunc] at hp
        | HMAC h =>
          simp only [hseg, halg, hm, keyFunc, SigningMethod.Verify] at hp
          by_cases hsig : L.verify h secret seg.signingInput seg.signature = true
          · by_cases hv : MapClaims.Valid seg.claims now = true
            · simp [hsig, hv] at hp
              exact ⟨seg, alg, h, rfl, halg, hm, hsig, hv, hp.symm⟩
            · simp [hsig, hv] at hp
          · simp [hsig] at hp

/-! ## Role levels and role gates -/

/-- C5: `Role.Level` maps "superuser", "admin", "manager", "user" to 4, 3, 2, 1
and exactly the other strings to 0 (the empty string and differently-cased
spellings among them), so the four levels are strictly ordered above the level
0 of an unrecognised role. -/
theorem Role_Level_table :
    Role.Level "superuser" = 4 ∧ Role.Level "admin" = 3 ∧
    Role.Level "manager" = 2 ∧ Role.Level "user" = 1 ∧
    (∀ r : Role, Role.Level r = 0 ↔ r ∉ ["superuser", "admin", "manager", "user"]) ∧
    Role.Level "" = 0 ∧ Role.Level "Admin" = 0 ∧ Role.Level "SUPERUSER" = 0 ∧
    Role.Level "User" = 0 ∧
    (∀ r : Role, r ∉ ["superuser", "admin", "manager", "user"] →
      Role.Level "superuser" > Role.Level "admin" ∧ Role.Level "admin" > Role.Level "manager" ∧
      Role.Level "manager" > Role.Level "user" ∧ Role.Level "user" > Role.Level r ∧
      Role.Level r = 0) := by
  have key : ∀ r : Role, Role.Level r = 0 ↔ r ∉ ["superuser", "admin", "manager", "user"] := by
    intro r
    unfold Role.Level RoleSuperUser RoleAdmin RoleManager RoleUser
    simp only [List.mem_cons, List.mem_singleton, List.not_mem_nil, or_false, not_or]
    split_ifs <;> simp_all
  refine ⟨by decide, by decide, by decide, by decide, key, by decide, by decide, by decide,
    by decide, ?_⟩
  intro r hr
  have h0 := (key r).2 hr
  rw [h0]
  decide

/-- The witness of C5 at the unrecognised role "guest". -/
theorem Role_Level_table_witness :
    Role.Level "superuser" > Role.Level "admin" ∧ Role.Level "admin" > Role.Level "manager" ∧
    Role.Level "manager" > Role.Level "user" ∧ Role.Level "user" > Role.Level "guest" ∧
    Role.Level "guest" = 0 :=
  Role_Level_table.2.2.2.2.2.2.2.2.2 "guest" (by decide)

/-- The level table written out in the middleware is `Role.Level`. -/
theorem userLevel_eq_Level (r : String) : userLevel r = Role.Level r := by
  unfold userLevel Role.Level RoleSuperUser RoleAdmin RoleManager RoleUser
  rfl

/-- C6: with a role in the request context, `RequireRoleLevelMiddleware minLevel`
calls the next handler iff `Role.Level role ≥ minLevel` and otherwise aborts;
`Role.HasLevel` returns that boolean; the level table of the middleware agrees
with `Role.Level` on every string; "superuser" passes `minLevel = 2`. -/
theorem RequireRoleLevelMiddleware_iff (c : Context) (role : String) (minLevel : Int)
    (h : c.role = some role) :
    (RequireRoleLevelMiddleware minLevel c = .next c ↔ Role.Level role ≥ minLevel) ∧
    (RequireRoleLevelMiddleware minLevel c = .abort insufficientPrivileges ↔
      ¬ Role.Level role ≥ minLevel) ∧
    (Role.HasLevel role minLevel = true ↔ Role.Level role ≥ minLevel) ∧
    (∀ r : String, userLevel r = Role.Level r) ∧
    RequireRoleLevelMiddleware 2 { c with role := some "superuser" }
      = .next { c with role := some "superuser" } := by
  refine ⟨?_, ?_, ?_, userLevel_eq_Level, ?_⟩
  · unfold RequireRoleLevelMiddleware
    rw [h]
    simp only [userLevel_eq_Level]
    by_cases hl : Role.Level role < minLevel
    · simp [hl]
    · simp [hl, not_lt.mp hl]
  · unfold RequireRoleLevelMiddleware
    rw [h]
    simp only [userLevel_eq_Level]
    by_cases hl : Role.Level role < minLevel
    · simp [hl]
    · simp [hl]
  · unfold Role.HasLevel
    simp
  · unfold RequireRoleLevelMiddleware
    simp only
    have : userLevel "superuser" = 4 := by decide
    rw [this]
    simp

/-- The witness of C6: role "manager" against the level 2 the routes require. -/
theorem RequireRoleLevelMiddleware_iff_witness :
    (RequireRoleLevelMiddleware 2
        { request := { accessTokenCookie := none, authorization := "" },
          id := none, user := none, role := some "manager" }
      = .next { request := { accessTokenCookie := none, authorization := "" },
                id := none, user := none, role := some "manager" }
      ↔ Role.Level "manager" ≥ 2) :=
  (RequireRoleLevelMiddleware_iff
    { request := { accessTokenCookie := none, authorization := "" },
      id := none, user := none, role := some "manager" } "manager" 2 rfl).1

/-- C7: with a role in the request context, `RequireRoleMiddleware roles` calls
the next handler iff the role is an element of `roles` under exact string
equality, and otherwise aborts; with the empty list it aborts every request,
and a differently-cased spelling is not a member. -/
theorem RequireRoleMiddleware_iff (c : Context) (role : String) (roles : List String)
    (h : c.role = some role) :
    (RequireRoleMiddleware roles c = .next c ↔ role ∈ roles) ∧
    (RequireRoleMiddleware roles c = .abort insufficientPrivileges ↔ role ∉ roles) ∧
    RequireRoleMiddleware [] c = .abort insufficientPrivileges ∧
    RequireRoleMiddleware ["admin"] { c with role := some "Admin" }
      = .abort insufficientPrivileges := by
  have hany : (roles.any (fun requiredRole => decide (role = requiredRole)) = true) ↔
      role ∈ roles := by
    simp [List.any_eq_true]
  refine ⟨?_, ?_, ?_, ?_⟩
  · unfold RequireRoleMiddleware
    rw [h]
    by_cases hm : role ∈ roles
    · simp [hany.2 hm, hm]
    · have : roles.any (fun requiredRole => decide (role = requiredRole)) = false := by
        rw [Bool.eq_false_iff]
        exact fun hh => hm (hany.1 hh)
      simp [this, hm]
  · unfold RequireRoleMiddleware
    rw [h]
    by_cases hm : role ∈ roles
    · simp [hany.2 hm, hm]
    · have : roles.any (fun requiredRole => decide (role = requiredRole)) = false := by
        rw [Bool.eq_false_iff]
        exact fun hh => hm (hany.1 hh)
      simp [this, hm]
  · unfold RequireRoleMiddleware
    rw [h]
    simp
  · unfold RequireRoleMiddleware
    simp

/-- The witness of C7: role "manager" against the list ["admin", "manager"]. -/
theorem RequireRoleMiddleware_iff_witness :
    (RequireRoleMiddleware ["admin", "manager"]
        { request := { accessTokenCookie := none, authorization := "" },
          id := none, user := none, role := some "manager" }
      = .next { request := { accessTokenCookie := none, authorization := "" },
                id := none, user := none, role := some "manager" }
      ↔ "manager" ∈ ["admin", "manager"]) :=
  (RequireRoleMiddleware_iff
    { request := { accessTokenCookie := none, authorization := "" },
      id := none, user := none, role := some "manager" } "manager" ["admin", "manager"] rfl).1

/-- C8: when the request context holds no role, each of the five role gates
aborts with status 401 and code AUTH_ROLE_MISSING, whatever the requirement;
this response differs from the one for insufficient privileges, and it is also
what `RequireRoleLevelMiddleware minLevel` gives for `minLevel ≤ 0`, a
requirement every present role passes. -/
theorem role_gates_role_missing (c : Context) (h : c.role = none) :
    AdminRoleMiddleware c = .abort roleMissing ∧
    SuperUserRoleMiddleware c = .abort roleMissing ∧
    ManagerRoleMiddleware c = .abort roleMissing ∧
    (∀ roles : List String, RequireRoleMiddleware roles c = .abort roleMissing) ∧
    (∀ minLevel : Int, RequireRoleLevelMiddleware minLevel c = .abort roleMissing) ∧
    (∀ (minLevel : Int) (r : String), minLevel ≤ 0 →
      RequireRoleLevelMiddleware minLevel { c with role := some r }
        = .next { c with role := some r }) ∧
    roleMissing.code = "AUTH_ROLE_MISSING" ∧ roleMissing.status = 401 ∧
    roleMissing ≠ insufficientPrivileges := by
  refine ⟨?_, ?_, ?_, ?_, ?_, ?_, rfl, rfl, by decide⟩
  · unfold AdminRoleMiddleware
    rw [h]
  · unfold SuperUserRoleMiddleware
    rw [h]
  · unfold ManagerRoleMiddleware
    rw [h]
  · intro roles
    unfold RequireRoleMiddleware
    rw [h]
  · intro minLevel
    unfold RequireRoleLevelMiddleware
    rw [h]
  · intro minLevel r hle
    unfold RequireRoleLevelMiddleware
    simp only
    have h0 : 0 ≤ userLevel r := by
      unfold userLevel
      split_ifs <;> decide
    have : ¬ userLevel r < minLevel := by omega
    simp [this]

/-- The witness of C8: a request whose context was never given a role. -/
theorem role_gates_role_missing_witness :
    AdminRoleMiddleware { request := { accessTokenCookie := none, authorization := "" },
                          id := none, user := none, role := none } = .abort roleMissing :=
  (role_gates_role_missing
    { request := { accessTokenCookie := none, authorization := "" },
      id := none, user := none, role := none } rfl).1

/-! ## Token types -/

/-- C9: a token string that decodes, names an HMAC method, carries a signature
valid under the configured secret and has valid time claims (correctly signed
and unexpired), but whose `type` claim is not the string "access" (absent, of
another dynamic type, or another string such as "refresh"), makes `VerifyToken`
return `ErrInvalidToken` and no token. -/
theorem VerifyToken_rejects_non_access {σ : Type} (s : authService σ) (now : Time)
    (tokenString : String) (seg : Segments) (alg : String) (h : Hash)
    (hseg : s.jwt.segments tokenString = some seg) (halg : seg.alg = some alg)
    (hmethod : GetSigningMethod alg = some (.HMAC h))
    (hsig : s.jwt.verify h s.config.Secret seg.signingInput seg.signature = true)
    (hvalid : MapClaims.Valid seg.claims now = true)
    (htype : seg.claims.lookup "type" ≠ some (.str "access")) :
    s.VerifyToken now tokenString = .error .ErrInvalidToken := by
  unfold authService.VerifyToken
  by_cases he : tokenString = ""
  · simp [he]
  · rw [jwtParse_ok s.jwt now tokenString s.config.Secret seg alg h hseg halg hmethod hsig hvalid]
    simp [he, htype]

/-- The witness of C9: the refresh token `generateJWTToken` issues to a user
is rejected by `VerifyToken` five seconds later. -/
theorem VerifyToken_rejects_non_access_witness :
    demo.service.generateJWTToken demo.alice demo.issuedAt demo.issuedAt demo.issuedAt
        demo.issuedAt { bits := 1 } { bits := 2 }
      = .ok (demo.accessToken, demo.refreshToken, demo.issuedAt + 24 * Hour) ∧
    demo.service.VerifyToken demo.later demo.refreshToken = .error .ErrInvalidToken :=
  ⟨by decide,
   VerifyToken_rejects_non_access demo.service demo.later demo.refreshToken
    { alg := some "HS256", claims := Claims.decoded demo.aliceRefresh,
      signingInput := demo.signingString "HS256" demo.aliceRefresh,
      signature := demo.sign .SHA256 "k" (demo.signingString "HS256" demo.aliceRefresh) }
    "HS256" .SHA256 (by decide) rfl (by decide) (by decide) (by decide) (by decide)⟩

/-- C10: a token string that decodes, names an HMAC method, carries a signature
valid under the configured secret and has valid time claims, but whose `type`
claim is not the string "refresh", makes `RefreshToken` return
`ErrInvalidToken` with no token response and without a lookup in the user
repository, whatever the repository, the clock readings and the fresh UUIDs. -/
theorem RefreshToken_rejects_non_refresh {σ : Type} (s : authService σ)
    (nowParse now1 now2 now3 now4 : Time) (jti1 jti2 : UUID)
    (tokenString : String) (seg : Segments) (alg : String) (h : Hash)
    (hseg : s.jwt.segments tokenString = some seg) (halg : seg.alg = some alg)
    (hmethod : GetSigningMethod alg = some (.HMAC h))
    (hsig : s.jwt.verify h s.config.Secret seg.signingInput seg.signature = true)
    (hvalid : MapClaims.Valid seg.claims nowParse = true)
    (htype : seg.claims.lookup "type" ≠ some (.str "refresh")) :
    s.RefreshToken nowParse now1 now2 now3 now4 jti1 jti2 tokenString
      = (.error .ErrInvalidToken, []) := by
  unfold authService.RefreshToken
  by_cases he : tokenString = ""
  · simp [he]
  · rw [jwtParse_ok s.jwt nowParse tokenString s.config.Secret seg alg h hseg halg hmethod hsig
      hvalid]
    simp [he, htype]

/-- The witness of C10: the access token `generateJWTToken` issues to a user
is rejected by `RefreshToken` five seconds later, with no repository lookup. -/
theorem RefreshToken_rejects_non_refresh_witness :
    demo.service.generateJWTToken demo.alice demo.issuedAt demo.issuedAt demo.issuedAt
        demo.issuedAt { bits := 1 } { bits := 2 }
      = .ok (demo.accessToken, demo.refreshToken, demo.issuedAt + 24 * Hour) ∧
    demo.service.RefreshToken demo.later demo.later demo.later demo.later demo.later
      { bits := 3 } { bits := 4 } demo.accessToken = (.error .ErrInvalidToken, []) :=
  ⟨by decide,
   RefreshToken_rejects_non_refresh demo.service demo.later demo.later demo.later
    demo.later demo.later { bits := 3 } { bits := 4 } demo.accessToken
    { alg := some "HS256", claims := Claims.decoded demo.aliceAccess,
      signingInput := demo.signingString "HS256" demo.aliceAccess,
      signature := demo.sign .SHA256 "k" (demo.signingString "HS256" demo.aliceAccess) }
    "HS256" .SHA256 (by decide) rfl (by decide) (by decide) (by decide) (by decide)⟩

/-! ## The TTL of a revocation entry -/

/-- The TTL `BlacklistToken` computes, in closed form. -/
theorem blacklistExpiry_eq (now expiry : Time) :
    (if timeUntil now expiry ≤ 0 then Hour else timeUntil now expiry)
      = if 0 < expiry - now then min (expiry - now) maxDuration else Hour := by
  unfold timeUntil Time.Sub maxDuration minDuration Hour Minute Second
  simp only [min_def]
  unfold Time Duration at *
  split_ifs <;> omega

/-- What `BlacklistToken` computes, for every cache: for a non-empty token
string it makes one `Set` call with the key "blacklist:" + token, the value
"blacklisted" and a TTL that is the remaining lifetime `expiry - now` when
that is positive (capped at the largest `Duration`) and one hour when it is
zero or negative.  That TTL reaches one hour exactly when the remaining
lifetime is at least one hour or not positive. -/
theorem BlacklistToken_set {σ : Type} (C : Cache σ) (st : σ) (nowUntil nowSet : Time)
    (tokenString : String) (expiry : Time) (h : tokenString ≠ "") :
    tokenService.BlacklistToken C st nowUntil nowSet tokenString expiry
      = ((C.Set st nowSet ("blacklist:" ++ tokenString) "blacklisted"
            (if 0 < expiry - nowUntil then min (expiry - nowUntil) maxDuration else Hour)).1,
         (C.Set st nowSet ("blacklist:" ++ tokenString) "blacklisted"
            (if 0 < expiry - nowUntil then min (expiry - nowUntil) maxDuration else Hour)).2.map
           (Error.wrap "failed to add token to blacklist")) ∧
    0 < (if 0 < expiry - nowUntil then min (expiry - nowUntil) maxDuration else Hour) ∧
    (Hour ≤ (if 0 < expiry - nowUntil then min (expiry - nowUntil) maxDuration else Hour) ↔
      (Hour ≤ expiry - nowUntil ∨ expiry - nowUntil ≤ 0)) := by
  refine ⟨?_, ?_, ?_⟩
  · unfold tokenService.BlacklistToken tokenService.tokenKey
    simp only [h, if_false, blacklistExpiry_eq]
    rcases hset : C.Set st nowSet ("blacklist:" ++ tokenString) "blacklisted"
        (if 0 < expiry - nowUntil then min (expiry - nowUntil) maxDuration else Hour)
      with ⟨st', _ | err⟩ <;> simp
  · unfold maxDuration Hour Minute Second
    simp only [min_def]
    unfold Time Duration at *
    split_ifs <;> omega
  · unfold maxDuration Hour Minute Second
    simp only [min_def]
    unfold Time Duration at *
    split_ifs <;> omega

/-- C2: called at the instant 0 for the token "tok" whose expiry is one second
away, `BlacklistToken` hands the cache one entry, under "blacklist:tok", with
a TTL of one second.  That is less than the one hour the claim and the comment
on the assignment ("minimum 1 hour") give as the least TTL, and it is not the
maximum of the remaining lifetime and one hour; on the in-memory cache the
entry is gone at the instant of two seconds, while a token with nothing left
gets the full hour. -/
theorem BlacklistToken_ttl_below_hour :
    (tokenService.BlacklistToken recordingCache [] 0 0 "tok" (unixTime 1)).1
      = [("blacklist:tok", "blacklisted", Second)] ∧
    Second < Hour ∧ Second ≠ max (unixTime 1 - 0) Hour ∧
    (tokenService.IsTokenBlacklisted redisCacheImpl
      (tokenService.BlacklistToken redisCacheImpl [] 0 0 "tok" (unixTime 1)).1
      (unixTime 2) "tok").2 = .ok false ∧
    (tokenService.BlacklistToken recordingCache [] 0 0 "tok" (unixTime 0)).1
      = [("blacklist:tok", "blacklisted", Hour)] := by
  decide

/-! ## Encoding and decoding -/

/-- Claims without a Go integer are unchanged by a JSON round trip. -/
theorem Claims.decoded_eq_self (c : Claims) (h : ∀ kv ∈ c, ∀ n, kv.2 ≠ .int n) :
    Claims.decoded c = c := by
  unfold Claims.decoded
  induction c with
  | nil => rfl
  | cons kv rest ih =>
    have hkv : kv.2.decoded = kv.2 := by
      have := h kv (List.mem_cons_self _ _)
      cases hv : kv.2 with
      | int n => exact absurd hv (this n)
      | str s => rfl
      | num x => rfl
      | bool b => rfl
      | null => rfl
    have ih2 := ih (fun kv2 hm => h kv2 (List.mem_cons_of_mem _ hm))
    simp only [List.map_cons, hkv, ih2]

/-- Claims are unchanged by a JSON round trip only if they hold no Go
integer: an integer comes back as a `float64`. -/
theorem Claims.no_int_of_decoded_eq_self (c : Claims) (h : Claims.decoded c = c) :
    ∀ kv ∈ c, ∀ n, kv.2 ≠ .int n := by
  unfold Claims.decoded at h
  induction c with
  | nil => intro kv hkv; cases hkv
  | cons kv rest ih =>
    rw [List.map_cons] at h
    have hhead := (List.cons.inj h).1
    have htail := (List.cons.inj h).2
    intro kv2 hkv2 n hint
    rcases List.mem_cons.mp hkv2 with rfl | hmem
    · have h2 : kv2.2.decoded = kv2.2 := congrArg Prod.snd hhead
      rw [hint] at h2
      cases h2
    · exact ih htail kv2 hmem n hint

/-- A character list without a dot is one piece. -/
theorem splitAtDots_of_not_mem (a : List Char) (h : '.' ∉ a) : splitAtDots a = [a] := by
  induction a with
  | nil => rfl
  | cons c cs ih =>
    have hc : c ≠ '.' := fun e => h (e ▸ List.mem_cons_self _ _)
    have hcs : '.' ∉ cs := fun e => h (List.mem_cons_of_mem _ e)
    unfold splitAtDots
    rw [if_neg hc, ih hcs]

/-- A character list without a dot, followed by a dot, is the first piece of
the whole. -/
theorem splitAtDots_append (a rest : List Char) (h : '.' ∉ a) :
    splitAtDots (a ++ '.' :: rest) = a :: splitAtDots rest := by
  induction a with
  | nil =>
    rw [List.nil_append]
    conv_lhs => unfold splitAtDots
    rw [if_pos rfl]
  | cons c cs ih =>
    have hc : c ≠ '.' := fun e => h (e ▸ List.mem_cons_self _ _)
    have hcs : '.' ∉ cs := fun e => h (List.mem_cons_of_mem _ e)
    rw [List.cons_append]
    conv_lhs => unfold splitAtDots
    rw [if_neg hc, ih hcs]

/-- Three segments without a dot, joined by dots, split into themselves. -/
theorem stringsSplitDot_three (a b c : String) (ha : '.' ∉ a.data) (hb : '.' ∉ b.data)
    (hc : '.' ∉ c.data) : stringsSplitDot (a ++ "." ++ b ++ "." ++ c) = [a, b, c] := by
  have hdot : ".".data = ['.'] := rfl
  have hdata : (a ++ "." ++ b ++ "." ++ c).data = a.data ++ '.' :: (b.data ++ '.' :: c.data) := by
    simp only [String.data_append, hdot, List.append_assoc, List.singleton_append,
      List.cons_append, List.nil_append]
  unfold stringsSplitDot
  rw [hdata, splitAtDots_append _ _ ha, splitAtDots_append _ _ hb, splitAtDots_of_not_mem _ hc]
  rfl

/-- When the primitives invert each other on one token, the jwt package
decodes the token it produced: the round trip of the token text follows from
the round trips of its parts. -/
theorem toLib_RoundTrips (K : JWTCodec) (h : Hash) (alg key : String) (claims : Claims)
    (hK : K.Inverts h alg key claims) : K.toLib.RoundTrips h alg key claims := by
  obtain ⟨hd1, hj1, hd2, hj2, hn1, hn2, hn3, hsig⟩ := hK
  refine ⟨?_, hsig⟩
  simp only [JWTCodec.toLib, stringsSplitDot_three _ _ _ hn1 hn2 hn3, hd1, hj1, hd2, hj2]

/-- How the validation reads a time claim beyond the range of `time.Time`: two
seconds after the epoch an `exp` of `1e19` counts as expired, and an `iat` or
`nbf` of `1e19` as past; so `ParseToken` rejects the token `CreateToken` makes
of `{sub: "alice", exp: 1e19}` and accepts the one it makes of
`{sub: "alice", exp: 86500, iat: 1e19}`. -/
theorem Valid_beyond_range :
    numericDate 10000000000000000000 = none ∧
    MapClaims.Valid [("exp", .num 10000000000000000000)] (2 * Second) = false ∧
    MapClaims.Valid [("iat", .num 10000000000000000000)] (2 * Second) = true ∧
    MapClaims.Valid [("nbf", .num 10000000000000000000)] (2 * Second) = true ∧
    (∃ tokenString,
      jwtService.CreateToken demo.textCodec.toLib "k" demo.farClaims = .ok tokenString ∧
      jwtService.ParseToken demo.textCodec.toLib "k" (2 * Second) tokenString
        = .error (.wrap "failed to parse token" (.jwt .claimsInvalid))) ∧
    (∃ tokenString token,
      jwtService.CreateToken demo.textCodec.toLib "k" demo.farIssuedClaims = .ok tokenString ∧
      jwtService.ParseToken demo.textCodec.toLib "k" (2 * Second) tokenString = .ok token ∧
      token.Claims = demo.farIssuedClaims) := by
  refine ⟨by decide, by decide, by decide, by decide, ⟨_, rfl, by decide⟩, ⟨_, _, rfl, rfl, rfl⟩⟩

/-- C3, counterexample: with the secret "k", `CreateToken` signs the claims
`{sub: "alice", exp: 1}` but `ParseToken` rejects the token two seconds after
the epoch because it has expired; and for the claims `{sub: "alice",
exp: 86500}` with `exp` a Go integer `ParseToken` succeeds with claims that
differ from the encoded ones, `exp` having become a `float64`.  In both cases
the stand-in primitives invert each other on the token. -/
theorem ParseToken_CreateToken_counterexample :
    (demo.textCodec.Inverts .SHA256 "HS256" "k" demo.expiredClaims ∧
      ∃ tokenString,
        jwtService.CreateToken demo.textCodec.toLib "k" demo.expiredClaims = .ok tokenString ∧
        jwtService.ParseToken demo.textCodec.toLib "k" (2 * Second) tokenString
          = .error (.wrap "failed to parse token" (.jwt .claimsInvalid))) ∧
    (demo.textCodec.Inverts .SHA256 "HS256" "k" demo.intClaims ∧
      ∃ tokenString token,
        jwtService.CreateToken demo.textCodec.toLib "k" demo.intClaims = .ok tokenString ∧
        jwtService.ParseToken demo.textCodec.toLib "k" (2 * Second) tokenString = .ok token ∧
        token.Claims ≠ demo.intClaims) := by
  refine ⟨⟨by decide, _, rfl, by decide⟩, ⟨by decide, _, _, rfl, rfl, by decide⟩⟩

/-- C3, amended: for a secret and a claims set of strings, booleans, nulls,
Go integers and integral `float64` numbers on which base64url, JSON and the
MAC invert each other, `CreateToken` succeeds; `ParseToken` of the result
succeeds exactly when the `exp`, `iat` and `nbf` claims pass the time
validation of `jwt.Parse` at the moment of parsing, and fails with a claims
error otherwise; the claims of the parsed token are the JSON round trip of the
encoded ones (Go integers have become `float64`), and they equal the encoded
claims exactly when these hold no Go integer. -/
theorem ParseToken_CreateToken (K : JWTCodec) (secretKey : String) (claims : Claims)
    (now : Time) (hcodec : K.Inverts .SHA256 "HS256" secretKey claims) :
    ∃ tokenString, jwtService.CreateToken K.toLib secretKey claims = .ok tokenString ∧
      (MapClaims.Valid (Claims.decoded claims) now = true →
        ∃ token, jwtService.ParseToken K.toLib secretKey now tokenString = .ok token ∧
          token.Valid = true ∧ token.Claims = Claims.decoded claims ∧
          (token.Claims = claims ↔ ∀ kv ∈ claims, ∀ n, kv.2 ≠ .int n)) ∧
      (MapClaims.Valid (Claims.decoded claims) now = false →
        jwtService.ParseToken K.toLib secretKey now tokenString
          = .error (.wrap "failed to parse token" (.jwt .claimsInvalid))) := by
  obtain ⟨hseg, hsig⟩ := toLib_RoundTrips K .SHA256 "HS256" secretKey claims hcodec
  refine ⟨K.toLib.signingString "HS256" claims ++ "." ++
      K.toLib.sign .SHA256 secretKey (K.toLib.signingString "HS256" claims), ?_, ?_, ?_⟩
  · rfl
  · intro hvalid
    refine ⟨{ Raw := K.toLib.signingString "HS256" claims ++ "." ++
                K.toLib.sign .SHA256 secretKey (K.toLib.signingString "HS256" claims),
              Method := .HMAC .SHA256, alg := "HS256", Claims := Claims.decoded claims,
              Signature := K.toLib.sign .SHA256 secretKey (K.toLib.signingString "HS256" claims),
              Valid := true }, ?_, rfl, rfl, ?_⟩
    · unfold jwtService.ParseToken
      rw [jwtParse_ok K.toLib now _ secretKey _ "HS256" .SHA256 hseg rfl (by decide) hsig hvalid]
    · exact ⟨Claims.no_int_of_decoded_eq_self claims, Claims.decoded_eq_self claims⟩
  · intro hinvalid
    have hm : GetSigningMethod "HS256" = some (.HMAC .SHA256) := by decide
    unfold jwtService.ParseToken jwtParse
    simp [hseg, hm, keyFunc, SigningMethod.Verify, hsig, hinvalid]

/-- The witness of C3: the claims `{sub: "alice", exp: 86500}` with a
`float64` expiry, two seconds after the epoch, come back as they were. -/
theorem ParseToken_CreateToken_witness :
    ∃ tokenString,
      jwtService.CreateToken demo.textCodec.toLib "k" demo.plainClaims = .ok tokenString ∧
      ∃ token, jwtService.ParseToken demo.textCodec.toLib "k" (2 * Second) tokenString
          = .ok token ∧
        token.Valid = true ∧ token.Claims = demo.plainClaims := by
  obtain ⟨tokenString, hcreate, hok, _⟩ :=
    ParseToken_CreateToken demo.textCodec "k" demo.plainClaims (2 * Second) (by decide)
  obtain ⟨token, hparse, hvalid, _, hsame⟩ := hok (by decide)
  refine ⟨tokenString, hcreate, token, hparse, hvalid, hsame.mpr ?_⟩
  intro kv hkv n
  unfold demo.plainClaims at hkv
  simp only [List.mem_cons, List.mem_singleton, List.not_mem_nil, or_false] at hkv
  rcases hkv with rfl | rfl <;> simp

/-! ## Issue, verify, resolve -/

/-- The time claims of a fresh access token are valid at every instant from
its `iat` reading of the clock up to the second before its `exp`. -/
theorem accessClaims_valid {σ : Type} (s : authService σ) (user : User)
    (accessExpiry iatNow nowV : Time) (jti : UUID)
    (hiat : iatNow ≤ nowV) (hexp : nowV.Unix < accessExpiry.Unix)
    (hrange1 : accessExpiry.Unix.natAbs < 2 ^ 53) (hrange2 : iatNow.Unix.natAbs < 2 ^ 53) :
    MapClaims.Valid (Claims.decoded (authService.accessClaims s user accessExpiry iatNow jti))
      nowV = true := by
  have h1 : (Claims.decoded (authService.accessClaims s user accessExpiry iatNow jti)).lookup
      "exp" = some (.num (roundToFloat64 accessExpiry.Unix)) := rfl
  have h2 : (Claims.decoded (authService.accessClaims s user accessExpiry iatNow jti)).lookup
      "iat" = some (.num (roundToFloat64 iatNow.Unix)) := rfl
  have h3 : (Claims.decoded (authService.accessClaims s user accessExpiry iatNow jti)).lookup
      "nbf" = none := rfl
  have hle : iatNow.Unix ≤ nowV.Unix := Time.Unix_mono hiat
  unfold MapClaims.Valid VerifyExpiresAt VerifyIssuedAt VerifyNotBefore verifyTimeClaim
  rw [h1, h2, h3, roundToFloat64_exact _ hrange1, roundToFloat64_exact _ hrange2]
  simp [numericDate_exact _ hrange1, numericDate_exact _ hrange2, hexp, hle]

/-- The time claims of a fresh access token fail the validation at every
instant whose second is not before the second of its `exp`, unless that second
is the epoch itself. -/
theorem accessClaims_expired {σ : Type} (s : authService σ) (user : User)
    (accessExpiry iatNow nowV : Time) (jti : UUID)
    (hexp : accessExpiry.Unix ≤ nowV.Unix) (hnz : accessExpiry.Unix ≠ 0)
    (hrange1 : accessExpiry.Unix.natAbs < 2 ^ 53) :
    MapClaims.Valid (Claims.decoded (authService.accessClaims s user accessExpiry iatNow jti))
      nowV = false := by
  have h1 : (Claims.decoded (authService.accessClaims s user accessExpiry iatNow jti)).lookup
      "exp" = some (.num (roundToFloat64 accessExpiry.Unix)) := rfl
  rw [roundToFloat64_exact _ hrange1] at h1
  unfold MapClaims.Valid
  rw [VerifyExpiresAt_false _ nowV.Unix accessExpiry.Unix h1 hnz hexp]
  rfl

/-- C4, counterexample: `LoadConfig` accepts `JWT_EXPIRY_HOURS=0`; under the
configuration it returns, `alice` is in the user repository, the jwt stand-in
decodes the token it produced, `generateJWTToken` at 100 s succeeds, and
`VerifyToken` on the returned access token at that same instant fails: the
token has expired in the second of its issue. -/
theorem issue_verify_resolve_counterexample :
    LoadConfig demo.env demo.atoi = .ok demo.loaded ∧
    demo.serviceLoadedIssuing.config = demo.loaded.JWT ∧
    demo.serviceLoadedIssuing.userRepository.GetID demo.alice.ID = .ok demo.alice ∧
    demo.serviceLoadedIssuing.jwt.RoundTrips .SHA256 "HS256" "k" demo.aliceAccessLoaded ∧
    ∃ accessToken refreshToken expiresAt,
      demo.serviceLoadedIssuing.generateJWTToken demo.alice demo.issuedAt demo.issuedAt
          demo.issuedAt demo.issuedAt { bits := 1 } { bits := 2 }
        = .ok (accessToken, refreshToken, expiresAt) ∧
      demo.serviceLoadedIssuing.VerifyToken demo.issuedAt accessToken
        = .error (.wrap "invalid token" (.jwt .claimsInvalid)) := by
  refine ⟨by decide, rfl, by decide, by decide, _, _, _, rfl, by decide⟩

/-- C4, amended: for a user present in the user repository `generateJWTToken`
succeeds; `VerifyToken` accepts the returned access token at every clock
reading from the issue on whose second is before the second of the token's
expiry, and `GetUserFromToken` on the verified token then returns a principal
with the id and role of that user; at a clock reading whose second is not
before the second of the expiry (at once, when the configured lifetime is
zero or negative) `VerifyToken` returns an error.  The jwt and uuid packages
are asked to decode what they encoded for this token, and the expiry and
issue seconds to be exact as `float64` (below `2^53`). -/
theorem issue_verify_resolve {σ : Type} (s : authService σ) (user : User)
    (now1 now2 now3 now4 nowV : Time) (jti1 jti2 : UUID)
    (hlib : s.jwt.RoundTrips .SHA256 "HS256" s.config.Secret
      (authService.accessClaims s user (Time.Add now1 s.config.Expiry) now3 jti1))
    (huuid : s.uuid.Parse (s.uuid.Str user.ID) = some user.ID)
    (hstore : s.userRepository.GetID user.ID = .ok user)
    (hiat : now3 ≤ nowV)
    (hrange1 : (Time.Add now1 s.config.Expiry).Unix.natAbs < 2 ^ 53)
    (hrange2 : now3.Unix.natAbs < 2 ^ 53) :
    ∃ accessToken refreshToken expiresAt,
      s.generateJWTToken user now1 now2 now3 now4 jti1 jti2
        = .ok (accessToken, refreshToken, expiresAt) ∧
      (nowV.Unix < (Time.Add now1 s.config.Expiry).Unix →
        ∃ token userDTO,
          s.VerifyToken nowV accessToken = .ok token ∧
          s.GetUserFromToken (some token) = .ok userDTO ∧
          userDTO.ID = user.ID ∧ userDTO.Role = user.Role) ∧
      ((Time.Add now1 s.config.Expiry).Unix ≤ nowV.Unix →
        (Time.Add now1 s.config.Expiry).Unix ≠ 0 →
        s.VerifyToken nowV accessToken
          = .error (.wrap "invalid token" (.jwt .claimsInvalid))) := by
  obtain ⟨hseg, hsig⟩ := hlib
  have hne := append_dot_ne_empty (s.jwt.signingString "HS256"
      (authService.accessClaims s user (Time.Add now1 s.config.Expiry) now3 jti1))
    (s.jwt.sign .SHA256 s.config.Secret (s.jwt.signingString "HS256"
      (authService.accessClaims s user (Time.Add now1 s.config.Expiry) now3 jti1)))
  refine ⟨(s.jwt.signingString "HS256" (authService.accessClaims s user (Time.Add now1 s.config.Expiry) now3 jti1) ++ "." ++
      s.jwt.sign .SHA256 s.config.Secret (s.jwt.signingString "HS256" (authService.accessClaims s user (Time.Add now1 s.config.Expiry) now3 jti1))),
    (s.jwt.signingString "HS256" (authService.refreshClaims s user (Time.Add now2 s.config.RefreshExpiry) now4 jti2) ++ "." ++
      s.jwt.sign .SHA256 s.config.Secret (s.jwt.signingString "HS256" (authService.refreshClaims s user (Time.Add now2 s.config.RefreshExpiry) now4 jti2))),
    Time.Add now1 s.config.Expiry, rfl, ?_, ?_⟩
  · intro hexp
    have hvalid := accessClaims_valid s user (Time.Add now1 s.config.Expiry) now3 nowV jti1
      hiat hexp hrange1 hrange2
    have hparse := jwtParse_ok s.jwt nowV _ s.config.Secret _ "HS256" .SHA256 hseg rfl
      (by decide) hsig hvalid
    refine ⟨
      { Raw := (s.jwt.signingString "HS256" (authService.accessClaims s user (Time.Add now1 s.config.Expiry) now3 jti1) ++ "." ++
          s.jwt.sign .SHA256 s.config.Secret (s.jwt.signingString "HS256" (authService.accessClaims s user (Time.Add now1 s.config.Expiry) now3 jti1))),
        Method := .HMAC .SHA256, alg := "HS256",
        Claims := Claims.decoded (authService.accessClaims s user (Time.Add now1 s.config.Expiry) now3 jti1),
        Signature := s.jwt.sign .SHA256 s.config.Secret (s.jwt.signingString "HS256" (authService.accessClaims s user (Time.Add now1 s.config.Expiry) now3 jti1)),
        Valid := true },
      UserResponseDTO.FromModel user, ?_, ?_, rfl, rfl⟩
    · unfold authService.VerifyToken
      have htype : (Claims.decoded
          (authService.accessClaims s user (Time.Add now1 s.config.Expiry) now3 jti1)).lookup
          "type" = some (.str "access") := rfl
      rw [if_neg hne, hparse]
      simp [htype]
    · have hid : (Claims.decoded
          (authService.accessClaims s user (Time.Add now1 s.config.Expiry) now3 jti1)).lookup
          "user_id" = some (.str (s.uuid.Str user.ID)) := rfl
      unfold authService.GetUserFromToken
      simp [hid, huuid, hstore]
  · intro hexp hnz
    have hinvalid := accessClaims_expired s user (Time.Add now1 s.config.Expiry) now3 nowV jti1
      hexp hnz hrange1
    have hm : GetSigningMethod "HS256" = some (.HMAC .SHA256) := by decide
    unfold authService.VerifyToken
    rw [if_neg hne]
    unfold jwtParse
    simp [hseg, hm, keyFunc, SigningMethod.Verify, hsig, hinvalid]

/-- The witness of C4: `alice` is issued tokens at 100 s and verified at 105 s. -/
theorem issue_verify_resolve_witness :
    ∃ accessToken refreshToken expiresAt,
      demo.service.generateJWTToken demo.alice demo.issuedAt demo.issuedAt demo.issuedAt
          demo.issuedAt { bits := 1 } { bits := 2 }
        = .ok (accessToken, refreshToken, expiresAt) ∧
      ∃ token userDTO,
        demo.service.VerifyToken demo.later accessToken = .ok token ∧
        demo.service.GetUserFromToken (some token) = .ok userDTO ∧
        userDTO.ID = demo.alice.ID ∧ userDTO.Role = demo.alice.Role := by
  obtain ⟨accessToken, refreshToken, expiresAt, hgen, hok, _⟩ :=
    issue_verify_resolve demo.service demo.alice demo.issuedAt demo.issuedAt demo.issuedAt
      demo.issuedAt demo.later { bits := 1 } { bits := 2 }
      (by decide) (by decide) (by decide) (by decide) (by decide) (by decide)
  exact ⟨accessToken, refreshToken, expiresAt, hgen, hok (by decide)⟩

/-! ## Revocation and the protected chain -/

/-- A request without an Authorization header passes `TokenBlacklistMiddleware`
with no lookup in the cache, so the protected chain does on it what
`AuthMiddleware` alone does. -/
theorem protectedChain_without_header {σ : Type} (s : authService σ) (st : σ)
    (nowAuth nowBlacklist : Time) (c : Context) (h : c.request.authorization = "") :
    protectedChain s st nowAuth nowBlacklist c = (st, AuthMiddleware s nowAuth c) := by
  unfold protectedChain
  cases hA : AuthMiddleware s nowAuth c with
  | abort r => rfl
  | next c2 =>
    have hreq : c2.request = c.request := by
      unfold AuthMiddleware at hA
      simp only at hA
      split at hA
      · cases hA
      · split at hA
        · cases hA
        · split at hA
          · cases hA
          · cases hA
            rfl
    unfold TokenBlacklistMiddleware
    simp [hreq, h]

/-- C1, the failing input evaluated: `alice` holds the access token issued at
100 s.  At 105 s the chain lets her cookie request through; `Logout` of that
token at 105 s succeeds and leaves the revocation entry in the store, so
`IsTokenBlacklisted` is true at 106 s; yet at 106 s the chain still lets the
request with the token in the `access_token` cookie through to the handler,
while it aborts the request with the same token in the Authorization header
with status 401. -/
theorem protectedChain_cookie_bypasses_blacklist :
    protectedChain demo.service [] demo.later demo.later demo.cookieRequest
      = ([], .next { demo.cookieRequest with
                      id := some demo.alice.ID,
                      user := some (UserResponseDTO.FromModel demo.alice),
                      role := some "superuser" }) ∧
    demo.service.Logout [] demo.later demo.later demo.later demo.accessToken
      = (demo.revoked, none) ∧
    tokenService.IsTokenBlacklisted demo.service.cache demo.revoked (106 * Second)
      demo.accessToken = (demo.revoked, .ok true) ∧
    protectedChain demo.service demo.revoked (106 * Second) (106 * Second) demo.cookieRequest
      = (demo.revoked, .next { demo.cookieRequest with
                                id := some demo.alice.ID,
                                user := some (UserResponseDTO.FromModel demo.alice),
                                role := some "superuser" }) ∧
    protectedChain demo.service demo.revoked (106 * Second) (106 * Second) demo.bearerRequest
      = (demo.revoked, .abort { status := 401, error := "Token is blacklisted", code := "" }) := by
  refine ⟨by decide, by decide, by decide, by decide, by decide⟩

/-! ## The store under sequences of calls -/

theorem lookup_cons_self (k : String) (v : cacheItem) (rest : Store) :
    List.lookup k ((k, v) :: rest) = some v := by
  simp [List.lookup_cons]

theorem lookup_cons_ne (k other : String) (v : cacheItem) (rest : Store) (h : other ≠ k) :
    List.lookup other ((k, v) :: rest) = List.lookup other rest := by
  have h2 : (other == k) = false := by
    simp only [beq_eq_false_iff_ne, ne_eq]
    exact h
  simp only [List.lookup_cons, h2]

theorem Store.find_delete_self (s : Store) (key : String) :
    Store.find (Store.delete s key) key = none := by
  unfold Store.find Store.delete
  induction s with
  | nil => rfl
  | cons kv rest ih =>
    obtain ⟨k, v⟩ := kv
    rw [List.filter_cons]
    by_cases h : k = key
    · have hd : decide ((k, v).1 ≠ key) = false := by simp [h]
      rw [hd]
      exact ih
    · have hd : decide ((k, v).1 ≠ key) = true := by simp [h]
      rw [hd]
      simp only [if_true]
      rw [lookup_cons_ne k key v _ (fun e => h e.symm)]
      exact ih

theorem Store.find_delete_ne (s : Store) (key other : String) (hne : other ≠ key) :
    Store.find (Store.delete s key) other = Store.find s other := by
  unfold Store.find Store.delete
  induction s with
  | nil => rfl
  | cons kv rest ih =>
    obtain ⟨k, v⟩ := kv
    rw [List.filter_cons]
    by_cases h : k = key
    · have hd : decide ((k, v).1 ≠ key) = false := by simp [h]
      rw [hd]
      simp only [Bool.false_eq_true, if_false]
      rw [lookup_cons_ne k other v _ (h ▸ hne), ih]
    · have hd : decide ((k, v).1 ≠ key) = true := by simp [h]
      rw [hd]
      simp only [if_true]
      by_cases h3 : other = k
      · subst h3
        rw [lookup_cons_self, lookup_cons_self]
      · rw [lookup_cons_ne k other v _ h3, lookup_cons_ne k other v _ h3, ih]

theorem Store.find_put_self (s : Store) (key : String) (item : cacheItem) :
    Store.find (Store.put s key item) key = some item := by
  unfold Store.find Store.put
  exact lookup_cons_self _ _ _

theorem Store.find_put_ne (s : Store) (key other : String) (item : cacheItem)
    (hne : other ≠ key) :
    Store.find (Store.put s key item) other = Store.find s other := by
  have := Store.find_delete_ne s key other hne
  unfold Store.find at this ⊢
  unfold Store.put
  rw [lookup_cons_ne key other item _ hne, this]

theorem lookup_none_of_not_mem (s : Store) (key : String) (h : key ∉ s.map Prod.fst) :
    List.lookup key s = none := by
  induction s with
  | nil => rfl
  | cons kv rest ih =>
    obtain ⟨k, v⟩ := kv
    simp only [List.map_cons, List.mem_cons, not_or] at h
    rw [lookup_cons_ne k key v _ h.1]
    exact ih h.2

theorem lookup_filter_none (s : Store) (key : String) (p : String × cacheItem → Bool)
    (h : List.lookup key s = none) : List.lookup key (s.filter p) = none := by
  induction s with
  | nil => rfl
  | cons kv rest ih =>
    obtain ⟨k, v⟩ := kv
    by_cases hk : key = k
    · subst hk
      rw [lookup_cons_self] at h
      cases h
    · rw [lookup_cons_ne k key v _ hk] at h
      rw [List.filter_cons]
      split
      · rw [lookup_cons_ne k key v _ hk]
        exact ih h
      · exact ih h

theorem lookup_filter (s : Store) (key : String) (p : String × cacheItem → Bool)
    (hnd : (s.map Prod.fst).Nodup) :
    List.lookup key (s.filter p)
      = match List.lookup key s with
        | some item => if p (key, item) then some item else none
        | none => none := by
  induction s with
  | nil => rfl
  | cons kv rest ih =>
    obtain ⟨k, v⟩ := kv
    simp only [List.map_cons, List.nodup_cons] at hnd
    by_cases hk : key = k
    · subst hk
      rw [lookup_cons_self, List.filter_cons]
      by_cases hp : p (key, v) = true
      · simp only [hp, if_true]
        rw [lookup_cons_self]
      · simp only [hp, if_false]
        exact lookup_filter_none rest key p (lookup_none_of_not_mem rest key hnd.1)
    · rw [lookup_cons_ne k key v _ hk, List.filter_cons]
      split
      · rw [lookup_cons_ne k key v _ hk]
        exact ih hnd.2
      · exact ih hnd.2

theorem keys_filter_nodup (s : Store) (p : String × cacheItem → Bool)
    (hnd : (s.map Prod.fst).Nodup) : ((s.filter p).map Prod.fst).Nodup := by
  exact List.Nodup.sublist (List.Sublist.map _ (List.filter_sublist s)) hnd

theorem keys_put_nodup (s : Store) (key : String) (item : cacheItem)
    (hnd : (s.map Prod.fst).Nodup) : ((Store.put s key item).map Prod.fst).Nodup := by
  unfold Store.put
  simp only [List.map_cons, List.nodup_cons]
  refine ⟨?_, keys_filter_nodup s _ hnd⟩
  unfold Store.delete
  intro hmem
  rw [List.mem_map] at hmem
  obtain ⟨kv, hkv, hk⟩ := hmem
  rw [List.mem_filter] at hkv
  simp at hkv
  exact hkv.2 hk

theorem keys_delete_nodup (s : Store) (key : String)
    (hnd : (s.map Prod.fst).Nodup) : ((Store.delete s key).map Prod.fst).Nodup :=
  keys_filter_nodup s _ hnd

/-- One call made at or after the clock reading of `agrees` keeps the store in
agreement with what has been written. -/
theorem agrees_step (s : Store) (g : String → Option cacheItem) (clock now : Time)
    (call : redisCache.Call) (h : redisCache.agrees s g clock) (hle : clock ≤ now) :
    redisCache.agrees (redisCache.step s now call) (redisCache.written1 g now call) now := by
  obtain ⟨hnd, hall⟩ := h
  have weaken : ∀ key, Store.find s key = g key ∨
      (Store.find s key = none ∧ ∃ item, g key = some item ∧ item.expiration < now) := by
    intro key
    rcases hall key with h1 | ⟨h1, item, h2, h3⟩
    · exact Or.inl h1
    · exact Or.inr ⟨h1, item, h2, lt_of_lt_of_le h3 hle⟩
  have lazy : ∀ key : String,
      redisCache.agrees
        (match Store.find s key with
          | none => s
          | some item => if Time.After now item.expiration then Store.delete s key else s)
        g now := by
    intro key
    cases hf : Store.find s key with
    | none => exact ⟨hnd, weaken⟩
    | some item =>
      simp only
      by_cases hexp : Time.After now item.expiration = true
      · rw [if_pos hexp]
        refine ⟨keys_delete_nodup s key hnd, ?_⟩
        intro other
        by_cases ho : other = key
        · subst ho
          rw [Store.find_delete_self]
          rcases hall other with h1 | ⟨h1, _⟩
          · right
            refine ⟨rfl, item, ?_, ?_⟩
            · rw [← h1, hf]
            · unfold Time.After at hexp
              exact of_decide_eq_true hexp
          · rw [hf] at h1
            cases h1
        · rw [Store.find_delete_ne s key other ho]
          exact weaken other
      · rw [if_neg hexp]
        exact ⟨hnd, weaken⟩
  cases call with
  | Set key value expiration =>
    refine ⟨keys_put_nodup s key _ hnd, ?_⟩
    intro other
    simp only [redisCache.step, redisCache.Set, redisCache.written1]
    by_cases ho : other = key
    · subst ho
      left
      rw [Store.find_put_self, Function.update_same]
    · rw [Store.find_put_ne s key other _ ho, Function.update_noteq ho]
      exact weaken other
  | Delete key =>
    refine ⟨keys_delete_nodup s key hnd, ?_⟩
    intro other
    simp only [redisCache.step, redisCache.Delete, redisCache.written1]
    by_cases ho : other = key
    · subst ho
      left
      rw [Store.find_delete_self, Function.update_same]
    · rw [Store.find_delete_ne s key other ho, Function.update_noteq ho]
      exact weaken other
  | Get key =>
    have hl := lazy key
    simp only [redisCache.step, redisCache.Get, redisCache.written1]
    cases hf : Store.find s key with
    | none =>
      rw [hf] at hl
      exact hl
    | some item =>
      rw [hf] at hl
      simp only at hl ⊢
      split_ifs at hl ⊢ <;> exact hl
  | Exists key =>
    have hl := lazy key
    simp only [redisCache.step, redisCache.Exists, redisCache.written1]
    cases hf : Store.find s key with
    | none =>
      rw [hf] at hl
      exact hl
    | some item =>
      rw [hf] at hl
      simp only at hl ⊢
      split_ifs at hl ⊢ <;> exact hl
  | Sweep =>
    simp only [redisCache.step, redisCache.written1, redisCache.cleanupExpiredPass]
    refine ⟨keys_filter_nodup s _ hnd, ?_⟩
    intro key
    unfold Store.find at *
    rw [lookup_filter s key _ hnd]
    rcases hall key with h1 | ⟨h1, item, h2, h3⟩
    · cases hf : List.lookup key s with
      | none =>
        left
        rw [← h1, hf]
      | some item =>
        simp only
        by_cases hexp : Time.After now item.expiration = true
        · right
          simp only [hexp, Bool.not_true, Bool.false_eq_true, if_false, true_and]
          refine ⟨item, ?_, ?_⟩
          · rw [← h1, hf]
          · unfold Time.After at hexp
            exact of_decide_eq_true hexp
        · left
          simp only [hexp, Bool.not_false, if_true]
          rw [← h1, hf]
    · right
      rw [h1]
      exact ⟨rfl, item, h2, lt_of_lt_of_le h3 hle⟩

theorem agrees_run (calls : List (Time × redisCache.Call)) :
    ∀ (s : Store) (g : String → Option cacheItem) (clock now : Time),
      redisCache.agrees s g clock →
      List.Pairwise (fun a b => a ≤ b) (clock :: (calls.map Prod.fst ++ [now])) →
      ∃ clock2, redisCache.agrees (redisCache.run s calls) (redisCache.written g calls) clock2 ∧
        clock2 ≤ now := by
  induction calls with
  | nil =>
    intro s g clock now h hp
    refine ⟨clock, h, ?_⟩
    simp only [List.map_nil, List.nil_append, List.pairwise_cons, List.mem_singleton,
      forall_eq] at hp
    exact hp.1
  | cons x rest ih =>
    intro s g clock now h hp
    obtain ⟨t, call⟩ := x
    simp only [List.map_cons, List.cons_append, List.pairwise_cons] at hp
    obtain ⟨hhead, htail, hrest⟩ := hp
    have hle : clock ≤ t := hhead t (List.mem_cons_self _ _)
    have hstep := agrees_step s g clock t call h hle
    have hp2 : List.Pairwise (fun a b => a ≤ b) (t :: (rest.map Prod.fst ++ [now])) :=
      List.pairwise_cons.mpr ⟨htail, hrest⟩
    exact ih _ _ t now hstep hp2

theorem written_append (a b : List (Time × redisCache.Call)) :
    ∀ g : String → Option cacheItem,
      redisCache.written g (a ++ b) = redisCache.written (redisCache.written g a) b := by
  induction a with
  | nil => intro g; rfl
  | cons x rest ih =>
    intro g
    obtain ⟨t, call⟩ := x
    simp only [List.cons_append, redisCache.written]
    exact ih _

theorem written_noSet (calls : List (Time × redisCache.Call)) (key : String) :
    ∀ g : String → Option cacheItem, redisCache.noSet calls key →
      (redisCache.someDelete calls key → redisCache.written g calls key = none) ∧
      (¬ redisCache.someDelete calls key → redisCache.written g calls key = g key) := by
  induction calls with
  | nil =>
    intro g _
    refine ⟨?_, fun _ => rfl⟩
    rintro ⟨t, ht⟩
    cases ht
  | cons x rest ih =>
    intro g hns
    obtain ⟨t, call⟩ := x
    have hns2 : redisCache.noSet rest key := by
      intro now value expiration hm
      exact hns now value expiration (List.mem_cons_of_mem _ hm)
    obtain ⟨ih1, ih2⟩ := ih (redisCache.written1 g t call) hns2
    simp only [redisCache.written]
    by_cases hd : redisCache.someDelete rest key
    · refine ⟨fun _ => ih1 hd, ?_⟩
      intro hno
      exact absurd (by
        obtain ⟨now, hm⟩ := hd
        exact ⟨now, List.mem_cons_of_mem _ hm⟩) hno
    · rw [ih2 hd]
      by_cases hc : call = redisCache.Call.Delete key
      · subst hc
        refine ⟨fun _ => ?_, ?_⟩
        · simp only [redisCache.written1, Function.update_same]
        · intro hno
          exact absurd ⟨t, List.mem_cons_self _ _⟩ hno
      · have hkeep : redisCache.written1 g t call key = g key := by
          cases call with
          | Set k v e =>
            have hk : key ≠ k := by
              intro e2
              subst e2
              exact hns t v e (List.mem_cons_self _ _)
            simp only [redisCache.written1, Function.update_noteq hk]
          | Delete k =>
            have hk : key ≠ k := by
              intro e2
              subst e2
              exact hc rfl
            simp only [redisCache.written1, Function.update_noteq hk]
          | Get k => rfl
          | Exists k => rfl
          | Sweep => rfl
        rw [hkeep]
        refine ⟨?_, fun _ => rfl⟩
        rintro ⟨now, hm⟩
        rcases List.mem_cons.mp hm with h1 | h1
        · cases h1
          exact absurd rfl hc
        · exact absurd ⟨now, h1⟩ hd

theorem exists_last_set (calls : List (Time × redisCache.Call)) (key : String)
    (h : ¬ redisCache.noSet calls key) :
    ∃ pre t value expiration post,
      calls = pre ++ (t, redisCache.Call.Set key value expiration) :: post ∧
      redisCache.noSet post key := by
  induction calls with
  | nil =>
    exact absurd (fun _ _ _ hm => by cases hm) h
  | cons x rest ih =>
    by_cases hr : redisCache.noSet rest key
    · obtain ⟨t, call⟩ := x
      unfold redisCache.noSet at h
      push_neg at h
      obtain ⟨now, value, expiration, hm⟩ := h
      rcases List.mem_cons.mp hm with h1 | h1
      · exact ⟨[], now, value, expiration, rest, by simp [h1], hr⟩
      · exact absurd h1 (hr now value expiration)
    · obtain ⟨pre, t, value, expiration, post, he, hp⟩ := ih hr
      exact ⟨x :: pre, t, value, expiration, post, by rw [he]; rfl, hp⟩

/-- What has been written under a key after a sequence of calls whose last
`Set` of that key is known. -/
theorem written_last_set (pre post : List (Time × redisCache.Call)) (key value : String)
    (t : Time) (expiration : Duration) (hns : redisCache.noSet post key) :
    (redisCache.someDelete post key →
      redisCache.written (fun _ => none)
        (pre ++ (t, redisCache.Call.Set key value expiration) :: post) key = none) ∧
    (¬ redisCache.someDelete post key →
      redisCache.written (fun _ => none)
        (pre ++ (t, redisCache.Call.Set key value expiration) :: post) key
        = some { value := value, expiration := Time.Add t expiration }) := by
  rw [written_append]
  simp only [redisCache.written]
  obtain ⟨h1, h2⟩ := written_noSet post key
    (redisCache.written1 (redisCache.written (fun _ => none) pre) t
      (redisCache.Call.Set key value expiration)) hns
  refine ⟨h1, fun hd => ?_⟩
  rw [h2 hd]
  simp only [redisCache.written1, Function.update_same]

/-- On a store that agrees with what has been written, `Exists` answers from
what has been written. -/
theorem Exists_of_agrees (s : Store) (g : String → Option cacheItem) (clock now : Time)
    (key : String) (h : redisCache.agrees s g clock) (hle : clock ≤ now) :
    (redisCache.Exists s now key).2
      = .ok (match g key with
             | some item => !Time.After now item.expiration
             | none => false) := by
  unfold redisCache.Exists
  rcases h.2 key with h1 | ⟨h1, item, h2, h3⟩
  · rw [h1]
    cases g key with
    | none => rfl
    | some item =>
      simp only
      by_cases hexp : Time.After now item.expiration = true
      · simp [hexp]
      · simp [hexp]
  · rw [h1, h2]
    have : Time.After now item.expiration = true := by
      unfold Time.After
      exact decide_eq_true (lt_of_lt_of_le h3 hle)
    simp [this]

/-- The store built from the empty map by a sequence of calls with ordered
clock readings agrees with what has been written. -/
theorem agrees_run_empty (calls : List (Time × redisCache.Call)) (now : Time)
    (h : redisCache.clockOrdered calls now) :
    ∃ clock, redisCache.agrees (redisCache.run [] calls)
        (redisCache.written (fun _ => none) calls) clock ∧ clock ≤ now := by
  have h0 : ∀ clock, redisCache.agrees [] (fun _ => none) clock :=
    fun clock => ⟨List.nodup_nil, fun key => Or.inl rfl⟩
  unfold redisCache.clockOrdered at h
  cases calls with
  | nil => exact ⟨now, h0 now, le_refl _⟩
  | cons x rest =>
    obtain ⟨t, call⟩ := x
    refine agrees_run ((t, call) :: rest) [] (fun _ => none) t now (h0 t) ?_
    simp only [List.map_cons, List.cons_append] at h ⊢
    refine List.pairwise_cons.mpr ⟨?_, h⟩
    intro b hb
    rcases List.mem_cons.mp hb with h1 | h1
    · rw [h1]
    · exact (List.pairwise_cons.mp h).1 b h1

/-- C18: for every sequence of Set, Get, Exists and Delete calls and sweep
passes on a store that starts empty, made at non-decreasing clock readings,
and every key: a following `Exists` of the key returns false iff no `Set` of
the key has occurred, or the TTL of the most recent `Set` has elapsed, or a
`Delete` of the key was called after that `Set`; `Exists` never fails; and
`Get` returns a value in exactly the cases where `Exists` returns true. -/
theorem redisCache_Exists_iff (calls : List (Time × redisCache.Call)) (now : Time)
    (key : String) (h : redisCache.clockOrdered calls now) :
    ((redisCache.Exists (redisCache.run [] calls) now key).2 = .ok false ↔
      (redisCache.noSet calls key ∨
        ∃ pre t value expiration post,
          calls = pre ++ (t, redisCache.Call.Set key value expiration) :: post ∧
          redisCache.noSet post key ∧
          (Time.After now (Time.Add t expiration) = true ∨ redisCache.someDelete post key))) ∧
    ((redisCache.Exists (redisCache.run [] calls) now key).2 = .ok true ∨
      (redisCache.Exists (redisCache.run [] calls) now key).2 = .ok false) ∧
    ((∃ value, (redisCache.Get (redisCache.run [] calls) now key).2 = .ok value) ↔
      (redisCache.Exists (redisCache.run [] calls) now key).2 = .ok true) := by
  obtain ⟨clock, hag, hle⟩ := agrees_run_empty calls now h
  have hex := Exists_of_agrees _ _ clock now key hag hle
  refine ⟨?_, ?_, ?_⟩
  · rw [hex]
    constructor
    · intro hfalse
      by_cases hns : redisCache.noSet calls key
      · exact Or.inl hns
      · right
        obtain ⟨pre, t, value, expiration, post, he, hp⟩ := exists_last_set calls key hns
        refine ⟨pre, t, value, expiration, post, he, hp, ?_⟩
        by_cases hd : redisCache.someDelete post key
        · exact Or.inr hd
        · left
          have hw := (written_last_set pre post key value t expiration hp).2 hd
          rw [he, hw] at hfalse
          simp only [Except.ok.injEq, Bool.not_eq_false'] at hfalse
          exact hfalse
    · rintro (hns | ⟨pre, t, value, expiration, post, he, hp, hcase⟩)
      · obtain ⟨h1, h2⟩ := written_noSet calls key (fun _ => none) hns
        by_cases hd : redisCache.someDelete calls key
        · rw [h1 hd]
        · rw [h2 hd]
      · obtain ⟨h1, h2⟩ := written_last_set pre post key value t expiration hp
        by_cases hd : redisCache.someDelete post key
        · rw [he, h1 hd]
        · rw [he, h2 hd]
          rcases hcase with hexp | hdel
          · simp [hexp]
          · exact absurd hdel hd
  · rw [hex]
    cases redisCache.written (fun _ => none) calls key with
    | none => exact Or.inr rfl
    | some item =>
      simp only
      cases Time.After now item.expiration with
      | true => exact Or.inr rfl
      | false => exact Or.inl rfl
  · unfold redisCache.Get redisCache.Exists
    cases Store.find (redisCache.run [] calls) key with
    | none => simp
    | some item =>
      simp only
      by_cases hexp : Time.After now item.expiration = true
      · simp [hexp]
      · simp [hexp]

/-! ## Revoking twice -/

theorem Store.delete_idem (s : Store) (key : String) :
    Store.delete (Store.delete s key) key = Store.delete s key := by
  unfold Store.delete
  rw [List.filter_filter]
  congr 1
  funext kv
  simp

theorem Store.delete_put (s : Store) (key : String) (item : cacheItem) :
    Store.delete (Store.put s key item) key = Store.delete s key := by
  have h := Store.delete_idem s key
  unfold Store.put
  unfold Store.delete at h ⊢
  rw [List.filter_cons]
  simp only [ne_eq, not_true_eq_false, decide_False, Bool.false_eq_true, if_false]
  exact h

theorem Store.count_put (s : Store) (key : String) (item : cacheItem) :
    ((Store.put s key item).filter (fun kv => decide (kv.1 = key))).length = 1 := by
  unfold Store.put Store.delete
  rw [List.filter_cons]
  simp only [decide_True, if_true, List.length_cons, List.filter_filter]
  have : List.filter (fun a => decide (a.1 = key) && decide (a.1 ≠ key)) s = [] := by
    rw [List.filter_eq_nil_iff]
    intro a _
    by_cases h : a.1 = key <;> simp [h]
  rw [this]
  rfl

/-- The store after a successful `Logout` on the in-memory cache. -/
theorem Logout_ok (s : authService Store) (hc : s.cache = redisCacheImpl) (st : Store)
    (nowParse nowUntil nowSet : Time) (tokenString : String) (seg : Segments) (alg : String)
    (h : Hash) (exp : Int)
    (hne : tokenString ≠ "")
    (hseg : s.jwt.segments tokenString = some seg) (halg : seg.alg = some alg)
    (hmethod : GetSigningMethod alg = some (.HMAC h))
    (hsig : s.jwt.verify h s.config.Secret seg.signingInput seg.signature = true)
    (hvalid : MapClaims.Valid seg.claims nowParse = true)
    (hexp : seg.claims.lookup "exp" = some (.num exp)) :
    s.Logout st nowParse nowUntil nowSet tokenString
      = (Store.put st ("blacklist:" ++ tokenString)
          { value := "blacklisted",
            expiration := Time.Add nowSet
              (if timeUntil nowUntil (unixTime exp) ≤ 0 then Hour
               else timeUntil nowUntil (unixTime exp)) }, none) := by
  unfold authService.Logout
  rw [if_neg hne,
    jwtParse_ok s.jwt nowParse tokenString s.config.Secret seg alg h hseg halg hmethod hsig hvalid]
  simp only [hexp, Bool.true_eq_false, if_false]
  unfold tokenService.BlacklistToken tokenService.tokenKey
  rw [if_neg hne, hc]
  rfl

/-- C17: for a token that is correctly signed, carries a numeric `exp` and is
unexpired at both calls, `Logout` on the in-memory cache succeeds twice, and
after the second call the store holds the same keys as after the first, with
exactly one entry under the key of that token. -/
theorem Logout_idempotent (s : authService Store) (hc : s.cache = redisCacheImpl) (st : Store)
    (nowParse1 nowUntil1 nowSet1 nowParse2 nowUntil2 nowSet2 : Time)
    (tokenString : String) (seg : Segments) (alg : String) (h : Hash) (exp : Int)
    (hne : tokenString ≠ "")
    (hseg : s.jwt.segments tokenString = some seg) (halg : seg.alg = some alg)
    (hmethod : GetSigningMethod alg = some (.HMAC h))
    (hsig : s.jwt.verify h s.config.Secret seg.signingInput seg.signature = true)
    (hvalid1 : MapClaims.Valid seg.claims nowParse1 = true)
    (hvalid2 : MapClaims.Valid seg.claims nowParse2 = true)
    (hexp : seg.claims.lookup "exp" = some (.num exp)) :
    ∃ st1 st2,
      s.Logout st nowParse1 nowUntil1 nowSet1 tokenString = (st1, none) ∧
      s.Logout st1 nowParse2 nowUntil2 nowSet2 tokenString = (st2, none) ∧
      st2.map Prod.fst = st1.map Prod.fst ∧
      (st1.filter (fun kv => decide (kv.1 = "blacklist:" ++ tokenString))).length = 1 ∧
      (st2.filter (fun kv => decide (kv.1 = "blacklist:" ++ tokenString))).length = 1 := by
  refine ⟨_, _,
    Logout_ok s hc st nowParse1 nowUntil1 nowSet1 tokenString seg alg h exp hne hseg halg
      hmethod hsig hvalid1 hexp,
    Logout_ok s hc _ nowParse2 nowUntil2 nowSet2 tokenString seg alg h exp hne hseg halg
      hmethod hsig hvalid2 hexp, ?_, Store.count_put _ _ _, Store.count_put _ _ _⟩
  have hd := Store.delete_put st ("blacklist:" ++ tokenString)
    { value := "blacklisted",
      expiration := Time.Add nowSet1
        (if timeUntil nowUntil1 (unixTime exp) ≤ 0 then Hour
         else timeUntil nowUntil1 (unixTime exp)) }
  simp only [Store.put, List.map_cons] at hd ⊢
  rw [hd]

/-- The witness of C17: `alice` logs out with her access token at 105 s and
again at 106 s. -/
theorem Logout_idempotent_witness :
    ∃ st1 st2,
      demo.service.Logout [] demo.later demo.later demo.later demo.accessToken = (st1, none) ∧
      demo.service.Logout st1 (106 * Second) (106 * Second) (106 * Second) demo.accessToken
        = (st2, none) ∧
      st2.map Prod.fst = st1.map Prod.fst ∧
      (st1.filter (fun kv => decide (kv.1 = "blacklist:" ++ demo.accessToken))).length = 1 ∧
      (st2.filter (fun kv => decide (kv.1 = "blacklist:" ++ demo.accessToken))).length = 1 :=
  Logout_idempotent demo.service rfl [] demo.later demo.later demo.later (106 * Second)
    (106 * Second) (106 * Second) demo.accessToken
    { alg := some "HS256", claims := Claims.decoded demo.aliceAccess,
      signingInput := demo.signingString "HS256" demo.aliceAccess,
      signature := demo.sign .SHA256 "k" (demo.signingString "HS256" demo.aliceAccess) }
    "HS256" .SHA256 86500 (by decide) (by decide) rfl (by decide) (by decide) (by decide)
    (by decide) (by decide)

/-- The witness of C18: after a `Set` at 0 with a TTL of 10, an `Exists` at 5
and a sweep at 20, the key is looked up at 30. -/
theorem redisCache_Exists_iff_witness :
    (redisCache.Exists (redisCache.run [] demo.history) 30 "k").2 = .ok false ↔
      (redisCache.noSet demo.history "k" ∨
        ∃ pre t value expiration post,
          demo.history = pre ++ (t, redisCache.Call.Set "k" value expiration) :: post ∧
          redisCache.noSet post "k" ∧
          (Time.After 30 (Time.Add t expiration) = true ∨ redisCache.someDelete post "k")) :=
  (redisCache_Exists_iff demo.history 30 "k" (by
    unfold redisCache.clockOrdered
    decide)).1

/-! ## Expired tokens -/

/-- A numeric, non-zero `exp` at least one second before `now` fails the time
validation of `jwt.Parse`. -/
theorem Valid_false_of_expired (c : Claims) (now : Time) (exp : Int)
    (hexp : c.lookup "exp" = some (.num exp)) (hnz : exp ≠ 0)
    (hpast : unixTime exp + Second ≤ now) : MapClaims.Valid c now = false := by
  have hle : exp + 1 ≤ now.Unix := by
    unfold Time.Unix
    rw [Int.le_ediv_iff_mul_le (by decide : (0 : Int) < Second)]
    unfold unixTime at hpast
    unfold Time at *
    linarith
  unfold MapClaims.Valid
  rw [VerifyExpiresAt_false c now.Unix exp hexp hnz (by omega)]
  rfl

/-- C11, counterexample: at 105 s `VerifyToken` accepts the correctly signed
access token whose `exp` is 0, although that instant lies far more than one
second in the past; and on the token object `jwt.Parse` leaves for a token
that expired at 50 s, whose `Valid` flag is not set, `ValidateToken` returns
"invalid token", not "token expired". -/
theorem expired_token_counterexample :
    (demo.service2.jwt.RoundTrips .SHA256 "HS256" "k" demo.zeroExpAccess ∧
      (Claims.decoded demo.zeroExpAccess).lookup "exp" = some (.num 0) ∧
      unixTime 0 + Second ≤ demo.later ∧
      ∃ token, demo.service2.VerifyToken demo.later demo.zeroExpToken = .ok token) ∧
    (demo.staleParsed.Claims.lookup "exp" = some (.num 50) ∧
      unixTime 50 + Second ≤ demo.later ∧
      jwtService.ValidateToken demo.later demo.staleParsed = some (.other "invalid token")) := by
  refine ⟨⟨by decide, by decide, by decide, _, rfl⟩, by decide, by decide, by decide⟩

/-- C11, amended: for every token string whose decoded `exp` claim is a number
at least one second earlier than the current time, `VerifyToken` returns an
error and no token provided that number is not 0 (a zero `exp` is treated by
`jwt.Parse` as an absent claim); on a token object with these claims
`ValidateToken` returns "token expired" when its `Valid` flag is set and
"invalid token" when it is not. -/
theorem expired_token_rejected {σ : Type} (s : authService σ) (now : Time)
    (tokenString : String) (seg : Segments) (exp : Int) (token : Token)
    (hseg : s.jwt.segments tokenString = some seg)
    (hexp : seg.claims.lookup "exp" = some (.num exp))
    (hpast : unixTime exp + Second ≤ now)
    (htok : token.Claims = seg.claims) :
    (exp ≠ 0 → ∃ e, s.VerifyToken now tokenString = .error e) ∧
    (token.Valid = true →
      jwtService.ValidateToken now token = some (.other "token expired")) ∧
    (token.Valid = false →
      jwtService.ValidateToken now token = some (.other "invalid token")) := by
  refine ⟨?_, ?_, ?_⟩
  · intro hnz
    have hinv := Valid_false_of_expired seg.claims now exp hexp hnz hpast
    unfold authService.VerifyToken
    by_cases he : tokenString = ""
    · exact ⟨_, by rw [if_pos he]⟩
    · rw [if_neg he]
      cases hp : jwtParse s.jwt now tokenString (keyFunc s.config.Secret) with
      | error e => exact ⟨_, rfl⟩
      | ok t =>
        obtain ⟨seg2, _, _, hs2, _, _, _, hv, _⟩ :=
          jwtParse_ok_inv s.jwt now tokenString s.config.Secret t hp
        rw [hseg] at hs2
        cases hs2
        rw [hinv] at hv
        cases hv
  · intro hv
    have hlt : exp < now.Unix := by
      unfold Time.Unix
      have : exp + 1 ≤ now / Second := by
        rw [Int.le_ediv_iff_mul_le (by decide : (0 : Int) < Second)]
        unfold unixTime at hpast
        unfold Time at *
        linarith
      omega
    unfold jwtService.ValidateToken
    rw [htok, hexp]
    simp [hv, hlt]
  · intro hv
    unfold jwtService.ValidateToken
    simp [hv]

/-- The witness of C11: the access token that expired at 50 s, presented at
105 s. -/
theorem expired_token_rejected_witness :
    ((50 : Int) ≠ 0 → ∃ e, demo.service2.VerifyToken demo.later demo.staleToken = .error e) ∧
    (demo.staleHeld.Valid = true →
      jwtService.ValidateToken demo.later demo.staleHeld = some (.other "token expired")) ∧
    (demo.staleHeld.Valid = false →
      jwtService.ValidateToken demo.later demo.staleHeld = some (.other "invalid token")) :=
  expired_token_rejected demo.service2 demo.later demo.staleToken
    { alg := some "HS256", claims := Claims.decoded demo.staleAccess,
      signingInput := demo.signingString "HS256" demo.staleAccess,
      signature := demo.sign .SHA256 "k" (demo.signingString "HS256" demo.staleAccess) }
    50 demo.staleHeld (by decide) (by decide) (by decide) rfl

/-! ## The header algorithm -/

/-- The header algorithms mapped to a `*SigningMethodHMAC` are HS256, HS384
and HS512. -/
theorem GetSigningMethod_HMAC (alg : String) (h : Hash)
    (hm : GetSigningMethod alg = some (.HMAC h)) :
    alg = "HS256" ∨ alg = "HS384" ∨ alg = "HS512" := by
  unfold GetSigningMethod at hm
  by_cases h1 : alg = "HS256"
  · exact Or.inl h1
  · by_cases h2 : alg = "HS384"
    · exact Or.inr (Or.inl h2)
    · by_cases h3 : alg = "HS512"
      · exact Or.inr (Or.inr h3)
      · rw [if_neg h1, if_neg h2, if_neg h3] at hm
        split at hm <;> simp at hm

/-- A token whose header algorithm is none of HS256, HS384, HS512 makes
`jwt.Parse` fail under the key function of this repository. -/
theorem jwtParse_rejects_non_HMAC (L : JWTLib) (now : Time) (tokenString secret : String)
    (seg : Segments) (hseg : L.segments tokenString = some seg)
    (halg : seg.alg ≠ some "HS256" ∧ seg.alg ≠ some "HS384" ∧ seg.alg ≠ some "HS512") :
    jwtParse L now tokenString (keyFunc secret) = .error (.jwt .unverifiable) := by
  unfold jwtParse
  cases ha : seg.alg with
  | none => simp [hseg, ha]
  | some alg =>
    cases hm : GetSigningMethod alg with
    | none => simp [hseg, ha, hm]
    | some method =>
      cases method with
      | nonHMAC a => simp [hseg, ha, hm, keyFunc]
      | HMAC h =>
        rcases GetSigningMethod_HMAC alg h hm with e | e | e
        · exact absurd (by rw [ha, e]) halg.1
        · exact absurd (by rw [ha, e]) halg.2.1
        · exact absurd (by rw [ha, e]) halg.2.2

/-- C12, counterexample: tokens whose header declares HS384, signed with
HMAC-SHA384 under the configured secret, are accepted by `ParseToken`,
`VerifyToken`, `Logout` and `RefreshToken`. -/
theorem HS384_token_accepted :
    (∃ token, jwtService.ParseToken demo.service2.jwt "k" demo.later demo.accessToken384
      = .ok token ∧ token.alg = "HS384") ∧
    (∃ token, demo.service2.VerifyToken demo.later demo.accessToken384 = .ok token ∧
      token.alg = "HS384") ∧
    demo.service2.Logout [] demo.later demo.later demo.later demo.accessToken384
      = ([("blacklist:" ++ demo.accessToken384,
           { value := "blacklisted", expiration := unixTime 86500 })], none) ∧
    (∃ response, (demo.service2.RefreshToken demo.later demo.later demo.later demo.later
      demo.later { bits := 3 } { bits := 4 } demo.refreshToken384).1 = .ok response) := by
  refine ⟨⟨_, rfl, rfl⟩, ⟨_, rfl, rfl⟩, by decide, ⟨_, rfl⟩⟩

/-- C12, amended: `ParseToken`, `VerifyToken`, `Logout` and `RefreshToken`
reject every token whose declared header algorithm is none of HS256, HS384
and HS512 (absent, unknown, none, or a method that is not HMAC); `Logout`
leaves the store unchanged and `RefreshToken` makes no repository lookup. -/
theorem non_HMAC_token_rejected {σ : Type} (s : authService σ) (st : σ)
    (now nowUntil nowSet now1 now2 now3 now4 : Time) (jti1 jti2 : UUID)
    (tokenString : String) (seg : Segments)
    (hseg : s.jwt.segments tokenString = some seg)
    (halg : seg.alg ≠ some "HS256" ∧ seg.alg ≠ some "HS384" ∧ seg.alg ≠ some "HS512") :
    jwtService.ParseToken s.jwt s.config.Secret now tokenString
      = .error (.wrap "failed to parse token" (.jwt .unverifiable)) ∧
    (∃ e, s.VerifyToken now tokenString = .error e) ∧
    (∃ e, s.Logout st now nowUntil nowSet tokenString = (st, some e)) ∧
    s.RefreshToken now now1 now2 now3 now4 jti1 jti2 tokenString
      = (.error .ErrInvalidToken, []) := by
  have hp := jwtParse_rejects_non_HMAC s.jwt now tokenString s.config.Secret seg hseg halg
  refine ⟨?_, ?_, ?_, ?_⟩
  · unfold jwtService.ParseToken
    rw [hp]
  · unfold authService.VerifyToken
    by_cases he : tokenString = ""
    · exact ⟨_, by rw [if_pos he]⟩
    · exact ⟨_, by rw [if_neg he, hp]⟩
  · unfold authService.Logout
    by_cases he : tokenString = ""
    · exact ⟨_, by rw [if_pos he]⟩
    · exact ⟨_, by rw [if_neg he, hp]⟩
  · unfold authService.RefreshToken
    by_cases he : tokenString = ""
    · rw [if_pos he]
    · rw [if_neg he, hp]

/-- The witness of C12: the access claims of `alice` under the header
algorithm none. -/
theorem non_HMAC_token_rejected_witness :
    jwtService.ParseToken demo.service2.jwt demo.service2.config.Secret demo.later
        demo.unsignedToken
      = .error (.wrap "failed to parse token" (.jwt .unverifiable)) ∧
    (∃ e, demo.service2.VerifyToken demo.later demo.unsignedToken = .error e) ∧
    (∃ e, demo.service2.Logout [] demo.later demo.later demo.later demo.unsignedToken
      = ([], some e)) ∧
    demo.service2.RefreshToken demo.later demo.later demo.later demo.later demo.later
        { bits := 3 } { bits := 4 } demo.unsignedToken
      = (.error .ErrInvalidToken, []) :=
  non_HMAC_token_rejected demo.service2 [] demo.later demo.later demo.later demo.later
    demo.later demo.later demo.later { bits := 3 } { bits := 4 } demo.unsignedToken
    { alg := some "none", claims := Claims.decoded demo.aliceAccess,
      signingInput := demo.signingString "none" demo.aliceAccess, signature := "" }
    (by decide) (by decide)

/-! ## The empty secret -/

/-- The configuration loader refuses the empty secret: `validate` returns an
error for every configuration whose secret is empty, so `LoadConfig` never
returns one. -/
theorem LoadConfig_secret_ne_empty (c : Config) :
    Config.validate { c with JWT := { c.JWT with Secret := "" } } ≠ none ∧
    (∀ (env : String → Option String) (atoi : String → Option Int) (cfg : Config),
      LoadConfig env atoi = .ok cfg → cfg.JWT.Secret ≠ "") := by
  refine ⟨?_, ?_⟩
  · unfold Config.validate
    simp only
    split_ifs <;> simp
  · intro env atoi cfg hload hempty
    unfold LoadConfig at hload
    simp only at hload
    split at hload
    · cases hload
    · rename_i hv
      cases hload
      unfold Config.validate at hv
      simp only at hempty
      simp only [hempty] at hv
      split_ifs at hv

/-- C13: with the empty string as secret, `CreateToken` returns no error but a
token for the claims `{sub: "alice", exp: 86500}`, and `generateJWTToken`
returns no error but an access and a refresh token for `alice`, each signed
with the empty key; `GenerateRefreshToken` of the same service, asked for a
token for the same user, returns `ErrTokenConfig` and no token. -/
theorem empty_secret_signed :
    demo.serviceNoSecret.config.Secret = "" ∧
    jwtService.CreateToken demo.codec "" demo.plainClaims
      = .ok (demo.signingString "HS256" demo.plainClaims ++ "." ++
              demo.sign .SHA256 "" (demo.signingString "HS256" demo.plainClaims)) ∧
    demo.serviceNoSecret.generateJWTToken demo.alice demo.issuedAt demo.issuedAt
        demo.issuedAt demo.issuedAt { bits := 1 } { bits := 2 }
      = .ok (demo.signingString "HS256" demo.aliceAccess ++ "." ++
               demo.sign .SHA256 "" (demo.signingString "HS256" demo.aliceAccess),
             demo.signingString "HS256" demo.aliceRefresh ++ "." ++
               demo.sign .SHA256 "" (demo.signingString "HS256" demo.aliceRefresh),
             unixTime 86500) ∧
    demo.serviceNoSecret.GenerateRefreshToken demo.alice demo.issuedAt { bits := 2 }
      = .error .ErrTokenConfig := by
  decide

/-! ## Login -/

/-- What `Login` returns once the password check has passed. -/
theorem Login_success {σ : Type} (s : authService σ) (B : BcryptLib) (request : LoginRequestDTO)
    (now1 now2 now3 now4 : Time) (jti1 jti2 : UUID) (user : User)
    (hfind : s.userRepository.FindByPhone request.Phone = .ok user)
    (hactive : user.IsActive = true)
    (hpw : user.CheckPassword B request.Password = none) :
    s.Login B request now1 now2 now3 now4 jti1 jti2
      = .ok { AccessToken :=
                s.jwt.signingString "HS256"
                  (authService.accessClaims s user (Time.Add now1 s.config.Expiry) now3 jti1)
                ++ "." ++
                s.jwt.sign .SHA256 s.config.Secret (s.jwt.signingString "HS256"
                  (authService.accessClaims s user (Time.Add now1 s.config.Expiry) now3 jti1)),
              RefreshToken :=
                s.jwt.signingString "HS256"
                  (authService.refreshClaims s user (Time.Add now2 s.config.RefreshExpiry) now4
                    jti2) ++ "." ++
                s.jwt.sign .SHA256 s.config.Secret (s.jwt.signingString "HS256"
                  (authService.refreshClaims s user (Time.Add now2 s.config.RefreshExpiry) now4
                    jti2)),
              Message := "Success authorization" } := by
  unfold authService.Login
  rw [hfind]
  simp only [hactive, Bool.true_eq_false, if_false, hpw]
  rfl

/-- C14: `Login` returns `ErrInvalidCredentials` when the lookup by phone
fails; otherwise `ErrAccountBlocked` when the user is not active; otherwise
`ErrInvalidCredentials` when the password check fails; otherwise a response
whose access token and refresh token are both non-empty. -/
theorem Login_decides_in_order {σ : Type} (s : authService σ) (B : BcryptLib)
    (request : LoginRequestDTO) (now1 now2 now3 now4 : Time) (jti1 jti2 : UUID) :
    (∀ e, s.userRepository.FindByPhone request.Phone = .error e →
      s.Login B request now1 now2 now3 now4 jti1 jti2 = .error .ErrInvalidCredentials) ∧
    (∀ user, s.userRepository.FindByPhone request.Phone = .ok user → user.IsActive = false →
      s.Login B request now1 now2 now3 now4 jti1 jti2 = .error .ErrAccountBlocked) ∧
    (∀ user e, s.userRepository.FindByPhone request.Phone = .ok user → user.IsActive = true →
      user.CheckPassword B request.Password = some e →
      s.Login B request now1 now2 now3 now4 jti1 jti2 = .error .ErrInvalidCredentials) ∧
    (∀ user, s.userRepository.FindByPhone request.Phone = .ok user → user.IsActive = true →
      user.CheckPassword B request.Password = none →
      ∃ response, s.Login B request now1 now2 now3 now4 jti1 jti2 = .ok response ∧
        response.AccessToken ≠ "" ∧ response.RefreshToken ≠ "") := by
  refine ⟨?_, ?_, ?_, ?_⟩
  · intro e hfind
    unfold authService.Login
    rw [hfind]
  · intro user hfind hblocked
    unfold authService.Login
    rw [hfind]
    simp [hblocked]
  · intro user e hfind hactive hpw
    unfold authService.Login
    rw [hfind]
    simp [hactive, hpw]
  · intro user hfind hactive hpw
    exact ⟨_, Login_success s B request now1 now2 now3 now4 jti1 jti2 user hfind hactive hpw,
      append_dot_ne_empty _ _, append_dot_ne_empty _ _⟩

/-- The witness of C14: `alice` logs in with her phone and password at 100 s. -/
theorem Login_decides_in_order_witness :
    ∃ response,
      demo.service.Login demo.bcrypt { Phone := "+996500500500", Password := "Password123" }
        demo.issuedAt demo.issuedAt demo.issuedAt demo.issuedAt { bits := 1 } { bits := 2 }
        = .ok response ∧
      response.AccessToken ≠ "" ∧ response.RefreshToken ≠ "" :=
  (Login_decides_in_order demo.service demo.bcrypt
    { Phone := "+996500500500", Password := "Password123" }
    demo.issuedAt demo.issuedAt demo.issuedAt demo.issuedAt { bits := 1 } { bits := 2 }).2.2.2
    demo.alice (by decide) (by decide) (by decide)

/-- C15, counterexample: "wrong-password" is not the password of the blocked
account `bob`; with it `Login` returns `ErrAccountBlocked` in the store that
holds `bob` and `ErrInvalidCredentials` in the store that does not. -/
theorem Login_reveals_blocked_account :
    demo.bob.CheckPassword demo.bcrypt "wrong-password" ≠ none ∧
    demo.serviceWithBob.userRepository.FindByPhone "+996700700700" = .ok demo.bob ∧
    demo.service.userRepository.FindByPhone "+996700700700" = .error .ErrUserNotFound ∧
    demo.serviceWithBob.Login demo.bcrypt
        { Phone := "+996700700700", Password := "wrong-password" }
        demo.issuedAt demo.issuedAt demo.issuedAt demo.issuedAt { bits := 1 } { bits := 2 }
      = .error .ErrAccountBlocked ∧
    demo.service.Login demo.bcrypt { Phone := "+996700700700", Password := "wrong-password" }
        demo.issuedAt demo.issuedAt demo.issuedAt demo.issuedAt { bits := 1 } { bits := 2 }
      = .error .ErrInvalidCredentials := by
  decide

/-- C15, amended: for every phone and every password that fails the password
check of the account with that phone, `Login` returns `ErrInvalidCredentials`
when the account is active, the same as in a store where the lookup by phone
fails; when the account is blocked it returns `ErrAccountBlocked`, whatever
the password. -/
theorem Login_hides_active_account {σ τ : Type} (s1 : authService σ) (s2 : authService τ)
    (B : BcryptLib) (request : LoginRequestDTO) (now1 now2 now3 now4 : Time)
    (jti1 jti2 : UUID) (user : User) (e1 e2 : Error)
    (hfind1 : s1.userRepository.FindByPhone request.Phone = .ok user)
    (hpw : user.CheckPassword B request.Password = some e1)
    (hfind2 : s2.userRepository.FindByPhone request.Phone = .error e2) :
    s2.Login B request now1 now2 now3 now4 jti1 jti2 = .error .ErrInvalidCredentials ∧
    (user.IsActive = true →
      s1.Login B request now1 now2 now3 now4 jti1 jti2 = .error .ErrInvalidCredentials) ∧
    (user.IsActive = false →
      s1.Login B request now1 now2 now3 now4 jti1 jti2 = .error .ErrAccountBlocked) := by
  refine ⟨?_, ?_, ?_⟩
  · unfold authService.Login
    rw [hfind2]
  · intro hactive
    unfold authService.Login
    rw [hfind1]
    simp [hactive, hpw]
  · intro hblocked
    unfold authService.Login
    rw [hfind1]
    simp [hblocked]

/-- The witness of C15: a wrong password for the active account `alice`, in
the store that holds her and in a store that cannot find her phone. -/
theorem Login_hides_active_account_witness :
    demo.serviceDown.Login demo.bcrypt { Phone := "+996500500500", Password := "wrong-password" }
        demo.issuedAt demo.issuedAt demo.issuedAt demo.issuedAt { bits := 1 } { bits := 2 }
      = .error .ErrInvalidCredentials ∧
    (demo.alice.IsActive = true →
      demo.service.Login demo.bcrypt { Phone := "+996500500500", Password := "wrong-password" }
          demo.issuedAt demo.issuedAt demo.issuedAt demo.issuedAt { bits := 1 } { bits := 2 }
        = .error .ErrInvalidCredentials) ∧
    (demo.alice.IsActive = false →
      demo.service.Login demo.bcrypt { Phone := "+996500500500", Password := "wrong-password" }
          demo.issuedAt demo.issuedAt demo.issuedAt demo.issuedAt { bits := 1 } { bits := 2 }
        = .error .ErrAccountBlocked) :=
  Login_hides_active_account demo.service demo.serviceDown demo.bcrypt
    { Phone := "+996500500500", Password := "wrong-password" }
    demo.issuedAt demo.issuedAt demo.issuedAt demo.issuedAt { bits := 1 } { bits := 2 }
    demo.alice
    (.other "crypto/bcrypt: hashedPassword is not the hash of the given password")
    (.other "dial tcp 127.0.0.1:5432: connect: connection refused")
    (by decide) (by decide) (by decide)

/-- C16, counterexample: the repository cannot reach its database and returns
the error of the driver, which is not the not-found error; `Login` returns
`ErrInvalidCredentials`, the same as for a phone no user has, where
`GetUserFromToken` passes the error of the repository on. -/
theorem Login_masks_repository_failure :
    demo.serviceDown.userRepository.FindByPhone "+996500500500"
      = .error (.other "dial tcp 127.0.0.1:5432: connect: connection refused") ∧
    Error.other "dial tcp 127.0.0.1:5432: connect: connection refused" ≠ .ErrUserNotFound ∧
    demo.serviceDown.Login demo.bcrypt { Phone := "+996500500500", Password := "Password123" }
        demo.issuedAt demo.issuedAt demo.issuedAt demo.issuedAt { bits := 1 } { bits := 2 }
      = .error .ErrInvalidCredentials ∧
    demo.service.Login demo.bcrypt { Phone := "+996500500501", Password := "Password123" }
        demo.issuedAt demo.issuedAt demo.issuedAt demo.issuedAt { bits := 1 } { bits := 2 }
      = .error .ErrInvalidCredentials ∧
    demo.serviceDown.GetUserFromToken
        (some { Raw := demo.accessToken, Method := .HMAC .SHA256, alg := "HS256",
                Claims := Claims.decoded demo.aliceAccess, Signature := "", Valid := true })
      = .error (.wrap "failed to find user"
          (.other "dial tcp 127.0.0.1:5432: connect: connection refused")) := by
  decide

/-- C16, amended: whatever error the lookup by phone returns, not-found or
any other, `Login` returns `ErrInvalidCredentials`; the error of the
repository is not part of the result. -/
theorem Login_repository_failure {σ : Type} (s : authService σ) (B : BcryptLib)
    (request : LoginRequestDTO) (now1 now2 now3 now4 : Time) (jti1 jti2 : UUID) (e : Error)
    (hfind : s.userRepository.FindByPhone request.Phone = .error e) :
    s.Login B request now1 now2 now3 now4 jti1 jti2 = .error .ErrInvalidCredentials := by
  unfold authService.Login
  rw [hfind]

/-- The witness of C16: the repository whose database cannot be reached. -/
theorem Login_repository_failure_witness :
    demo.serviceDown.Login demo.bcrypt { Phone := "+996500500500", Password := "Password123" }
        demo.issuedAt demo.issuedAt demo.issuedAt demo.issuedAt { bits := 1 } { bits := 2 }
      = .error .ErrInvalidCredentials :=
  Login_repository_failure demo.serviceDown demo.bcrypt
    { Phone := "+996500500500", Password := "Password123" }
    demo.issuedAt demo.issuedAt demo.issuedAt demo.issuedAt { bits := 1 } { bits := 2 }
    (.other "dial tcp 127.0.0.1:5432: connect: connection refused") (by decide)

/-! ## A zero TTL -/

/-- C19, counterexample: after `Set("blacklist:tok", "blacklisted", 0)` at the
instant 0 on the empty store, `Exists("blacklist:tok")` returns false one
nanosecond later, long before an hour has elapsed. -/
theorem Set_zero_ttl_expires_at_once :
    (redisCache.Exists (redisCache.Set [] 0 "blacklist:tok" "blacklisted" 0).1 1
      "blacklist:tok").2 = .ok false ∧ (1 : Time) < 0 + Hour := by
  decide

/-- C19, amended: a `Set` with TTL 0 stores an entry that expires at the
instant of the call, so `Exists` returns true at that instant and false at
every later one; the hour belongs to `BlacklistToken`, which for a token with
no lifetime left stores the entry with a TTL of one hour, so that
`Exists("blacklist:tok")` returns true from the `Set` up to one hour after it;
after `Delete("blacklist:tok")` it returns false at every time. -/
theorem zero_ttl_and_fallback (st : Store) (nowUntil nowSet later : Time) (expiry : Time)
    (h0 : expiry - nowUntil ≤ 0) (h2 : later ≤ nowSet + Hour) :
    (redisCache.Exists (redisCache.Set st nowSet "blacklist:tok" "blacklisted" 0).1 nowSet
      "blacklist:tok").2 = .ok true ∧
    (nowSet < later →
      (redisCache.Exists (redisCache.Set st nowSet "blacklist:tok" "blacklisted" 0).1 later
        "blacklist:tok").2 = .ok false) ∧
    (redisCache.Exists
      (tokenService.BlacklistToken redisCacheImpl st nowUntil nowSet "tok" expiry).1 later
      "blacklist:tok").2 = .ok true ∧
    (∀ t : Time,
      (redisCache.Exists
        (redisCache.Delete
          (tokenService.BlacklistToken redisCacheImpl st nowUntil nowSet "tok" expiry).1 later
          "blacklist:tok").1 t "blacklist:tok").2 = .ok false) := by
  have hb : (tokenService.BlacklistToken redisCacheImpl st nowUntil nowSet "tok" expiry).1
      = Store.put st "blacklist:tok"
          { value := "blacklisted", expiration := Time.Add nowSet Hour } := by
    have hne : ("tok" : String) ≠ "" := by decide
    have hkey : tokenService.tokenKey "tok" = "blacklist:tok" := by decide
    have httl : (if timeUntil nowUntil expiry ≤ 0 then Hour else timeUntil nowUntil expiry)
        = Hour := by
      rw [blacklistExpiry_eq]
      have : ¬ 0 < expiry - nowUntil := not_lt.mpr h0
      rw [if_neg this]
    unfold tokenService.BlacklistToken
    simp only [if_neg hne, hkey, httl]
    rfl
  refine ⟨?_, ?_, ?_, ?_⟩
  · unfold redisCache.Exists redisCache.Set
    simp only [Store.find_put_self, Time.After, Time.Add]
    simp
  · intro hlt
    unfold redisCache.Exists redisCache.Set
    simp only [Store.find_put_self, Time.After, Time.Add]
    simp [hlt]
  · rw [hb]
    unfold redisCache.Exists
    simp only [Store.find_put_self, Time.After, Time.Add]
    have : ¬ nowSet + Hour < later := not_lt.mpr h2
    simp [this]
  · intro t
    unfold redisCache.Exists redisCache.Delete
    simp only [Store.find_delete_self]

/-- The witness of C19: the token "tok" expired at 50 s is blacklisted at
100 s and looked up half an hour later. -/
theorem zero_ttl_and_fallback_witness :
    (redisCache.Exists
      (tokenService.BlacklistToken redisCacheImpl [] (100 * Second) (100 * Second) "tok"
        (unixTime 50)).1 (100 * Second + 30 * Minute) "blacklist:tok").2 = .ok true :=
  (zero_ttl_and_fallback [] (100 * Second) (100 * Second) (100 * Second + 30 * Minute)
    (unixTime 50) (by decide) (by decide)).2.2.1

/-! ## Expiry and issue time -/

/-- Multiplying an hour by a count of hours from 0 to 2562047 does not
overflow an `int64`. -/
theorem wrapInt64_hours (n : Int) (h0 : 0 ≤ n) (h1 : n ≤ 2562047) :
    wrapInt64 (Hour * wrapInt64 n) = n * Hour := by
  have hw : ∀ x : Int, -9223372036854775808 ≤ x → x ≤ 9223372036854775807 →
      wrapInt64 x = x := by
    intro x hx1 hx2
    unfold wrapInt64
    omega
  rw [hw n (by omega) (by omega)]
  unfold Hour Minute Second
  unfold Duration
  rw [hw _ (by omega) (by omega)]
  ring

/-- C20, counterexample: `LoadConfig` accepts an environment with
`JWT_EXPIRY_HOURS=0`; under the configuration it returns, the access token
`generateJWTToken` issues at 100 s carries `exp = 100` and `iat = 100`. -/
theorem exp_not_after_iat_counterexample :
    LoadConfig demo.env demo.atoi = .ok demo.loaded ∧
    demo.serviceLoaded.config = demo.loaded.JWT ∧
    (∃ refreshToken,
      demo.serviceLoaded.generateJWTToken demo.alice demo.issuedAt demo.issuedAt demo.issuedAt
          demo.issuedAt { bits := 1 } { bits := 2 }
        = .ok (demo.signingString "HS256"
                 (authService.accessClaims demo.serviceLoaded demo.alice demo.issuedAt
                   demo.issuedAt { bits := 1 }) ++ "." ++
               demo.sign .SHA256 "k" (demo.signingString "HS256"
                 (authService.accessClaims demo.serviceLoaded demo.alice demo.issuedAt
                   demo.issuedAt { bits := 1 })),
               refreshToken, demo.issuedAt)) ∧
    (authService.accessClaims demo.serviceLoaded demo.alice demo.issuedAt demo.issuedAt
      { bits := 1 }).lookup "exp" = some (.int 100) ∧
    (authService.accessClaims demo.serviceLoaded demo.alice demo.issuedAt demo.issuedAt
      { bits := 1 }).lookup "iat" = some (.int 100) := by
  refine ⟨by decide, rfl, ⟨_, rfl⟩, by decide, by decide⟩

/-- C20, amended: the access token and the refresh token `generateJWTToken`
produces carry an `exp` strictly greater than their `iat` whenever the
configured lifetime exceeds by at least one second the time between the clock
reading that gives `iat` and the one that gives `exp`; `LoadConfig` computes
the lifetime as the configured number of hours, which is at least one hour
for a count from 1 to 2562047.  With a count of 0 or less, which the
validation accepts, the lifetime is not positive. -/
theorem exp_after_iat {σ : Type} (s : authService σ) (user : User)
    (now1 now2 now3 now4 : Time) (jti1 jti2 : UUID)
    (h1 : now3 + Second ≤ now1 + s.config.Expiry)
    (h2 : now4 + Second ≤ now2 + s.config.RefreshExpiry) :
    s.generateJWTToken user now1 now2 now3 now4 jti1 jti2
      = .ok (s.jwt.signingString "HS256"
               (authService.accessClaims s user (Time.Add now1 s.config.Expiry) now3 jti1)
               ++ "." ++
               s.jwt.sign .SHA256 s.config.Secret (s.jwt.signingString "HS256"
                 (authService.accessClaims s user (Time.Add now1 s.config.Expiry) now3 jti1)),
             s.jwt.signingString "HS256"
               (authService.refreshClaims s user (Time.Add now2 s.config.RefreshExpiry) now4
                 jti2) ++ "." ++
               s.jwt.sign .SHA256 s.config.Secret (s.jwt.signingString "HS256"
                 (authService.refreshClaims s user (Time.Add now2 s.config.RefreshExpiry) now4
                   jti2)),
             Time.Add now1 s.config.Expiry) ∧
    (∃ exp iat,
      (authService.accessClaims s user (Time.Add now1 s.config.Expiry) now3 jti1).lookup "exp"
        = some (.int exp) ∧
      (authService.accessClaims s user (Time.Add now1 s.config.Expiry) now3 jti1).lookup "iat"
        = some (.int iat) ∧ iat < exp) ∧
    (∃ exp iat,
      (authService.refreshClaims s user (Time.Add now2 s.config.RefreshExpiry) now4 jti2).lookup
        "exp" = some (.int exp) ∧
      (authService.refreshClaims s user (Time.Add now2 s.config.RefreshExpiry) now4 jti2).lookup
        "iat" = some (.int iat) ∧ iat < exp) ∧
    (∀ (env : String → Option String) (atoi : String → Option Int) (cfg : Config),
      LoadConfig env atoi = .ok cfg →
      (1 ≤ getEnvAsInt env atoi "JWT_EXPIRY_HOURS" 24 →
        getEnvAsInt env atoi "JWT_EXPIRY_HOURS" 24 ≤ 2562047 → Hour ≤ cfg.JWT.Expiry) ∧
      (1 ≤ getEnvAsInt env atoi "JWT_REFRESH_EXPIRY_HOURS" 168 →
        getEnvAsInt env atoi "JWT_REFRESH_EXPIRY_HOURS" 168 ≤ 2562047 →
        Hour ≤ cfg.JWT.RefreshExpiry)) := by
  have key : ∀ a b : Time, a + Second ≤ b → Time.Unix a < Time.Unix b := by
    intro a b hab
    unfold Time.Unix
    have hs : (0 : Int) < Second := by decide
    have h3 : a / Second + 1 ≤ b / Second := by
      rw [Int.le_ediv_iff_mul_le hs]
      have := Int.ediv_mul_le a (ne_of_gt hs)
      unfold Time at *
      linarith
    exact Int.lt_iff_add_one_le.mpr h3
  refine ⟨rfl, ⟨_, _, rfl, rfl, key _ _ h1⟩, ⟨_, _, rfl, rfl, key _ _ h2⟩, ?_⟩
  intro env atoi cfg hload
  unfold LoadConfig at hload
  simp only at hload
  split at hload
  · cases hload
  · cases hload
    refine ⟨fun ha hb => ?_, fun ha hb => ?_⟩
    · simp only
      rw [wrapInt64_hours _ (by omega) hb]
      unfold Hour Minute Second Duration at *
      nlinarith
    · simp only
      rw [wrapInt64_hours _ (by omega) hb]
      unfold Hour Minute Second Duration at *
      nlinarith

/-- The witness of C20: the default lifetimes of 24 and 168 hours, all clock
readings at 100 s. -/
theorem exp_after_iat_witness :
    ∃ exp iat,
      (authService.accessClaims demo.service demo.alice
        (Time.Add demo.issuedAt demo.service.config.Expiry) demo.issuedAt
        { bits := 1 }).lookup "exp" = some (.int exp) ∧
      (authService.accessClaims demo.service demo.alice
        (Time.Add demo.issuedAt demo.service.config.Expiry) demo.issuedAt
        { bits := 1 }).lookup "iat" = some (.int iat) ∧ iat < exp :=
  (exp_after_iat demo.service demo.alice demo.issuedAt demo.issuedAt demo.issuedAt
    demo.issuedAt { bits := 1 } { bits := 2 } (by decide) (by decide)).2.1

/-! ## Monotonicity of the role gates -/

theorem admits_Admin (c : Context) (r : String) :
    admits AdminRoleMiddleware c r ↔ r = "admin" := by
  unfold admits AdminRoleMiddleware
  by_cases h : r = "admin" <;> simp [h]

theorem admits_SuperUser (c : Context) (r : String) :
    admits SuperUserRoleMiddleware c r ↔ r = "superuser" := by
  unfold admits SuperUserRoleMiddleware
  by_cases h : r = "superuser" <;> simp [h]

theorem admits_Manager (c : Context) (r : String) :
    admits ManagerRoleMiddleware c r ↔ (r = "manager" ∨ r = "admin" ∨ r = "superuser") := by
  unfold admits ManagerRoleMiddleware
  by_cases h1 : r = "manager"
  · simp [h1]
  · by_cases h2 : r = "admin"
    · simp [h2]
    · by_cases h3 : r = "superuser"
      · simp [h3]
      · simp [h1, h2, h3]

theorem admits_RequireRoleLevel (c : Context) (r : String) (n : Int) :
    admits (RequireRoleLevelMiddleware n) c r ↔ n ≤ Role.Level r := by
  unfold admits RequireRoleLevelMiddleware
  simp only [userLevel_eq_Level]
  by_cases h : Role.Level r < n
  · simp [h]
  · simp [h, not_lt.mp h]

/-- C22, counterexample: `AdminRoleMiddleware` admits the role "admin" and
does not admit "superuser", whose level is higher. -/
theorem AdminRoleMiddleware_not_monotone :
    Role.Level "superuser" ≥ Role.Level "admin" ∧
    admits AdminRoleMiddleware demo.plainRequest "admin" ∧
    ¬ admits AdminRoleMiddleware demo.plainRequest "superuser" := by
  decide

/-- C22, amended: for all roles `r`, `r2` among superuser, admin, manager and
user with `Level r2 ≥ Level r`, each of `SuperUserRoleMiddleware`,
`ManagerRoleMiddleware` and `RequireRoleLevelMiddleware n` that admits `r`
admits `r2`; `AdminRoleMiddleware` admits exactly the role "admin", so the
one role of higher level it turns away is "superuser". -/
theorem role_gates_monotone (c : Context) (r r2 : String)
    (hr : r ∈ ["superuser", "admin", "manager", "user"])
    (hr2 : r2 ∈ ["superuser", "admin", "manager", "user"])
    (hle : Role.Level r2 ≥ Role.Level r) :
    (admits SuperUserRoleMiddleware c r → admits SuperUserRoleMiddleware c r2) ∧
    (admits ManagerRoleMiddleware c r → admits ManagerRoleMiddleware c r2) ∧
    (∀ n : Int, admits (RequireRoleLevelMiddleware n) c r →
      admits (RequireRoleLevelMiddleware n) c r2) ∧
    (admits AdminRoleMiddleware c r → admits AdminRoleMiddleware c r2 ∨ r2 = "superuser") ∧
    (∀ role : String, admits AdminRoleMiddleware c role ↔ role = "admin") := by
  refine ⟨?_, ?_, ?_, ?_, admits_Admin c⟩
  · rw [admits_SuperUser, admits_SuperUser]
    simp only [List.mem_cons, List.mem_singleton, List.not_mem_nil, or_false] at hr hr2
    rcases hr with rfl | rfl | rfl | rfl <;> rcases hr2 with rfl | rfl | rfl | rfl <;>
      revert hle <;> decide
  · rw [admits_Manager, admits_Manager]
    simp only [List.mem_cons, List.mem_singleton, List.not_mem_nil, or_false] at hr hr2
    rcases hr with rfl | rfl | rfl | rfl <;> rcases hr2 with rfl | rfl | rfl | rfl <;>
      revert hle <;> decide
  · intro n
    rw [admits_RequireRoleLevel, admits_RequireRoleLevel]
    intro hn
    exact le_trans hn hle
  · rw [admits_Admin, admits_Admin]
    simp only [List.mem_cons, List.mem_singleton, List.not_mem_nil, or_false] at hr hr2
    rcases hr with rfl | rfl | rfl | rfl <;> rcases hr2 with rfl | rfl | rfl | rfl <;>
      revert hle <;> decide

/-- The witness of C22: the roles "manager" and "admin". -/
theorem role_gates_monotone_witness :
    admits ManagerRoleMiddleware demo.plainRequest "manager" ∧
    admits ManagerRoleMiddleware demo.plainRequest "admin" :=
  ⟨by decide,
   (role_gates_monotone demo.plainRequest "manager" "admin" (by decide) (by decide)
    (by decide)).2.1 (by decide)⟩

/-! ## The background sweep -/

/-- C24: one pass of the sweep at the clock reading `now` keeps exactly the
entries of the store whose expiration is not before `now`, each with its key,
value and expiration and in the order they had, and removes the entries whose
expiration is before `now`; the ticker that triggers the passes has a period
of 60 seconds. -/
theorem cleanupExpiredPass_spec (s : Store) (now : Time) :
    (∀ kv : String × cacheItem,
      kv ∈ redisCache.cleanupExpiredPass s now ↔ kv ∈ s ∧ ¬ kv.2.expiration < now) ∧
    List.Sublist (redisCache.cleanupExpiredPass s now) s ∧
    ((s.map Prod.fst).Nodup → ∀ key : String,
      Store.find (redisCache.cleanupExpiredPass s now) key
        = match Store.find s key with
          | some item => if item.expiration < now then none else some item
          | none => none) ∧
    redisCache.cleanupInterval = 60 * Second := by
  refine ⟨?_, ?_, ?_, rfl⟩
  · intro kv
    unfold redisCache.cleanupExpiredPass Time.After
    rw [List.mem_filter]
    simp
  · exact List.filter_sublist s
  · intro hnd key
    unfold redisCache.cleanupExpiredPass Store.find
    rw [lookup_filter s key _ hnd]
    cases List.lookup key s with
    | none => rfl
    | some item =>
      simp only [Time.After]
      by_cases h : item.expiration < now <;> simp [h]

/-- The witness of C24: the store with one entry that expired at 10, swept
at 20. -/
theorem cleanupExpiredPass_spec_witness :
    Store.find (redisCache.cleanupExpiredPass demo.staleStore 20) "k"
      = match Store.find demo.staleStore "k" with
        | some item => if item.expiration < 20 then none else some item
        | none => none :=
  (cleanupExpiredPass_spec demo.staleStore 20).2.2.1 (by decide) "k"

/-! ## Reads that write, and `SetNX` -/

/-- C25, the failing input evaluated: on the store holding one entry under
"k" that expired at 10, `Get("k")` and `Exists("k")` at 20 each return a
store without that entry: the map after the call is not the map before it. -/
theorem Get_Exists_delete_expired_entry :
    redisCache.Get demo.staleStore 20 "k" = ([], .error (.other "key expired")) ∧
    redisCache.Exists demo.staleStore 20 "k" = ([], .ok false) ∧
    (redisCache.Get demo.staleStore 20 "k").1 ≠ demo.staleStore ∧
    (redisCache.Exists demo.staleStore 20 "k").1 ≠ demo.staleStore := by
  decide

/-- C30, the failing input evaluated: on the store holding one entry under
"k" that expired at 10, at 20 `Exists("k")` reports false and `Get("k")` an
error, yet `SetNX("k", "new", 100)` returns false and leaves the old entry in
the store. -/
theorem SetNX_ignores_expiry :
    (redisCache.Exists demo.staleStore 20 "k").2 = .ok false ∧
    (redisCache.Get demo.staleStore 20 "k").2 = .error (.other "key expired") ∧
    redisCache.SetNX demo.staleStore 20 "k" "new" 100 = (demo.staleStore, .ok false) := by
  decide

/-! ## Revocation is per token -/

theorem tokenKey_injective (a b : String)
    (h : tokenService.tokenKey a = tokenService.tokenKey b) : a = b := by
  unfold tokenService.tokenKey at h
  have hd := congrArg String.data h
  rw [String.data_append, String.data_append] at hd
  exact String.ext (List.append_cancel_left hd)

/-- The answer of `Exists` is determined by the entry found under the key. -/
theorem Exists_snd (s : Store) (now : Time) (key : String) :
    (redisCache.Exists s now key).2
      = match Store.find s key with
        | none => .ok false
        | some item => .ok (!Time.After now item.expiration) := by
  unfold redisCache.Exists
  cases Store.find s key with
  | none => rfl
  | some item =>
    simp only
    by_cases h : Time.After now item.expiration = true <;> simp [h]

/-- On the in-memory cache `IsTokenBlacklisted` answers what `Exists` answers
for the key of the token. -/
theorem IsTokenBlacklisted_snd (s : Store) (now : Time) (tokenString : String)
    (hne : tokenString ≠ "") :
    (tokenService.IsTokenBlacklisted redisCacheImpl s now tokenString).2
      = (redisCache.Exists s now (tokenService.tokenKey tokenString)).2 := by
  unfold tokenService.IsTokenBlacklisted redisCacheImpl
  rw [if_neg hne]
  simp only
  unfold redisCache.Exists
  cases Store.find s (tokenService.tokenKey tokenString) with
  | none => rfl
  | some item =>
    simp only
    by_cases h : Time.After now item.expiration = true <;> simp [h]

/-- The store `BlacklistToken` leaves on the in-memory cache. -/
theorem BlacklistToken_store (st : Store) (nowUntil nowSet : Time) (tokenString : String)
    (expiry : Time) (hne : tokenString ≠ "") :
    (tokenService.BlacklistToken redisCacheImpl st nowUntil nowSet tokenString expiry).1
      = Store.put st (tokenService.tokenKey tokenString)
          { value := "blacklisted",
            expiration := Time.Add nowSet
              (if 0 < expiry - nowUntil then min (expiry - nowUntil) maxDuration else Hour) } := by
  unfold tokenService.BlacklistToken
  simp only [if_neg hne, blacklistExpiry_eq]
  rfl

/-- C29: on the in-memory cache, for distinct non-empty token strings `t` and
`t2`, `BlacklistToken(t)` and `RemoveFromBlacklist(t)` leave the answer of
`IsTokenBlacklisted(t2)` unchanged; the key "blacklist:" + token all three
use is injective in the token. -/
theorem revocation_per_token (st : Store) (t t2 : String)
    (nowUntil nowSet nowDelete now : Time) (expiry : Time)
    (hne : t ≠ t2) (ht : t ≠ "") (ht2 : t2 ≠ "") :
    (tokenService.IsTokenBlacklisted redisCacheImpl
        (tokenService.BlacklistToken redisCacheImpl st nowUntil nowSet t expiry).1 now t2).2
      = (tokenService.IsTokenBlacklisted redisCacheImpl st now t2).2 ∧
    (tokenService.IsTokenBlacklisted redisCacheImpl
        (tokenService.RemoveFromBlacklist redisCacheImpl st nowDelete t).1 now t2).2
      = (tokenService.IsTokenBlacklisted redisCacheImpl st now t2).2 ∧
    (∀ a b : String, "blacklist:" ++ a = "blacklist:" ++ b → a = b) := by
  have hk : tokenService.tokenKey t2 ≠ tokenService.tokenKey t :=
    fun e => hne (tokenKey_injective _ _ e).symm
  refine ⟨?_, ?_, tokenKey_injective⟩
  · rw [IsTokenBlacklisted_snd _ _ _ ht2, IsTokenBlacklisted_snd _ _ _ ht2, Exists_snd,
      Exists_snd, BlacklistToken_store st nowUntil nowSet t expiry ht,
      Store.find_put_ne _ _ _ _ hk]
  · have hr : (tokenService.RemoveFromBlacklist redisCacheImpl st nowDelete t).1
        = Store.delete st (tokenService.tokenKey t) := by
      unfold tokenService.RemoveFromBlacklist
      rw [if_neg ht]
      rfl
    rw [IsTokenBlacklisted_snd _ _ _ ht2, IsTokenBlacklisted_snd _ _ _ ht2, Exists_snd,
      Exists_snd, hr, Store.find_delete_ne _ _ _ hk]

/-- The witness of C29: the tokens "tok" and "tok2" on the store that holds a
revocation entry for the access token of `alice`. -/
theorem revocation_per_token_witness :
    (tokenService.IsTokenBlacklisted redisCacheImpl
        (tokenService.BlacklistToken redisCacheImpl demo.revoked demo.later demo.later "tok"
          (unixTime 86500)).1 demo.later "tok2").2
      = (tokenService.IsTokenBlacklisted redisCacheImpl demo.revoked demo.later "tok2").2 :=
  (revocation_per_token demo.revoked "tok" "tok2" demo.later demo.later demo.later demo.later
    (unixTime 86500) (by decide) (by decide) (by decide)).1

/-! ## How long a revocation entry lives -/

/-- C23, counterexample: the token "tok" expired at the epoch is blacklisted
ten hours later; the store records the expiration eleven hours after the
epoch, which is later than the expiry of the token plus one hour. -/
theorem BlacklistToken_outlives_token_counterexample :
    Store.find
        (tokenService.BlacklistToken redisCacheImpl [] (10 * Hour) (10 * Hour) "tok"
          (unixTime 0)).1 "blacklist:tok"
      = some { value := "blacklisted", expiration := 11 * Hour } ∧
    ¬ (11 * Hour ≤ unixTime 0 + Hour) := by
  decide

/-- C23, amended: for every non-empty token, expiry time and clock readings
of `BlacklistToken`, the in-memory store records an entry for the token; when
the token has lifetime left its expiration is at most the expiry of the token
plus the time between the two clock readings, hence no later than the expiry
plus one hour when the cache call follows within the hour; when the token has
no lifetime left its expiration is the instant of the cache call plus one
hour. -/
theorem BlacklistToken_recorded_expiration (st : Store) (nowUntil nowSet : Time)
    (tokenString : String) (expiry : Time) (hne : tokenString ≠ "") :
    ∃ item,
      Store.find
          (tokenService.BlacklistToken redisCacheImpl st nowUntil nowSet tokenString expiry).1
          ("blacklist:" ++ tokenString) = some item ∧
      (0 < expiry - nowUntil → item.expiration ≤ expiry + (nowSet - nowUntil)) ∧
      (0 < expiry - nowUntil → nowSet - nowUntil ≤ Hour → item.expiration ≤ expiry + Hour) ∧
      (expiry - nowUntil ≤ 0 → item.expiration = nowSet + Hour) := by
  refine ⟨{ value := "blacklisted",
            expiration := Time.Add nowSet
              (if 0 < expiry - nowUntil then min (expiry - nowUntil) maxDuration else Hour) },
    ?_, ?_, ?_, ?_⟩
  · rw [BlacklistToken_store st nowUntil nowSet tokenString expiry hne]
    exact Store.find_put_self _ _ _
  · intro hpos
    simp only [Time.Add, if_pos hpos]
    have := min_le_left (expiry - nowUntil) maxDuration
    unfold Time Duration at *
    linarith
  · intro hpos hgap
    simp only [Time.Add, if_pos hpos]
    have := min_le_left (expiry - nowUntil) maxDuration
    unfold Time Duration at *
    linarith
  · intro hnon
    have : ¬ 0 < expiry - nowUntil := not_lt.mpr hnon
    simp only [Time.Add, if_neg this]

/-- The witness of C23: the token "tok" with one second left. -/
theorem BlacklistToken_recorded_expiration_witness :
    ∃ item,
      Store.find (tokenService.BlacklistToken redisCacheImpl [] 0 0 "tok" (unixTime 1)).1
          ("blacklist:" ++ "tok") = some item ∧
      (0 < unixTime 1 - 0 → item.expiration ≤ unixTime 1 + (0 - 0)) ∧
      (0 < unixTime 1 - 0 → (0 : Time) - 0 ≤ Hour → item.expiration ≤ unixTime 1 + Hour) ∧
      (unixTime 1 - 0 ≤ 0 → item.expiration = 0 + Hour) :=
  BlacklistToken_recorded_expiration [] 0 0 "tok" (unixTime 1) (by decide)

/-! ## Errors of the cache -/

/-- C26: over every cache, when the `Set`, `Exists` or `Delete` call returns
an error, `BlacklistToken`, `IsTokenBlacklisted` and `RemoveFromBlacklist`
return that error wrapped, with the state the cache returned; and when
`IsTokenBlacklisted` returns an error for the token of a Bearer header,
`TokenBlacklistMiddleware` aborts the request with status 500. -/
theorem cache_errors_propagate {σ : Type} (C : Cache σ) (st st2 : σ)
    (now nowUntil : Time) (tokenString : String) (expiry : Time) (c : Context) (err : Error) :
    (tokenString ≠ "" →
      C.Set st now (tokenService.tokenKey tokenString) "blacklisted"
          (if timeUntil nowUntil expiry ≤ 0 then Hour else timeUntil nowUntil expiry)
        = (st2, some err) →
      tokenService.BlacklistToken C st nowUntil now tokenString expiry
        = (st2, some (.wrap "failed to add token to blacklist" err))) ∧
    (tokenString ≠ "" →
      C.Exists st now (tokenService.tokenKey tokenString) = (st2, .error err) →
      tokenService.IsTokenBlacklisted C st now tokenString
        = (st2, .error (.wrap "failed to check token blacklist status" err))) ∧
    (tokenString ≠ "" →
      C.Delete st now (tokenService.tokenKey tokenString) = (st2, some err) →
      tokenService.RemoveFromBlacklist C st now tokenString
        = (st2, some (.wrap "failed to remove token from blacklist" err))) ∧
    (stringsSplitSpace c.request.authorization = ["Bearer", tokenString] →
      tokenService.IsTokenBlacklisted C st now tokenString = (st2, .error err) →
      TokenBlacklistMiddleware C st now c
        = (st2, .abort { status := 500, error := "Failed to check token status",
                         code := "" })) := by
  refine ⟨?_, ?_, ?_, ?_⟩
  · intro hne hset
    unfold tokenService.BlacklistToken
    simp only [if_neg hne, hset]
  · intro hne hex
    unfold tokenService.IsTokenBlacklisted
    simp only [if_neg hne, hex]
  · intro hne hdel
    unfold tokenService.RemoveFromBlacklist
    simp only [if_neg hne, hdel]
  · intro hsplit herr
    have hhead : c.request.authorization ≠ "" := by
      intro he
      rw [he] at hsplit
      have : stringsSplitSpace "" = [""] := by decide
      rw [this] at hsplit
      simp at hsplit
    unfold TokenBlacklistMiddleware
    simp only [if_neg hhead, hsplit, herr]
    simp [StatusInternalServerError]

/-- The witness of C26: the request "Bearer tok" over a cache whose every
operation fails. -/
theorem cache_errors_propagate_witness :
    TokenBlacklistMiddleware demo.failingCache () demo.later demo.tokRequest
      = ((), .abort { status := 500, error := "Failed to check token status", code := "" }) :=
  (cache_errors_propagate demo.failingCache () () demo.later demo.later "tok" (unixTime 86500)
    demo.tokRequest
    (.wrap "failed to check token blacklist status" (.other "redis: connection refused"))).2.2.2
    (by decide) (by decide)

/-! ## Refresh, and the active flag -/

/-- What `RefreshToken` returns for a correctly signed, unexpired refresh
token of a user found in the repository. -/
theorem RefreshToken_ok {σ : Type} (s : authService σ)
    (nowParse now1 now2 now3 now4 : Time) (jti1 jti2 : UUID)
    (tokenString : String) (seg : Segments) (alg : String) (h : Hash) (uid : String)
    (id : UUID) (user : User)
    (hne : tokenString ≠ "")
    (hseg : s.jwt.segments tokenString = some seg) (halg : seg.alg = some alg)
    (hmethod : GetSigningMethod alg = some (.HMAC h))
    (hsig : s.jwt.verify h s.config.Secret seg.signingInput seg.signature = true)
    (hvalid : MapClaims.Valid seg.claims nowParse = true)
    (htype : seg.claims.lookup "type" = some (.str "refresh"))
    (huid : seg.claims.lookup "user_id" = some (.str uid))
    (hparse : s.uuid.Parse uid = some id)
    (hrepo : s.userRepository.GetID id = .ok user) :
    s.RefreshToken nowParse now1 now2 now3 now4 jti1 jti2 tokenString
      = (.ok { AccessToken :=
                 s.jwt.signingString "HS256"
                   (authService.accessClaims s user (Time.Add now1 s.config.Expiry) now3 jti1)
                 ++ "." ++
                 s.jwt.sign .SHA256 s.config.Secret (s.jwt.signingString "HS256"
                   (authService.accessClaims s user (Time.Add now1 s.config.Expiry) now3 jti1)),
               User := UserResponseDTO.FromModel user,
               ExpiresAt := Time.Add now1 s.config.Expiry,
               Message := "Token refreshed successfully" }, [id]) := by
  unfold authService.RefreshToken
  rw [if_neg hne,
    jwtParse_ok s.jwt nowParse tokenString s.config.Secret seg alg h hseg halg hmethod hsig hvalid]
  simp only [htype, huid, hparse, hrepo, Bool.true_eq_false, if_false, ne_eq,
    not_true_eq_false]
  rfl

/-- C21: `RefreshToken` makes no call on the cache of the service: its result
is the same whatever cache, over whatever state, the service is built with;
and a refresh token with which it has succeeded is not revoked by that: at a
later clock reading at which the token is still unexpired `RefreshToken`
succeeds with it again. -/
theorem RefreshToken_ignores_store {σ τ : Type} (s : authService σ) (C : Cache τ)
    (nowParse now1 now2 now3 now4 : Time) (jti1 jti2 : UUID)
    (nowParseB now1B now2B now3B now4B : Time) (jti1B jti2B : UUID)
    (tokenString : String) (seg : Segments) (alg : String) (h : Hash) (uid : String)
    (id : UUID) (user : User)
    (hne : tokenString ≠ "")
    (hseg : s.jwt.segments tokenString = some seg) (halg : seg.alg = some alg)
    (hmethod : GetSigningMethod alg = some (.HMAC h))
    (hsig : s.jwt.verify h s.config.Secret seg.signingInput seg.signature = true)
    (hvalid : MapClaims.Valid seg.claims nowParse = true)
    (hvalidB : MapClaims.Valid seg.claims nowParseB = true)
    (htype : seg.claims.lookup "type" = some (.str "refresh"))
    (huid : seg.claims.lookup "user_id" = some (.str uid))
    (hparse : s.uuid.Parse uid = some id)
    (hrepo : s.userRepository.GetID id = .ok user) :
    (∀ (t1 t2 t3 t4 t5 : Time) (j1 j2 : UUID) (anyToken : String),
      authService.RefreshToken
          ({ userRepository := s.userRepository, cache := C, config := s.config,
             jwt := s.jwt, uuid := s.uuid } : authService τ) t1 t2 t3 t4 t5 j1 j2 anyToken
        = s.RefreshToken t1 t2 t3 t4 t5 j1 j2 anyToken) ∧
    (∃ response,
      (s.RefreshToken nowParse now1 now2 now3 now4 jti1 jti2 tokenString).1 = .ok response) ∧
    (∃ response,
      (s.RefreshToken nowParseB now1B now2B now3B now4B jti1B jti2B tokenString).1
        = .ok response) := by
  refine ⟨fun _ _ _ _ _ _ _ _ => rfl, ?_, ?_⟩
  · rw [RefreshToken_ok s nowParse now1 now2 now3 now4 jti1 jti2 tokenString seg alg h uid id
      user hne hseg halg hmethod hsig hvalid htype huid hparse hrepo]
    exact ⟨_, rfl⟩
  · rw [RefreshToken_ok s nowParseB now1B now2B now3B now4B jti1B jti2B tokenString seg alg h
      uid id user hne hseg halg hmethod hsig hvalidB htype huid hparse hrepo]
    exact ⟨_, rfl⟩

/-- The witness of C21: the refresh token of `alice` is used at 105 s and
again at 106 s. -/
theorem RefreshToken_ignores_store_witness :
    (∃ response,
      (demo.serviceBlocked.RefreshToken demo.later demo.later demo.later demo.later demo.later
        { bits := 3 } { bits := 4 } demo.refreshToken).1 = .ok response) ∧
    (∃ response,
      (demo.serviceBlocked.RefreshToken (106 * Second) (106 * Second) (106 * Second)
        (106 * Second) (106 * Second) { bits := 9 } { bits := 10 } demo.refreshToken).1
        = .ok response) :=
  (RefreshToken_ignores_store demo.serviceBlocked demo.failingCache demo.later demo.later
    demo.later demo.later demo.later { bits := 3 } { bits := 4 } (106 * Second) (106 * Second)
    (106 * Second) (106 * Second) (106 * Second) { bits := 9 } { bits := 10 }
    demo.refreshToken demo.aliceRefreshSegments "HS256" .SHA256 "uuid-7" demo.alice.ID
    demo.alice (by decide) (by decide) rfl (by decide) (by decide) (by decide) (by decide)
    (by decide) (by decide) (by decide) (by decide)).2

/-- C27: for a user whose `IsActive` flag is false, on a correctly signed,
unexpired access token of that user `VerifyToken` followed by
`GetUserFromToken` succeeds and returns the blocked user, and from a correctly
signed, unexpired refresh token of that user `RefreshToken` issues a new,
non-empty access token; `Login` with the phone of that user returns
`ErrAccountBlocked`. -/
theorem blocked_user_tokens_work {σ : Type} (s : authService σ) (user : User) (id : UUID)
    (uid : String) (nowV nowParse now1 now2 now3 now4 : Time) (jti1 jti2 : UUID)
    (accessToken refreshToken : String) (segA segR : Segments) (algA algR : String)
    (hA hR : Hash)
    (hblocked : user.IsActive = false)
    (hparse : s.uuid.Parse uid = some id)
    (hrepo : s.userRepository.GetID id = .ok user)
    (hneA : accessToken ≠ "")
    (hsegA : s.jwt.segments accessToken = some segA) (halgA : segA.alg = some algA)
    (hmethodA : GetSigningMethod algA = some (.HMAC hA))
    (hsigA : s.jwt.verify hA s.config.Secret segA.signingInput segA.signature = true)
    (hvalidA : MapClaims.Valid segA.claims nowV = true)
    (htypeA : segA.claims.lookup "type" = some (.str "access"))
    (huidA : segA.claims.lookup "user_id" = some (.str uid))
    (hneR : refreshToken ≠ "")
    (hsegR : s.jwt.segments refreshToken = some segR) (halgR : segR.alg = some algR)
    (hmethodR : GetSigningMethod algR = some (.HMAC hR))
    (hsigR : s.jwt.verify hR s.config.Secret segR.signingInput segR.signature = true)
    (hvalidR : MapClaims.Valid segR.claims nowParse = true)
    (htypeR : segR.claims.lookup "type" = some (.str "refresh"))
    (huidR : segR.claims.lookup "user_id" = some (.str uid)) :
    (∃ token userDTO,
      s.VerifyToken nowV accessToken = .ok token ∧
      s.GetUserFromToken (some token) = .ok userDTO ∧
      userDTO = UserResponseDTO.FromModel user ∧ userDTO.IsActive = false) ∧
    (∃ response,
      (s.RefreshToken nowParse now1 now2 now3 now4 jti1 jti2 refreshToken).1 = .ok response ∧
      response.AccessToken ≠ "" ∧ response.User.IsActive = false) ∧
    (∀ (B : BcryptLib) (request : LoginRequestDTO),
      s.userRepository.FindByPhone request.Phone = .ok user →
      s.Login B request now1 now2 now3 now4 jti1 jti2 = .error .ErrAccountBlocked) := by
  refine ⟨⟨{ Raw := accessToken, Method := .HMAC hA, alg := algA, Claims := segA.claims,
             Signature := segA.signature, Valid := true },
           UserResponseDTO.FromModel user, ?_, ?_, rfl, ?_⟩, ?_, ?_⟩
  · unfold authService.VerifyToken
    rw [if_neg hneA, jwtParse_ok s.jwt nowV accessToken s.config.Secret segA algA hA hsegA halgA
      hmethodA hsigA hvalidA]
    simp [htypeA]
  · unfold authService.GetUserFromToken
    simp [huidA, hparse, hrepo]
  · simp [UserResponseDTO.FromModel, hblocked]
  · rw [RefreshToken_ok s nowParse now1 now2 now3 now4 jti1 jti2 refreshToken segR algR hR uid id
      user hneR hsegR halgR hmethodR hsigR hvalidR htypeR huidR hparse hrepo]
    exact ⟨_, rfl, append_dot_ne_empty _ _, by simp [UserResponseDTO.FromModel, hblocked]⟩
  · intro B request hfind
    unfold authService.Login
    rw [hfind]
    simp [hblocked]

/-- The witness of C27: the blocked `bob` with the tokens issued to him at
100 s, presented at 105 s. -/
theorem blocked_user_tokens_work_witness :
    (∃ token userDTO,
      demo.serviceBlocked.VerifyToken demo.later demo.bobAccessToken = .ok token ∧
      demo.serviceBlocked.GetUserFromToken (some token) = .ok userDTO ∧
      userDTO = UserResponseDTO.FromModel demo.bob ∧ userDTO.IsActive = false) ∧
    (∃ response,
      (demo.serviceBlocked.RefreshToken demo.later demo.later demo.later demo.later demo.later
        { bits := 3 } { bits := 4 } demo.bobRefreshToken).1 = .ok response ∧
      response.AccessToken ≠ "" ∧ response.User.IsActive = false) :=
  let w := blocked_user_tokens_work demo.serviceBlocked demo.bob demo.bob.ID "uuid-8"
    demo.later demo.later demo.later demo.later demo.later demo.later { bits := 3 }
    { bits := 4 } demo.bobAccessToken demo.bobRefreshToken demo.bobAccessSegments
    demo.bobRefreshSegments "HS256" "HS256" .SHA256 .SHA256
    (by decide) (by decide) (by decide)
    (by decide) (by decide) rfl (by decide) (by decide) (by decide) (by decide) (by decide)
    (by decide) (by decide) rfl (by decide) (by decide) (by decide) (by decide) (by decide)
  ⟨w.1, w.2.1⟩

/-! ## What `Logout` refuses, and when it reaches the fallback -/

/-- A numeric, non-zero `exp` that is not after `now` fails the time
validation of `jwt.Parse`. -/
theorem Valid_false_of_past (c : Claims) (now : Time) (exp : Int)
    (hexp : c.lookup "exp" = some (.num exp)) (hnz : exp ≠ 0)
    (hpast : unixTime exp ≤ now) : MapClaims.Valid c now = false := by
  have hle : exp ≤ now.Unix := by
    unfold Time.Unix
    rw [Int.le_ediv_iff_mul_le (by decide : (0 : Int) < Second)]
    exact hpast
  unfold MapClaims.Valid
  rw [VerifyExpiresAt_false c now.Unix exp hexp hnz hle]
  rfl

/-- What `Logout` does with a parsed token that carries a numeric `exp`. -/
theorem Logout_parsed {σ : Type} (s : authService σ) (st : σ)
    (nowParse nowUntil nowSet : Time) (tokenString : String) (token : Token) (exp : Int)
    (hne : tokenString ≠ "")
    (hp : jwtParse s.jwt nowParse tokenString (keyFunc s.config.Secret) = .ok token)
    (hexp : token.Claims.lookup "exp" = some (.num exp)) :
    s.Logout st nowParse nowUntil nowSet tokenString
      = ((s.cache.Set st nowSet ("blacklist:" ++ tokenString) "blacklisted"
            (if 0 < unixTime exp - nowUntil then min (unixTime exp - nowUntil) maxDuration
             else Hour)).1,
         (s.cache.Set st nowSet ("blacklist:" ++ tokenString) "blacklisted"
            (if 0 < unixTime exp - nowUntil then min (unixTime exp - nowUntil) maxDuration
             else Hour)).2.map
           (fun e => Error.wrap "failed to blacklist token"
             (Error.wrap "failed to add token to blacklist" e))) := by
  obtain ⟨seg, alg, h, _, _, _, _, _, htok⟩ :=
    jwtParse_ok_inv s.jwt nowParse tokenString s.config.Secret token hp
  have hv : token.Valid = true := by rw [htok]
  unfold authService.Logout
  rw [if_neg hne, hp]
  simp only [hv, Bool.true_eq_false, if_false, hexp]
  unfold tokenService.BlacklistToken tokenService.tokenKey
  simp only [if_neg hne, blacklistExpiry_eq]
  rcases hset : s.cache.Set st nowSet ("blacklist:" ++ tokenString) "blacklisted"
      (if 0 < unixTime exp - nowUntil then min (unixTime exp - nowUntil) maxDuration else Hour)
    with ⟨st2, _ | err⟩ <;> simp

/-- C28, counterexample: `Logout` takes the one-hour fallback branch of
`BlacklistToken` for the correctly signed token whose `exp` is 0, which
`jwt.Parse` accepts at 105 s; and for the access token of `alice`, accepted
by `jwt.Parse` in the last nanosecond before its expiry, when the clock
reading of `time.Until` falls on the expiry.  In both cases the entry is
stored with a TTL of one hour. -/
theorem Logout_reaches_fallback :
    demo.service2.Logout [] demo.later demo.later demo.later demo.zeroExpToken
      = ([("blacklist:" ++ demo.zeroExpToken,
           { value := "blacklisted", expiration := demo.later + Hour })], none) ∧
    ¬ (demo.later < unixTime 0) ∧
    demo.service.Logout [] demo.lastInstant (unixTime 86500) (unixTime 86500) demo.accessToken
      = ([("blacklist:" ++ demo.accessToken,
           { value := "blacklisted", expiration := unixTime 86500 + Hour })], none) ∧
    demo.lastInstant < unixTime 86500 ∧ ¬ (unixTime 86500 < unixTime 86500) := by
  decide

/-- C28, amended: `Logout` returns an error and leaves the store as it was
for the empty string, for every token string `jwt.Parse` rejects (malformed,
wrongly signed, a non-zero `exp` that is not after the clock reading of the
parse) and for every parsed token without a numeric `exp`.  For a parsed
token with a numeric `exp` it makes one `Set` call; the TTL is the remaining
lifetime when the clock reading of `time.Until` is before the expiry, and the
one-hour fallback otherwise, which happens for an `exp` of 0 and when the
clock reaches the expiry between the parse and `time.Until`. -/
theorem Logout_rejections {σ : Type} (s : authService σ) (st : σ)
    (nowParse nowUntil nowSet : Time) (tokenString : String) :
    (tokenString = "" →
      s.Logout st nowParse nowUntil nowSet tokenString = (st, some .ErrInvalidToken)) ∧
    (∀ e, tokenString ≠ "" →
      jwtParse s.jwt nowParse tokenString (keyFunc s.config.Secret) = .error e →
      s.Logout st nowParse nowUntil nowSet tokenString
        = (st, some (.wrap "invalid token" e))) ∧
    (∀ seg exp, s.jwt.segments tokenString = some seg →
      seg.claims.lookup "exp" = some (.num exp) → exp ≠ 0 → unixTime exp ≤ nowParse →
      ∃ e, s.Logout st nowParse nowUntil nowSet tokenString = (st, some e)) ∧
    (∀ token, jwtParse s.jwt nowParse tokenString (keyFunc s.config.Secret) = .ok token →
      (∀ x, token.Claims.lookup "exp" ≠ some (.num x)) →
      s.Logout st nowParse nowUntil nowSet tokenString = (st, some .ErrInvalidToken)) ∧
    (∀ token exp, tokenString ≠ "" →
      jwtParse s.jwt nowParse tokenString (keyFunc s.config.Secret) = .ok token →
      token.Claims.lookup "exp" = some (.num exp) → nowUntil < unixTime exp →
      s.Logout st nowParse nowUntil nowSet tokenString
        = ((s.cache.Set st nowSet ("blacklist:" ++ tokenString) "blacklisted"
              (min (unixTime exp - nowUntil) maxDuration)).1,
           (s.cache.Set st nowSet ("blacklist:" ++ tokenString) "blacklisted"
              (min (unixTime exp - nowUntil) maxDuration)).2.map
             (fun e => Error.wrap "failed to blacklist token"
               (Error.wrap "failed to add token to blacklist" e)))) ∧
    (∀ token exp, tokenString ≠ "" →
      jwtParse s.jwt nowParse tokenString (keyFunc s.config.Secret) = .ok token →
      token.Claims.lookup "exp" = some (.num exp) → unixTime exp ≤ nowUntil →
      s.Logout st nowParse nowUntil nowSet tokenString
        = ((s.cache.Set st nowSet ("blacklist:" ++ tokenString) "blacklisted" Hour).1,
           (s.cache.Set st nowSet ("blacklist:" ++ tokenString) "blacklisted" Hour).2.map
             (fun e => Error.wrap "failed to blacklist token"
               (Error.wrap "failed to add token to blacklist" e)))) := by
  have hrej : ∀ e, tokenString ≠ "" →
      jwtParse s.jwt nowParse tokenString (keyFunc s.config.Secret) = .error e →
      s.Logout st nowParse nowUntil nowSet tokenString
        = (st, some (.wrap "invalid token" e)) := by
    intro e hne hp
    unfold authService.Logout
    rw [if_neg hne, hp]
  have hempty : tokenString = "" →
      s.Logout st nowParse nowUntil nowSet tokenString = (st, some .ErrInvalidToken) := by
    intro he
    unfold authService.Logout
    rw [if_pos he]
  refine ⟨hempty, hrej, ?_, ?_, ?_, ?_⟩
  · intro seg exp hseg hexp hnz hpast
    by_cases hne : tokenString = ""
    · exact ⟨_, hempty hne⟩
    · cases hp : jwtParse s.jwt nowParse tokenString (keyFunc s.config.Secret) with
      | error e => exact ⟨_, hrej e hne hp⟩
      | ok t =>
        obtain ⟨seg2, _, _, hs2, _, _, _, hv, _⟩ :=
          jwtParse_ok_inv s.jwt nowParse tokenString s.config.Secret t hp
        rw [hseg] at hs2
        cases hs2
        rw [Valid_false_of_past seg.claims nowParse exp hexp hnz hpast] at hv
        cases hv
  · intro token hp hnone
    obtain ⟨seg, alg, h, _, _, _, _, _, htok⟩ :=
      jwtParse_ok_inv s.jwt nowParse tokenString s.config.Secret token hp
    have hv : token.Valid = true := by rw [htok]
    by_cases hne : tokenString = ""
    · exact hempty hne
    · unfold authService.Logout
      rw [if_neg hne, hp]
      simp only [hv, Bool.true_eq_false, if_false]
  · intro token exp hne hp hexp hfuture
    rw [Logout_parsed s st nowParse nowUntil nowSet tokenString token exp hne hp hexp]
    have : 0 < unixTime exp - nowUntil := sub_pos.mpr hfuture
    rw [if_pos this]
  · intro token exp hne hp hexp hpast
    rw [Logout_parsed s st nowParse nowUntil nowSet tokenString token exp hne hp hexp]
    have : ¬ 0 < unixTime exp - nowUntil := not_lt.mpr (sub_nonpos.mpr hpast)
    rw [if_neg this]

/-- The witness of C28: the access token that expired at 50 s is refused by
`Logout` at 105 s and the store stays empty. -/
theorem Logout_rejections_witness :
    ∃ e, demo.service2.Logout [] demo.later demo.later demo.later demo.staleToken
      = ([], some e) :=
  (Logout_rejections demo.service2 [] demo.later demo.later demo.later demo.staleToken).2.2.1
    { alg := some "HS256", claims := Claims.decoded demo.staleAccess,
      signingInput := demo.signingString "HS256" demo.staleAccess,
      signature := demo.sign .SHA256 "k" (demo.signingString "HS256" demo.staleAccess) }
    50 (by decide) (by decide) (by decide) (by decide)

end GinAuth
